import Mathlib

/-!
# LowPolyJS: terrain generation and collision response (`src/main.js`)

Shallow embedding of the terrain height computation (`layeredNoise`,
`remapNoiseValue`, `createLandscape`), of the collision-response rules
(`playerCollisions`, `playerSphereCollision`, `updateSpheres`,
`spheresCollisions`) and of the simulation loop (`controls`, `updatePlayer`,
`teleportPlayerIfOob`, `animate`, `throwBall`).

Number model.  A JavaScript number is modelled by `JSNum`: a rational, or
one of the three non-finite values `NaN`, `+Infinity`, `-Infinity` (the sign of
zero is not modelled: a zero divisor is taken as `+0`).  The terrain code
divides by values that may be zero, so it is embedded over `JSNum`.  The
collision code only adds, subtracts, multiplies and divides by the non-zero
constant `2` or by a guarded vector length, so on finite inputs it stays finite
and is embedded over `ℚ`; `Math.sqrt` and `Math.exp` are taken as parameters
there.

The code is embedded twice.  The first embedding computes with exact
rationals.  The second embedding (names ending in `R`) passes every arithmetic
result through a rounding operator `fl`; `binary64` is round-to-nearest-even
to 53 significant bits with an unbounded exponent range (overflow and
underflow are not modelled), and the identity gives the exact embedding again.
Where an exact identity fails under rounding, the failure is evaluated in
`binary64` and the statement that remains is proved for every rounding operator
that satisfies `IsRounding`.
-/

namespace LowPoly

/-! ## JavaScript numbers -/

/-- A JavaScript number: exact rational, `+Infinity`, `-Infinity` or `NaN`. -/
inductive JSNum where
  | fin (q : ℚ)
  | pinf
  | ninf
  | nan
  deriving DecidableEq

namespace JSNum

/-- Unary minus. -/
def neg : JSNum → JSNum
  | fin q => fin (-q)
  | pinf => ninf
  | ninf => pinf
  | nan => nan

/-- The operator `+`: `Infinity + -Infinity` is `NaN`. -/
def add : JSNum → JSNum → JSNum
  | nan, _ => nan
  | _, nan => nan
  | fin a, fin b => fin (a + b)
  | fin _, pinf => pinf
  | fin _, ninf => ninf
  | pinf, fin _ => pinf
  | ninf, fin _ => ninf
  | pinf, pinf => pinf
  | ninf, ninf => ninf
  | pinf, ninf => nan
  | ninf, pinf => nan

/-- The operator `-`. -/
def sub (a b : JSNum) : JSNum := add a (neg b)

/-- An infinity with the sign of `+Infinity * q`; `NaN` when `q` is zero. -/
def infTimes (q : ℚ) : JSNum :=
  if q = 0 then nan else if 0 < q then pinf else ninf

/-- The operator `*`: `Infinity * 0` is `NaN`. -/
def mul : JSNum → JSNum → JSNum
  | nan, _ => nan
  | _, nan => nan
  | fin a, fin b => fin (a * b)
  | fin a, pinf => infTimes a
  | fin a, ninf => infTimes (-a)
  | pinf, fin b => infTimes b
  | ninf, fin b => infTimes (-b)
  | pinf, pinf => pinf
  | ninf, ninf => pinf
  | pinf, ninf => ninf
  | ninf, pinf => ninf

/-- The operator `/`: `0 / 0` and `Infinity / Infinity` are `NaN`, a non-zero
number over zero is an infinity, a finite number over an infinity is zero. -/
def div : JSNum → JSNum → JSNum
  | nan, _ => nan
  | _, nan => nan
  | fin a, fin b => if b = 0 then infTimes a else fin (a / b)
  | fin _, pinf => fin 0
  | fin _, ninf => fin 0
  | pinf, fin b => if 0 ≤ b then pinf else ninf
  | ninf, fin b => if 0 ≤ b then ninf else pinf
  | pinf, pinf => nan
  | ninf, ninf => nan
  | pinf, ninf => nan
  | ninf, pinf => nan

/-- The comparison `<`: false as soon as one side is `NaN`. -/
def lt : JSNum → JSNum → Bool
  | fin a, fin b => decide (a < b)
  | fin _, pinf => true
  | ninf, fin _ => true
  | ninf, pinf => true
  | _, _ => false

/-- The number is finite, as tested by `Number.isFinite`. -/
def isFinite : JSNum → Bool
  | fin _ => true
  | _ => false

instance : Add JSNum := ⟨add⟩
instance : Sub JSNum := ⟨sub⟩
instance : Mul JSNum := ⟨mul⟩
instance : Div JSNum := ⟨div⟩
instance : Neg JSNum := ⟨neg⟩

end JSNum

/-! ## Terrain generation -/

/-- The fields of `settings` read by the terrain code.  `octaves` is the
number of iterations of the loop `for (let i = 0; i < octaves; i++)`. -/
structure Settings where
  area : JSNum
  resolution : JSNum
  octaves : Nat
  persistence : JSNum
  scale : JSNum
  noiseFrequency : JSNum
  flattenThreshold : JSNum
  flatnessStrength : JSNum
  noiseFrequencyMultiplier : JSNum
  noiseAmplitude : JSNum
  noiseMaxVal : JSNum

/-- The initial value of `settings`. -/
def defaultSettings : Settings where
  area := .fin 500
  resolution := .fin 150
  octaves := 5
  persistence := .fin (1 / 2)
  scale := .fin (1 / 10)
  noiseFrequency := .fin (2 / 5)
  flattenThreshold := .fin 0
  flatnessStrength := .fin 0
  noiseFrequencyMultiplier := .fin 2
  noiseAmplitude := .fin 1
  noiseMaxVal := .fin 0

/-- The configuration of the example scenario of the specification: area
100, resolution 10, one octave, persistence 1, amplitude 1, multiplier 2,
threshold 0, strength 0; the other fields keep their initial values. -/
def scenarioSettings : Settings where
  area := .fin 100
  resolution := .fin 10
  octaves := 1
  persistence := .fin 1
  scale := .fin (1 / 10)
  noiseFrequency := .fin (2 / 5)
  flattenThreshold := .fin 0
  flatnessStrength := .fin 0
  noiseFrequencyMultiplier := .fin 2
  noiseAmplitude := .fin 1
  noiseMaxVal := .fin 0

/-- The initial settings with the octave count set to zero. -/
def zeroOctaveSettings : Settings := { defaultSettings with octaves := 0 }

/-- The initial settings with the base amplitude set to zero. -/
def zeroAmplitudeSettings : Settings := { defaultSettings with noiseAmplitude := .fin 0 }

/-- A noise field `noiseFn(x, z)`. -/
abbrev NoiseFn := JSNum → JSNum → JSNum

/-- The local variables of `layeredNoise` that the loop updates. -/
structure NoiseAcc where
  total : JSNum
  frequency : JSNum
  amplitude : JSNum
  maxValue : JSNum

/-- One iteration of the octave loop of `layeredNoise`. -/
def octaveStep (s : Settings) (noiseFn : NoiseFn) (x z persistence : JSNum)
    (a : NoiseAcc) : NoiseAcc where
  total := a.total + noiseFn (x * a.frequency) (z * a.frequency) * a.amplitude
  maxValue := a.maxValue + a.amplitude
  amplitude := a.amplitude * persistence
  frequency := a.frequency * s.noiseFrequencyMultiplier

/-- The octave loop of `layeredNoise`, run `n` times from the state `a`. -/
def octaveLoop (s : Settings) (noiseFn : NoiseFn) (x z persistence : JSNum) :
    Nat → NoiseAcc → NoiseAcc
  | 0, a => a
  | n + 1, a => octaveLoop s noiseFn x z persistence n (octaveStep s noiseFn x z persistence a)

/-- The state of `layeredNoise` when the loop is entered. -/
def noiseInit (s : Settings) : NoiseAcc where
  total := .fin 0
  frequency := s.noiseFrequency
  amplitude := s.noiseAmplitude
  maxValue := s.noiseMaxVal

/-- The state of `layeredNoise` when the loop is left. -/
def noiseFinal (s : Settings) (noiseFn : NoiseFn) (x z : JSNum) (octaves : Nat)
    (persistence : JSNum) : NoiseAcc :=
  octaveLoop s noiseFn x z persistence octaves (noiseInit s)

/-- The function `layeredNoise(x, z, noiseFn, octaves, persistence)`: it
returns `total / maxValue`. -/
def layeredNoise (s : Settings) (x z : JSNum) (noiseFn : NoiseFn) (octaves : Nat)
    (persistence : JSNum) : JSNum :=
  (noiseFinal s noiseFn x z octaves persistence).total /
    (noiseFinal s noiseFn x z octaves persistence).maxValue

/-- The function `remapNoiseValue(noiseValue, flattenThreshold, flatnessStrength)`. -/
def remapNoiseValue (noiseValue flattenThreshold flatnessStrength : JSNum) : JSNum :=
  if JSNum.lt noiseValue flattenThreshold then
    flattenThreshold + (noiseValue - flattenThreshold) * flatnessStrength
  else
    noiseValue

/-- The body of the vertex loop of `createLandscape`: the height written with
`position.setY(i, height)` for the vertex whose horizontal coordinates are `x`, `z`. -/
def vertexHeight (s : Settings) (noiseFn : NoiseFn) (x z : JSNum) : JSNum :=
  let noiseValue := layeredNoise s (x / (s.area / .fin 10)) (z / (s.area / .fin 10)) noiseFn
    s.octaves s.persistence
  let noiseValue := remapNoiseValue noiseValue s.flattenThreshold s.flatnessStrength
  noiseValue * (s.area * s.scale)

/-- The function `createLandscape(width, depth, resolution, noiseFn)`, as the
list of heights it writes.  The vertex grid of the rotated `PlaneGeometry` is
built by three.js: `plane width depth resolution` stands for the list of the
horizontal coordinates `(x, z)` of its vertices. -/
def createLandscape (s : Settings) (plane : JSNum → JSNum → JSNum → List (JSNum × JSNum))
    (width depth resolution : JSNum) (noiseFn : NoiseFn) : List JSNum :=
  (plane width depth resolution).map fun p => vertexHeight s noiseFn p.1 p.2

/-! ## Vectors and colliders (three.js `Vector3`, `Sphere`, `Capsule`) -/

/-- A three.js `Vector3` with finite components. -/
@[ext] structure Vec3 where
  x : ℚ
  y : ℚ
  z : ℚ
  deriving DecidableEq

namespace Vec3

/-- The vector `new THREE.Vector3()`. -/
def zero : Vec3 := ⟨0, 0, 0⟩

/-- The method `add(v)`. -/
def add (a v : Vec3) : Vec3 := ⟨a.x + v.x, a.y + v.y, a.z + v.z⟩

/-- The method `sub(v)`; `subVectors(a, b)` stores `a.sub b`. -/
def sub (a v : Vec3) : Vec3 := ⟨a.x - v.x, a.y - v.y, a.z - v.z⟩

/-- The method `negate()`. -/
def negate (a : Vec3) : Vec3 := ⟨-a.x, -a.y, -a.z⟩

/-- The method `multiplyScalar(s)`. -/
def multiplyScalar (a : Vec3) (s : ℚ) : Vec3 := ⟨a.x * s, a.y * s, a.z * s⟩

/-- The method `addScaledVector(v, s)`. -/
def addScaledVector (a v : Vec3) (s : ℚ) : Vec3 := ⟨a.x + v.x * s, a.y + v.y * s, a.z + v.z * s⟩

/-- The method `dot(v)`. -/
def dot (a v : Vec3) : ℚ := a.x * v.x + a.y * v.y + a.z * v.z

/-- The method `lengthSq()`. -/
def lengthSq (a : Vec3) : ℚ := a.x * a.x + a.y * a.y + a.z * a.z

/-- The method `distanceToSquared(v)`. -/
def distanceToSquared (a v : Vec3) : ℚ :=
  (a.x - v.x) * (a.x - v.x) + (a.y - v.y) * (a.y - v.y) + (a.z - v.z) * (a.z - v.z)

/-- The method `length()`, over the square root `sqrt`. -/
def length (sqrt : ℚ → ℚ) (a : Vec3) : ℚ := sqrt a.lengthSq

/-- The method `divideScalar(s)`, which three.js computes as `multiplyScalar(1 / s)`. -/
def divideScalar (a : Vec3) (s : ℚ) : Vec3 := a.multiplyScalar (1 / s)

/-- The method `normalize()`, which three.js computes as
`divideScalar(this.length() || 1)`: a vector of length zero is divided by one. -/
def normalize (sqrt : ℚ → ℚ) (a : Vec3) : Vec3 :=
  a.divideScalar (if a.length sqrt = 0 then 1 else a.length sqrt)

end Vec3

/-- A square root that is exact on the squares of rationals; it stands for
`Math.sqrt` where a concrete value is computed. -/
def ratSqrt (q : ℚ) : ℚ := (Nat.sqrt q.num.toNat : ℚ) / (Nat.sqrt q.den : ℚ)

/-- A three.js `Sphere`. -/
structure Sphere where
  center : Vec3
  radius : ℚ
  deriving DecidableEq

/-- A three.js `Capsule`. -/
structure Capsule where
  start : Vec3
  «end» : Vec3
  radius : ℚ
  deriving DecidableEq

/-- The method `Capsule.translate(v)`. -/
def Capsule.translate (c : Capsule) (v : Vec3) : Capsule :=
  { c with start := c.start.add v, «end» := c.end.add v }

/-- The object returned by a successful octree query. -/
structure Contact where
  normal : Vec3
  depth : ℚ
  deriving DecidableEq

/-- The two queries of `worldOctree` (three.js `Octree`); `none` is the
result `false`. -/
structure World where
  capsuleIntersect : Capsule → Option Contact
  sphereIntersect : Sphere → Option Contact

/-- An entry of `spheres`: its collider and its velocity. -/
structure Body where
  collider : Sphere
  velocity : Vec3
  deriving DecidableEq

/-- The player: `playerCollider`, `playerVelocity` and `playerOnFloor`. -/
structure Player where
  collider : Capsule
  velocity : Vec3
  onFloor : Bool
  deriving DecidableEq

/-! ## Physics constants and initial state -/

/-- The constant `GRAVITY`. -/
def GRAVITY : ℚ := 30

/-- The constant `NUM_SPHERES`. -/
def NUM_SPHERES : Nat := 100

/-- The constant `SPHERE_RADIUS`. -/
def SPHERE_RADIUS : ℚ := 1 / 5

/-- The constant `STEPS_PER_FRAME`. -/
def STEPS_PER_FRAME : Nat := 5

/-- The array `spheres` after the start-up loop. -/
def initialSpheres : List Body :=
  List.replicate NUM_SPHERES ⟨⟨⟨0, -100, 0⟩, SPHERE_RADIUS⟩, Vec3.zero⟩

/-- The capsule `playerCollider` as constructed at start-up. -/
def spawnCapsule : Capsule := ⟨⟨0, 7 / 20, 0⟩, ⟨0, 1, 0⟩, 7 / 20⟩

/-- The player at start-up. -/
def initialPlayer : Player := ⟨spawnCapsule, Vec3.zero, false⟩

/-! ## Collision response -/

/-- The function `playerCollisions()`. -/
def playerCollisions (w : World) (p : Player) : Player :=
  match w.capsuleIntersect p.collider with
  | none => { p with onFloor := false }
  | some result =>
    let playerOnFloor := decide (result.normal.y > 0)
    let playerVelocity :=
      if !playerOnFloor then
        p.velocity.addScaledVector result.normal (-(result.normal.dot p.velocity))
      else p.velocity
    { collider := p.collider.translate (result.normal.multiplyScalar result.depth)
      velocity := playerVelocity
      onFloor := playerOnFloor }

/-- First statement of the callback of `updateSpheres`: the center advances
by `velocity * deltaTime`. -/
def sphereIntegrate (deltaTime : ℚ) (b : Body) : Body :=
  { b with collider := { b.collider with
      center := b.collider.center.addScaledVector b.velocity deltaTime } }

/-- The `if (result) ... else ...` statement of the callback of
`updateSpheres`, for the query result `result`. -/
def sphereWorldResponse (result : Option Contact) (deltaTime : ℚ) (b : Body) : Body :=
  match result with
  | some result =>
    { collider := { b.collider with
        center := b.collider.center.add (result.normal.multiplyScalar result.depth) }
      velocity := b.velocity.addScaledVector result.normal
        (-(result.normal.dot b.velocity) * (3 / 2)) }
  | none =>
    { b with velocity := { b.velocity with y := b.velocity.y - GRAVITY * deltaTime } }

/-- The callback of `updateSpheres` up to the world response: integration,
query of the octree, response. -/
def sphereWorldStep (w : World) (deltaTime : ℚ) (b : Body) : Body :=
  let b1 := sphereIntegrate deltaTime b
  sphereWorldResponse (w.sphereIntersect b1.collider) deltaTime b1

/-- The damping statements of the callback of `updateSpheres`; `exp` is `Math.exp`. -/
def sphereDamping (exp : ℚ → ℚ) (deltaTime : ℚ) (b : Body) : Body :=
  let damping := exp (-(3 / 2) * deltaTime) - 1
  { b with velocity := b.velocity.addScaledVector b.velocity damping }

/-- The state that `playerSphereCollision` updates: the shared temporary
`vector1` (which holds `center` and then each `normal`), `playerVelocity`
and the sphere. -/
structure PlayerSphereState where
  vector1 : Vec3
  playerVelocity : Vec3
  sphere : Body

/-- One iteration of the loop of `playerSphereCollision`, for the value
`point` of the loop variable. -/
def playerSpherePoint (sqrt : ℚ → ℚ) (r : ℚ) (point : Vec3) (st : PlayerSphereState) :
    PlayerSphereState :=
  let sphere_center := st.sphere.collider.center
  let r2 := r * r
  let d2 := point.distanceToSquared sphere_center
  if d2 < r2 then
    let normal := (point.sub sphere_center).normalize sqrt
    let v1 := normal.multiplyScalar (normal.dot st.playerVelocity)
    let v2 := normal.multiplyScalar (normal.dot st.sphere.velocity)
    let d := (r - sqrt d2) / 2
    { vector1 := normal
      playerVelocity := (st.playerVelocity.add v2).sub v1
      sphere :=
        { collider := { st.sphere.collider with center := sphere_center.addScaledVector normal (-d) }
          velocity := (st.sphere.velocity.add v1).sub v2 } }
  else st

/-- The function `playerSphereCollision(sphere)`.  The third element of the
array `[start, end, center]` is the object `vector1` itself, so the third
iteration reads `vector1` as the first two iterations left it. -/
def playerSphereCollision (sqrt : ℚ → ℚ) (playerCollider : Capsule) (playerVelocity : Vec3)
    (sphere : Body) : Vec3 × Body :=
  let r := playerCollider.radius + sphere.collider.radius
  let st0 : PlayerSphereState :=
    { vector1 := (playerCollider.start.add playerCollider.end).multiplyScalar (1 / 2)
      playerVelocity := playerVelocity
      sphere := sphere }
  let st1 := playerSpherePoint sqrt r playerCollider.start st0
  let st2 := playerSpherePoint sqrt r playerCollider.end st1
  let st3 := playerSpherePoint sqrt r st2.vector1 st2
  (st3.playerVelocity, st3.sphere)

/-- The body of the inner loop of `spheresCollisions` for the pair `s1`, `s2`. -/
def collidePair (sqrt : ℚ → ℚ) (s1 s2 : Body) : Body × Body :=
  let d2 := s1.collider.center.distanceToSquared s2.collider.center
  let r := s1.collider.radius + s2.collider.radius
  let r2 := r * r
  if d2 < r2 then
    let normal := (s1.collider.center.sub s2.collider.center).normalize sqrt
    let v1 := normal.multiplyScalar (normal.dot s1.velocity)
    let v2 := normal.multiplyScalar (normal.dot s2.velocity)
    let d := (r - sqrt d2) / 2
    ({ collider := { s1.collider with center := s1.collider.center.addScaledVector normal d }
       velocity := (s1.velocity.add v2).sub v1 },
     { collider := { s2.collider with center := s2.collider.center.addScaledVector normal (-d) }
       velocity := (s2.velocity.add v1).sub v2 })
  else (s1, s2)

/-- The body of the inner loop of `spheresCollisions` at the indices `i`, `j`
of the pool. -/
def collideAt (sqrt : ℚ → ℚ) (i j : Nat) (pool : List Body) : List Body :=
  match pool[i]?, pool[j]? with
  | some s1, some s2 =>
    ((pool.set i (collidePair sqrt s1 s2).1).set j (collidePair sqrt s1 s2).2)
  | _, _ => pool

/-- The function `spheresCollisions()`: `i` runs over all indices, `j` over
the indices above `i`. -/
def spheresCollisions (sqrt : ℚ → ℚ) (spheres : List Body) : List Body :=
  let length := spheres.length
  (List.range length).foldl
    (fun pool i =>
      (List.range' (i + 1) (length - (i + 1))).foldl
        (fun pool j => collideAt sqrt i j pool) pool)
    spheres

/-- The callback of `updateSpheres` for one sphere; it returns the new
`playerVelocity` and the updated sphere. -/
def updateSphere (w : World) (sqrt exp : ℚ → ℚ) (playerCollider : Capsule) (deltaTime : ℚ)
    (playerVelocity : Vec3) (sphere : Body) : Vec3 × Body :=
  playerSphereCollision sqrt playerCollider playerVelocity
    (sphereDamping exp deltaTime (sphereWorldStep w deltaTime sphere))

/-- The function `updateSpheres(deltaTime)`; it returns the new
`playerVelocity` and the new pool. -/
def updateSpheres (w : World) (sqrt exp : ℚ → ℚ) (playerCollider : Capsule) (deltaTime : ℚ)
    (playerVelocity : Vec3) (pool : List Body) : Vec3 × List Body :=
  let r := pool.foldl
    (fun (acc : Vec3 × List Body) sphere =>
      ((updateSphere w sqrt exp playerCollider deltaTime acc.1 sphere).1,
        acc.2 ++ [(updateSphere w sqrt exp playerCollider deltaTime acc.1 sphere).2]))
    (playerVelocity, [])
  (r.1, spheresCollisions sqrt r.2)

/-! ## Simulation loop -/

/-- The method `cross(v)` of `Vector3`. -/
def Vec3.cross (a v : Vec3) : Vec3 :=
  ⟨a.y * v.z - a.z * v.y, a.z * v.x - a.x * v.z, a.x * v.y - a.y * v.x⟩

/-- The fields of `camera` that the simulation reads and writes: the
position and the Euler angles of `camera.rotation`. -/
structure Camera where
  position : Vec3
  rotation : Vec3
  deriving DecidableEq

/-- The entries of `keyStates` that `controls` reads; a key that was never
pressed reads as `false`. -/
structure KeyStates where
  KeyW : Bool
  KeyS : Bool
  KeyA : Bool
  KeyD : Bool
  Space : Bool
  ShiftLeft : Bool
  deriving DecidableEq

/-- What the simulation takes from three.js and from `Math`: the octree
queries, `Math.sqrt`, `Math.exp`, `camera.getWorldDirection` and the rotation
of a local axis into world space used by `translateX`, `translateY`,
`translateZ`. -/
structure Env where
  world : World
  sqrt : ℚ → ℚ
  exp : ℚ → ℚ
  getWorldDirection : Camera → Vec3
  localAxis : Camera → Vec3 → Vec3

/-- The mutable globals of `main.js` used by the simulation. -/
structure Game where
  player : Player
  camera : Camera
  spheres : List Body
  sphereIdx : Nat
  devMode : Bool
  keyStates : KeyStates
  mouseTime : ℚ

/-- The method `translateOnAxis(axis, distance)` of the camera, which
`translateX`, `translateY` and `translateZ` call with the unit axes. -/
def Camera.translateOnAxis (env : Env) (c : Camera) (axis : Vec3) (distance : ℚ) : Camera :=
  { c with position := c.position.add ((env.localAxis c axis).multiplyScalar distance) }

/-- The function `getForwardVector()`. -/
def getForwardVector (env : Env) (c : Camera) : Vec3 :=
  ({ env.getWorldDirection c with y := 0 } : Vec3).normalize env.sqrt

/-- The function `getSideVector()`; `camera.up` is `(0, 1, 0)`. -/
def getSideVector (env : Env) (c : Camera) : Vec3 :=
  (({ env.getWorldDirection c with y := 0 } : Vec3).normalize env.sqrt).cross ⟨0, 1, 0⟩

/-- The function `controls(deltaTime)`. -/
def controls (env : Env) (deltaTime : ℚ) (g : Game) : Game :=
  if g.devMode then
    let speedDelta := deltaTime * 25
    let c := g.camera
    let c := if g.keyStates.KeyW then c.translateOnAxis env ⟨0, 0, 1⟩ (-speedDelta) else c
    let c := if g.keyStates.KeyS then c.translateOnAxis env ⟨0, 0, 1⟩ speedDelta else c
    let c := if g.keyStates.KeyA then c.translateOnAxis env ⟨1, 0, 0⟩ (-speedDelta) else c
    let c := if g.keyStates.KeyD then c.translateOnAxis env ⟨1, 0, 0⟩ speedDelta else c
    let c := if g.keyStates.Space then c.translateOnAxis env ⟨0, 1, 0⟩ speedDelta else c
    let c := if g.keyStates.ShiftLeft then c.translateOnAxis env ⟨0, 1, 0⟩ (-speedDelta) else c
    { g with camera := c }
  else
    let speedDelta := deltaTime * (if g.player.onFloor then 25 else 8)
    let v := g.player.velocity
    let v := if g.keyStates.KeyW then
      v.add ((getForwardVector env g.camera).multiplyScalar speedDelta) else v
    let v := if g.keyStates.KeyS then
      v.add ((getForwardVector env g.camera).multiplyScalar (-speedDelta)) else v
    let v := if g.keyStates.KeyA then
      v.add ((getSideVector env g.camera).multiplyScalar (-speedDelta)) else v
    let v := if g.keyStates.KeyD then
      v.add ((getSideVector env g.camera).multiplyScalar speedDelta) else v
    let v := if g.player.onFloor && g.keyStates.Space then { v with y := 15 } else v
    { g with player := { g.player with velocity := v } }

/-- The statements of `updatePlayer` before the call of `playerCollisions`:
gravity when airborne, damping, translation of the capsule by
`velocity * deltaTime`. -/
def playerIntegrate (env : Env) (deltaTime : ℚ) (p : Player) : Player :=
  let damping := env.exp (-4 * deltaTime) - 1
  let velocity : Vec3 :=
    if !p.onFloor then { p.velocity with y := p.velocity.y - GRAVITY * deltaTime }
    else p.velocity
  let damping := if !p.onFloor then damping * (1 / 10) else damping
  let velocity := velocity.addScaledVector velocity damping
  let deltaPosition := velocity.multiplyScalar deltaTime
  { p with collider := p.collider.translate deltaPosition, velocity := velocity }

/-- The function `updatePlayer(deltaTime)`. -/
def updatePlayer (env : Env) (deltaTime : ℚ) (g : Game) : Game :=
  if !g.devMode then
    let p := playerCollisions env.world (playerIntegrate env deltaTime g.player)
    { g with player := p, camera := { g.camera with position := p.collider.end } }
  else g

/-- The call `updateSpheres(deltaTime)` on the globals. -/
def updateSpheresStep (env : Env) (deltaTime : ℚ) (g : Game) : Game :=
  { g with
    player := { g.player with
      velocity := (updateSpheres env.world env.sqrt env.exp g.player.collider deltaTime
        g.player.velocity g.spheres).1 }
    spheres := (updateSpheres env.world env.sqrt env.exp g.player.collider deltaTime
      g.player.velocity g.spheres).2 }

/-- The function `teleportPlayerIfOob()`. -/
def teleportPlayerIfOob (g : Game) : Game :=
  if g.camera.position.y ≤ -25 then
    { g with
      player := { g.player with collider := ⟨⟨0, 7 / 20, 0⟩, ⟨0, 1, 0⟩, 7 / 20⟩ }
      camera := { position := ⟨0, 1, 0⟩, rotation := ⟨0, 0, 0⟩ } }
  else g

/-- The body of the loop of `animate`: one substep. -/
def substep (env : Env) (deltaTime : ℚ) (g : Game) : Game :=
  teleportPlayerIfOob (updateSpheresStep env deltaTime (updatePlayer env deltaTime
    (controls env deltaTime g)))

/-- The loop of `animate`, for `n` remaining iterations. -/
def animateLoop (env : Env) (deltaTime : ℚ) : Nat → Game → Game
  | 0, g => g
  | n + 1, g => animateLoop env deltaTime n (substep env deltaTime g)

/-- The constant `deltaTime` of `animate`, for the value `elapsed` returned
by `clock.getDelta()`. -/
def frameDeltaTime (elapsed : ℚ) : ℚ := min (1 / 20) elapsed / (STEPS_PER_FRAME : ℚ)

/-- The simulation part of `animate()`, for the value `elapsed` returned by
`clock.getDelta()`. -/
def animate (env : Env) (elapsed : ℚ) (g : Game) : Game :=
  animateLoop env (frameDeltaTime elapsed) STEPS_PER_FRAME g

/-- The function `throwBall()`; `now` is the value of `performance.now()`.
A cursor outside the pool would make `spheres[sphereIdx]` undefined and the
handler throw before any assignment: the globals are then unchanged. -/
def throwBall (env : Env) (now : ℚ) (g : Game) : Game :=
  match g.spheres[g.sphereIdx]? with
  | none => g
  | some sphere =>
    let playerDirection := env.getWorldDirection g.camera
    let center := g.player.collider.end.addScaledVector playerDirection
      (g.player.collider.radius * (3 / 2))
    let impulse := 15 + 30 * (1 - env.exp ((g.mouseTime - now) * (1 / 1000)))
    let velocity := (playerDirection.multiplyScalar impulse).addScaledVector g.player.velocity 2
    { g with
      spheres := g.spheres.set g.sphereIdx
        { collider := { sphere.collider with center := center }, velocity := velocity }
      sphereIdx := (g.sphereIdx + 1) % g.spheres.length }

/-- Consecutive calls of `throwBall`, one for each entry of `times` (the
values of `performance.now()`). -/
def throwBalls (env : Env) : List ℚ → Game → Game
  | [], g => g
  | now :: times, g => throwBalls env times (throwBall env now g)

/-- The cursors at which the consecutive calls of `throwBalls` read the pool. -/
def throwCursors (env : Env) : List ℚ → Game → List Nat
  | [], _ => []
  | now :: times, g => g.sphereIdx :: throwCursors env times (throwBall env now g)

/-- The sum of the velocities of a pool. -/
def totalVelocity (pool : List Body) : Vec3 :=
  pool.foldl (fun acc b => acc.add b.velocity) Vec3.zero

/-- The shape of the player capsule: `end - start = (0, 0.65, 0)` and radius `0.35`. -/
def capsuleShape (c : Capsule) : Prop :=
  c.end.sub c.start = ⟨0, 13 / 20, 0⟩ ∧ c.radius = 7 / 20

instance (c : Capsule) : Decidable (capsuleShape c) :=
  inferInstanceAs (Decidable (_ ∧ _))

/-- The state of `playerSphereCollision` after the iterations for `start`
and `end`, when the third iteration begins. -/
def playerSphereAfterEnd (sqrt : ℚ → ℚ) (playerCollider : Capsule) (playerVelocity : Vec3)
    (sphere : Body) : PlayerSphereState :=
  let r := playerCollider.radius + sphere.collider.radius
  playerSpherePoint sqrt r playerCollider.end
    (playerSpherePoint sqrt r playerCollider.start
      { vector1 := (playerCollider.start.add playerCollider.end).multiplyScalar (1 / 2)
        playerVelocity := playerVelocity
        sphere := sphere })

/-! ## Binary64 rounding

The definitions above compute with exact rationals.  The definitions below
repeat the arithmetic of the same source lines with every result passed
through a rounding operator `fl`; `fl = id` gives the exact functions again and
`fl = binary64` rounds to 53 significant bits, to nearest, ties to even, as
binary64 does (the exponent range is unbounded: overflow and underflow are not
modelled). -/

/-- Round to the nearest integer, ties to the even one. -/
def roundHalfEven (y : ℚ) : ℤ :=
  if y - ⌊y⌋ < 1 / 2 then ⌊y⌋
  else if 1 / 2 < y - ⌊y⌋ then ⌊y⌋ + 1
  else if ⌊y⌋ % 2 = 0 then ⌊y⌋ else ⌊y⌋ + 1

/-- A positive rational rounded to 53 significant bits: the significand
`x / 2 ^ (log2 x - 52)` lies in `[2^52, 2^53)` and is rounded to an integer. -/
def round53 (x : ℚ) : ℚ :=
  (roundHalfEven (x / 2 ^ (Int.log 2 x - 52)) : ℚ) * 2 ^ (Int.log 2 x - 52)

/-- The binary64 number nearest to `x` (ties to even). -/
def binary64 (x : ℚ) : ℚ :=
  if x = 0 then 0 else if 0 < x then round53 x else -round53 (-x)

/-- The properties of a rounding operator that the theorems use: it is
monotone, idempotent, odd, fixes `0` and `1`, and has relative error at most
`2 ^ -53`. -/
structure IsRounding (fl : ℚ → ℚ) : Prop where
  mono : ∀ x y, x ≤ y → fl x ≤ fl y
  idem : ∀ x, fl (fl x) = fl x
  neg : ∀ x, fl (-x) = -fl x
  zero : fl 0 = 0
  one : fl 1 = 1
  err : ∀ x, |fl x - x| ≤ |x| / 2 ^ 53

/-- A finite JavaScript number rounded by `fl`; the other values are kept. -/
def JSNum.round (fl : ℚ → ℚ) : JSNum → JSNum
  | .fin q => .fin (fl q)
  | .pinf => .pinf
  | .ninf => .ninf
  | .nan => .nan

/-! ## Terrain generation with rounding -/

/-- One iteration of the octave loop of `layeredNoise`, every result rounded. -/
def octaveStepR (fl : ℚ → ℚ) (s : Settings) (noiseFn : NoiseFn) (x z persistence : JSNum)
    (a : NoiseAcc) : NoiseAcc where
  total := (a.total + (noiseFn ((x * a.frequency).round fl) ((z * a.frequency).round fl)
    * a.amplitude).round fl).round fl
  maxValue := (a.maxValue + a.amplitude).round fl
  amplitude := (a.amplitude * persistence).round fl
  frequency := (a.frequency * s.noiseFrequencyMultiplier).round fl

/-- The octave loop of `layeredNoise` with rounding, run `n` times from `a`. -/
def octaveLoopR (fl : ℚ → ℚ) (s : Settings) (noiseFn : NoiseFn) (x z persistence : JSNum) :
    Nat → NoiseAcc → NoiseAcc
  | 0, a => a
  | n + 1, a =>
    octaveLoopR fl s noiseFn x z persistence n (octaveStepR fl s noiseFn x z persistence a)

/-- The function `layeredNoise` with rounding. -/
def layeredNoiseR (fl : ℚ → ℚ) (s : Settings) (x z : JSNum) (noiseFn : NoiseFn) (octaves : Nat)
    (persistence : JSNum) : JSNum :=
  ((octaveLoopR fl s noiseFn x z persistence octaves (noiseInit s)).total /
    (octaveLoopR fl s noiseFn x z persistence octaves (noiseInit s)).maxValue).round fl

/-- The function `remapNoiseValue` with rounding. -/
def remapNoiseValueR (fl : ℚ → ℚ) (noiseValue flattenThreshold flatnessStrength : JSNum) :
    JSNum :=
  if JSNum.lt noiseValue flattenThreshold then
    (flattenThreshold
      + ((noiseValue - flattenThreshold).round fl * flatnessStrength).round fl).round fl
  else
    noiseValue

/-- The body of the vertex loop of `createLandscape` with rounding. -/
def vertexHeightR (fl : ℚ → ℚ) (s : Settings) (noiseFn : NoiseFn) (x z : JSNum) : JSNum :=
  let noiseValue := layeredNoiseR fl s ((x / (s.area / .fin 10).round fl).round fl)
    ((z / (s.area / .fin 10).round fl).round fl) noiseFn s.octaves s.persistence
  let noiseValue := remapNoiseValueR fl noiseValue s.flattenThreshold s.flatnessStrength
  (noiseValue * (s.area * s.scale).round fl).round fl

/-- The function `createLandscape` with rounding, as the list of heights. -/
def createLandscapeR (fl : ℚ → ℚ) (s : Settings)
    (plane : JSNum → JSNum → JSNum → List (JSNum × JSNum))
    (width depth resolution : JSNum) (noiseFn : NoiseFn) : List JSNum :=
  (plane width depth resolution).map fun p => vertexHeightR fl s noiseFn p.1 p.2

/-! ## Vectors and collision response with rounding -/

namespace Vec3

/-- Every component is a fixed point of `fl` (a stored binary64 value). -/
def FixedBy (fl : ℚ → ℚ) (a : Vec3) : Prop := fl a.x = a.x ∧ fl a.y = a.y ∧ fl a.z = a.z

/-- The method `add(v)` with rounding. -/
def addR (fl : ℚ → ℚ) (a v : Vec3) : Vec3 := ⟨fl (a.x + v.x), fl (a.y + v.y), fl (a.z + v.z)⟩

/-- The method `sub(v)` with rounding. -/
def subR (fl : ℚ → ℚ) (a v : Vec3) : Vec3 := ⟨fl (a.x - v.x), fl (a.y - v.y), fl (a.z - v.z)⟩

/-- The method `multiplyScalar(s)` with rounding. -/
def multiplyScalarR (fl : ℚ → ℚ) (a : Vec3) (s : ℚ) : Vec3 :=
  ⟨fl (a.x * s), fl (a.y * s), fl (a.z * s)⟩

/-- The method `addScaledVector(v, s)` with rounding. -/
def addScaledVectorR (fl : ℚ → ℚ) (a v : Vec3) (s : ℚ) : Vec3 :=
  ⟨fl (a.x + fl (v.x * s)), fl (a.y + fl (v.y * s)), fl (a.z + fl (v.z * s))⟩

/-- The method `dot(v)` with rounding. -/
def dotR (fl : ℚ → ℚ) (a v : Vec3) : ℚ :=
  fl (fl (fl (a.x * v.x) + fl (a.y * v.y)) + fl (a.z * v.z))

/-- The method `lengthSq()` with rounding. -/
def lengthSqR (fl : ℚ → ℚ) (a : Vec3) : ℚ :=
  fl (fl (fl (a.x * a.x) + fl (a.y * a.y)) + fl (a.z * a.z))

/-- The method `distanceToSquared(v)` with rounding. -/
def distanceToSquaredR (fl : ℚ → ℚ) (a v : Vec3) : ℚ :=
  fl (fl (fl (fl (a.x - v.x) * fl (a.x - v.x)) + fl (fl (a.y - v.y) * fl (a.y - v.y)))
    + fl (fl (a.z - v.z) * fl (a.z - v.z)))

/-- The method `normalize()` with rounding: `multiplyScalar(1 / (length() || 1))`;
`sqrt` is `Math.sqrt` on binary64 values. -/
def normalizeR (fl sqrt : ℚ → ℚ) (a : Vec3) : Vec3 :=
  a.multiplyScalarR fl
    (fl (1 / (if sqrt (a.lengthSqR fl) = 0 then 1 else sqrt (a.lengthSqR fl))))

end Vec3

/-- The method `Capsule.translate(v)` with rounding. -/
def Capsule.translateR (fl : ℚ → ℚ) (c : Capsule) (v : Vec3) : Capsule :=
  { c with start := c.start.addR fl v, «end» := c.end.addR fl v }

/-- The capsule `playerCollider` as constructed at start-up, with the
constant `0.35` rounded. -/
def spawnCapsuleR (fl : ℚ → ℚ) : Capsule := ⟨⟨0, fl (7 / 20), 0⟩, ⟨0, 1, 0⟩, fl (7 / 20)⟩

/-- The function `playerCollisions()` with rounding. -/
def playerCollisionsR (fl : ℚ → ℚ) (w : World) (p : Player) : Player :=
  match w.capsuleIntersect p.collider with
  | none => { p with onFloor := false }
  | some result =>
    let playerOnFloor := decide (result.normal.y > 0)
    let playerVelocity :=
      if !playerOnFloor then
        p.velocity.addScaledVectorR fl result.normal (-(result.normal.dotR fl p.velocity))
      else p.velocity
    { collider := p.collider.translateR fl (result.normal.multiplyScalarR fl result.depth)
      velocity := playerVelocity
      onFloor := playerOnFloor }

/-- The function `teleportPlayerIfOob()` with the constant `0.35` rounded. -/
def teleportPlayerIfOobR (fl : ℚ → ℚ) (g : Game) : Game :=
  if g.camera.position.y ≤ -25 then
    { g with
      player := { g.player with collider := ⟨⟨0, fl (7 / 20), 0⟩, ⟨0, 1, 0⟩, fl (7 / 20)⟩ }
      camera := { position := ⟨0, 1, 0⟩, rotation := ⟨0, 0, 0⟩ } }
  else g

/-- The body of the inner loop of `spheresCollisions` with rounding. -/
def collidePairR (fl sqrt : ℚ → ℚ) (s1 s2 : Body) : Body × Body :=
  let d2 := s1.collider.center.distanceToSquaredR fl s2.collider.center
  let r := fl (s1.collider.radius + s2.collider.radius)
  let r2 := fl (r * r)
  if d2 < r2 then
    let normal := (s1.collider.center.subR fl s2.collider.center).normalizeR fl sqrt
    let v1 := normal.multiplyScalarR fl (normal.dotR fl s1.velocity)
    let v2 := normal.multiplyScalarR fl (normal.dotR fl s2.velocity)
    let d := fl (fl (r - sqrt d2) / 2)
    ({ collider := { s1.collider with center := s1.collider.center.addScaledVectorR fl normal d }
       velocity := (s1.velocity.addR fl v2).subR fl v1 },
     { collider := { s2.collider with
         center := s2.collider.center.addScaledVectorR fl normal (-d) }
       velocity := (s2.velocity.addR fl v1).subR fl v2 })
  else (s1, s2)

/-- The body of the inner loop of `spheresCollisions` with rounding, at the
indices `i`, `j` of the pool. -/
def collideAtR (fl sqrt : ℚ → ℚ) (i j : Nat) (pool : List Body) : List Body :=
  match pool[i]?, pool[j]? with
  | some s1, some s2 =>
    ((pool.set i (collidePairR fl sqrt s1 s2).1).set j (collidePairR fl sqrt s1 s2).2)
  | _, _ => pool

/-- The function `spheresCollisions()` with rounding. -/
def spheresCollisionsR (fl sqrt : ℚ → ℚ) (spheres : List Body) : List Body :=
  let length := spheres.length
  (List.range length).foldl
    (fun pool i =>
      (List.range' (i + 1) (length - (i + 1))).foldl
        (fun pool j => collideAtR fl sqrt i j pool) pool)
    spheres

/-- One iteration of the loop of `playerSphereCollision` with rounding. -/
def playerSpherePointR (fl sqrt : ℚ → ℚ) (r : ℚ) (point : Vec3) (st : PlayerSphereState) :
    PlayerSphereState :=
  let sphere_center := st.sphere.collider.center
  let r2 := fl (r * r)
  let d2 := point.distanceToSquaredR fl sphere_center
  if d2 < r2 then
    let normal := (point.subR fl sphere_center).normalizeR fl sqrt
    let v1 := normal.multiplyScalarR fl (normal.dotR fl st.playerVelocity)
    let v2 := normal.multiplyScalarR fl (normal.dotR fl st.sphere.velocity)
    let d := fl (fl (r - sqrt d2) / 2)
    { vector1 := normal
      playerVelocity := (st.playerVelocity.addR fl v2).subR fl v1
      sphere :=
        { collider := { st.sphere.collider with
            center := sphere_center.addScaledVectorR fl normal (-d) }
          velocity := (st.sphere.velocity.addR fl v1).subR fl v2 } }
  else st

/-- The function `playerSphereCollision(sphere)` with rounding. -/
def playerSphereCollisionR (fl sqrt : ℚ → ℚ) (playerCollider : Capsule) (playerVelocity : Vec3)
    (sphere : Body) : Vec3 × Body :=
  let r := fl (playerCollider.radius + sphere.collider.radius)
  let st0 : PlayerSphereState :=
    { vector1 := (playerCollider.start.addR fl playerCollider.end).multiplyScalarR fl (1 / 2)
      playerVelocity := playerVelocity
      sphere := sphere }
  let st1 := playerSpherePointR fl sqrt r playerCollider.start st0
  let st2 := playerSpherePointR fl sqrt r playerCollider.end st1
  let st3 := playerSpherePointR fl sqrt r st2.vector1 st2
  (st3.playerVelocity, st3.sphere)

/-- The capsule is vertical and has the radius of the spawn capsule:
`start.x = end.x`, `start.z = end.z`, radius the rounded constant `0.35`. -/
def capsuleUpright (fl : ℚ → ℚ) (c : Capsule) : Prop :=
  c.start.x = c.end.x ∧ c.start.z = c.end.z ∧ c.radius = fl (7 / 20)

instance (fl : ℚ → ℚ) (c : Capsule) : Decidable (capsuleUpright fl c) :=
  inferInstanceAs (Decidable (_ ∧ _))

instance (fl : ℚ → ℚ) (a : Vec3) : Decidable (Vec3.FixedBy fl a) :=
  inferInstanceAs (Decidable (_ ∧ _))

/-- The initial value of `settings` with the constants `0.1` and `0.4` rounded. -/
def defaultSettingsR (fl : ℚ → ℚ) : Settings where
  area := .fin 500
  resolution := .fin 150
  octaves := 5
  persistence := .fin (1 / 2)
  scale := .fin (fl (1 / 10))
  noiseFrequency := .fin (fl (2 / 5))
  flattenThreshold := .fin 0
  flatnessStrength := .fin 0
  noiseFrequencyMultiplier := .fin 2
  noiseAmplitude := .fin 1
  noiseMaxVal := .fin 0

/-! ## Example worlds and bodies -/

/-- A world whose capsule and sphere queries always report a vertical wall:
normal `(1, 0, 0)`, depth `0.1`. -/
def wallWorld : World where
  capsuleIntersect := fun _ => some ⟨⟨1, 0, 0⟩, 1 / 10⟩
  sphereIntersect := fun _ => some ⟨⟨1, 0, 0⟩, 1 / 10⟩

/-- A world whose capsule and sphere queries always report a horizontal
floor: normal `(0, 1, 0)`, depth `0.1`. -/
def floorWorld : World where
  capsuleIntersect := fun _ => some ⟨⟨0, 1, 0⟩, 1 / 10⟩
  sphereIntersect := fun _ => some ⟨⟨0, 1, 0⟩, 1 / 10⟩

/-- A world without geometry: both queries report no contact. -/
def emptyWorld : World where
  capsuleIntersect := fun _ => none
  sphereIntersect := fun _ => none

/-- The player at the spawn pose moving away from the wall of `wallWorld`
with velocity `(1, 0, 0)`. -/
def playerLeavingWall : Player := ⟨spawnCapsule, ⟨1, 0, 0⟩, false⟩

/-- The player at the spawn pose falling with velocity `(0, -5, 0)`. -/
def playerFalling : Player := ⟨spawnCapsule, ⟨0, -5, 0⟩, false⟩

/-- Two spheres of radius `0.2` that exactly touch (centers `0.4` apart on
the x axis) and approach each other with velocities `(1, 0, 0)` and `(-1, 0, 0)`. -/
def touchingPair : List Body :=
  [⟨⟨⟨0, 0, 0⟩, SPHERE_RADIUS⟩, ⟨1, 0, 0⟩⟩, ⟨⟨⟨2 / 5, 0, 0⟩, SPHERE_RADIUS⟩, ⟨-1, 0, 0⟩⟩]

/-- A sphere of the pool launched from the origin with velocity `(2, -3, 1)`. -/
def flyingSphere : Body := ⟨⟨⟨0, 0, 0⟩, SPHERE_RADIUS⟩, ⟨2, -3, 1⟩⟩

/-- Two overlapping spheres of radius `0.2` (centers `0.3` apart on the x
axis) that approach each other with velocities `(-3/2, 0, 0)` and `(3/2, 0, 0)`. -/
def overlappingPair : List Body :=
  [⟨⟨⟨3 / 10, 0, 0⟩, 1 / 5⟩, ((⟨3 / 10, 0, 0⟩ : Vec3).sub ⟨0, 0, 0⟩).multiplyScalar (-5)⟩,
    ⟨⟨⟨0, 0, 0⟩, 1 / 5⟩, (((⟨3 / 10, 0, 0⟩ : Vec3).sub ⟨0, 0, 0⟩).multiplyScalar (-5)).negate⟩]

/-- No key is held. -/
def idleKeys : KeyStates := ⟨false, false, false, false, false, false⟩

/-- A rational stand-in for `Math.exp`, exact at `0`: the Taylor polynomial of
degree two. -/
def expTaylor (x : ℚ) : ℚ := 1 + x + x * x / 2

/-- An environment without world geometry, for a camera that is not rotated:
it looks along `(0, 0, -1)` and its local axes are the world axes. -/
def plainEnv : Env where
  world := emptyWorld
  sqrt := ratSqrt
  exp := expTaylor
  getWorldDirection := fun _ => ⟨0, 0, -1⟩
  localAxis := fun _ axis => axis

/-- A player that has fallen out of the world: the capsule end and the
camera are at height `-25`, the velocity is `(0, -40, 0)`. -/
def fallenGame : Game where
  player := ⟨⟨⟨3, -513 / 20, 2⟩, ⟨3, -25, 2⟩, 7 / 20⟩, ⟨0, -40, 0⟩, false⟩
  camera := ⟨⟨3, -25, 2⟩, ⟨1 / 10, 1 / 5, 0⟩⟩
  spheres := initialSpheres
  sphereIdx := 0
  devMode := false
  keyStates := idleKeys
  mouseTime := 0

/-- A sphere of the pool beside the start point of the spawn capsule, moving
towards it with velocity `(-1, 0, 0)`. -/
def sphereBesideStart : Body := ⟨⟨⟨3 / 10, 7 / 20, 0⟩, SPHERE_RADIUS⟩, ⟨-1, 0, 0⟩⟩

/-- A sphere of the pool as the start-up loop creates it. -/
def restingSphere : Body := ⟨⟨⟨0, -100, 0⟩, SPHERE_RADIUS⟩, Vec3.zero⟩

/-- Free-fly mode with the camera flown below the out-of-bounds threshold,
while the capsule stands away from the spawn point. -/
def freeFlyBelow : Game where
  player := ⟨⟨⟨5, 7 / 20, 3⟩, ⟨5, 1, 3⟩, 7 / 20⟩, Vec3.zero, true⟩
  camera := ⟨⟨5, -30, 3⟩, ⟨0, 0, 0⟩⟩
  spheres := initialSpheres
  sphereIdx := 0
  devMode := true
  keyStates := idleKeys
  mouseTime := 0

/-- Free-fly mode with the capsule at the spawn pose, the player at rest, and
one sphere of the pool beside the capsule. -/
def freeFlyHit : Game where
  player := ⟨spawnCapsule, Vec3.zero, false⟩
  camera := ⟨⟨0, 1, 0⟩, ⟨0, 0, 0⟩⟩
  spheres := sphereBesideStart :: List.replicate 99 restingSphere
  sphereIdx := 1
  devMode := true
  keyStates := idleKeys
  mouseTime := 0

/-- A world whose queries always report a horizontal floor, normal
`(0, 1, 0)`, with the depth `0.1` rounded. -/
def floorWorldR (fl : ℚ → ℚ) : World where
  capsuleIntersect := fun _ => some ⟨⟨0, 1, 0⟩, fl (1 / 10)⟩
  sphereIntersect := fun _ => some ⟨⟨0, 1, 0⟩, fl (1 / 10)⟩

/-- The player at start-up, with the constant `0.35` rounded. -/
def initialPlayerR (fl : ℚ → ℚ) : Player := ⟨spawnCapsuleR fl, Vec3.zero, false⟩

/-- The bound on the change of one component of the sum of two velocities
`v1`, `v2` that exchange the components `a`, `b` with rounding. -/
def exchangeBound (fl : ℚ → ℚ) (v1 v2 a b : ℚ) : ℚ :=
  (|v1 + b| + |fl (v1 + b) - a| + |v2 + a| + |fl (v2 + a) - b|) / 2 ^ 53

/-- A sphere of radius `0.2` at `(0.25, 0, 0)` with velocity `(0.1, 0, 0)`,
the constants rounded. -/
def driftFirst (fl : ℚ → ℚ) : Body := ⟨⟨⟨1 / 4, 0, 0⟩, fl (1 / 5)⟩, ⟨fl (1 / 10), 0, 0⟩⟩

/-- A sphere of radius `0.2` at the origin with velocity `(0.3, 0, 0)`, the
constants rounded. -/
def driftSecond (fl : ℚ → ℚ) : Body := ⟨⟨⟨0, 0, 0⟩, fl (1 / 5)⟩, ⟨fl (3 / 10), 0, 0⟩⟩

/-- Two overlapping spheres whose centers are `0.25` apart on the x axis. -/
def driftPair (fl : ℚ → ℚ) : List Body := [driftFirst fl, driftSecond fl]

/-- A sphere at rest of radius `0.2` rounded, with center `(0.75, 0, 0)`. -/
def nearFirst (fl : ℚ → ℚ) : Body := ⟨⟨⟨3 / 4, 0, 0⟩, fl (1 / 5)⟩, Vec3.zero⟩

/-- A sphere at rest of radius `0.2` rounded, with center `(0.5, 0, 0)`. -/
def nearSecond (fl : ℚ → ℚ) : Body := ⟨⟨⟨1 / 2, 0, 0⟩, fl (1 / 5)⟩, Vec3.zero⟩

/-- Two overlapping spheres at rest whose centers are `0.25` apart. -/
def nearPair (fl : ℚ → ℚ) : List Body := [nearFirst fl, nearSecond fl]

/-- A sphere of radius `0.2` rounded, at `(0.1875, 0.25, 0)`, with the
velocity `(0.1875, 0.25, 0)` along the line to the origin. -/
def headOnFirst (fl : ℚ → ℚ) : Body := ⟨⟨⟨3 / 16, 1 / 4, 0⟩, fl (1 / 5)⟩, ⟨3 / 16, 1 / 4, 0⟩⟩

/-- A sphere of radius `0.2` rounded, at the origin, with the opposite
velocity `(-0.1875, -0.25, 0)`. -/
def headOnSecond (fl : ℚ → ℚ) : Body :=
  ⟨⟨⟨0, 0, 0⟩, fl (1 / 5)⟩, (⟨3 / 16, 1 / 4, 0⟩ : Vec3).negate⟩

/-- A sphere of radius `394318665 / 1073741824` whose center is at distance
twice that radius from the origin; all four numbers are binary64 values. -/
def touchFirst : Body :=
  ⟨⟨⟨236591199 / 536870912, 78863733 / 134217728, 0⟩, 394318665 / 1073741824⟩, Vec3.zero⟩

/-- A sphere of the same radius at the origin. -/
def touchSecond : Body := ⟨⟨⟨0, 0, 0⟩, 394318665 / 1073741824⟩, Vec3.zero⟩

/-- A sphere of the pool as the start-up loop creates it, with the radius
`0.2` rounded. -/
def restingSphereR (fl : ℚ → ℚ) : Body := ⟨⟨⟨0, -100, 0⟩, fl (1 / 5)⟩, Vec3.zero⟩

/-- The body that `throwBall` leaves at the cursor when `sphere` was there:
the collider keeps its radius, the center is `playerCollider.end` moved along
the camera direction by `1.5` radii, the velocity is the camera direction times
the impulse plus twice the player velocity. -/
def launchedBody (env : Env) (now : ℚ) (g : Game) (sphere : Body) : Body :=
  { collider :=
      { sphere.collider with
        center := g.player.collider.end.addScaledVector (env.getWorldDirection g.camera)
          (g.player.collider.radius * (3 / 2)) }
    velocity :=
      ((env.getWorldDirection g.camera).multiplyScalar
        (15 + 30 * (1 - env.exp ((g.mouseTime - now) * (1 / 1000))))).addScaledVector
        g.player.velocity 2 }

/-- The pool `touchingPair` with the constants `0.2` and `0.4` rounded. -/
def touchingPairR (fl : ℚ → ℚ) : List Body :=
  [⟨⟨⟨0, 0, 0⟩, fl (1 / 5)⟩, ⟨1, 0, 0⟩⟩, ⟨⟨⟨fl (2 / 5), 0, 0⟩, fl (1 / 5)⟩, ⟨-1, 0, 0⟩⟩]

/-! ## Arithmetic of `JSNum` on finite values -/

namespace JSNum

@[simp] theorem fin_add_fin (a b : ℚ) : (fin a + fin b : JSNum) = fin (a + b) := rfl

@[simp] theorem fin_mul_fin (a b : ℚ) : (fin a * fin b : JSNum) = fin (a * b) := rfl

@[simp] theorem fin_sub_fin (a b : ℚ) : (fin a - fin b : JSNum) = fin (a - b) := by
  show fin (a + -b) = fin (a - b)
  rw [sub_eq_add_neg]

theorem fin_div_fin (a b : ℚ) (hb : b ≠ 0) : (fin a / fin b : JSNum) = fin (a / b) := by
  show (if b = 0 then infTimes a else fin (a / b)) = fin (a / b)
  rw [if_neg hb]

@[simp] theorem lt_fin_fin (a b : ℚ) : lt (fin a) (fin b) = decide (a < b) := rfl

theorem lt_irrefl (a : JSNum) : lt a a = false := by
  cases a <;> simp [lt]

theorem infTimes_isFinite (q : ℚ) : (infTimes q).isFinite = false := by
  unfold infTimes
  split_ifs <;> rfl

/-- Dividing by zero never gives a finite number. -/
theorem div_zero_isFinite (a : JSNum) : (a / fin 0).isFinite = false := by
  cases a with
  | fin q =>
    show (if (0 : ℚ) = 0 then infTimes q else fin (q / 0)).isFinite = false
    rw [if_pos rfl]
    exact infTimes_isFinite q
  | pinf => show (if (0 : ℚ) ≤ 0 then pinf else ninf).isFinite = false; simp [isFinite]
  | ninf => show (if (0 : ℚ) ≤ 0 then ninf else pinf).isFinite = false; simp [isFinite]
  | nan => rfl

/-- A product with a non-finite factor on the left is not finite. -/
theorem mul_isFinite_left (a b : JSNum) (ha : a.isFinite = false) :
    (a * b).isFinite = false := by
  cases a <;> cases b <;> first
    | (simp [isFinite] at ha; done)
    | rfl
    | exact infTimes_isFinite _

/-- A product with a non-finite factor on the right is not finite. -/
theorem mul_isFinite_right (a b : JSNum) (hb : b.isFinite = false) :
    (a * b).isFinite = false := by
  cases a <;> cases b <;> first
    | (simp [isFinite] at hb; done)
    | rfl
    | exact infTimes_isFinite _

/-- A sum whose right term is not finite is not finite. -/
theorem add_isFinite_right (a b : JSNum) (hb : b.isFinite = false) :
    (a + b).isFinite = false := by
  cases a <;> cases b <;> first
    | (simp [isFinite] at hb; done)
    | rfl

/-- A difference whose left term is not finite is not finite. -/
theorem sub_isFinite_left (a b : JSNum) (ha : a.isFinite = false) :
    (a - b).isFinite = false := by
  cases a <;> cases b <;> first
    | (simp [isFinite] at ha; done)
    | rfl

end JSNum

/-- The function `remapNoiseValue` maps a non-finite value to a non-finite value. -/
theorem remapNoiseValue_isFinite (v t s : JSNum) (hv : v.isFinite = false) :
    (remapNoiseValue v t s).isFinite = false := by
  unfold remapNoiseValue
  split_ifs
  · exact JSNum.add_isFinite_right _ _
      (JSNum.mul_isFinite_left _ _ (JSNum.sub_isFinite_left _ _ hv))
  · exact hv

/-! ## Layered noise -/

/-- Octave loop over a constant noise field: the total stays `c` times the
accumulated amplitude, which does not decrease and is positive after one
iteration. -/
theorem octaveLoop_const (s : Settings) (noiseFn : NoiseFn) (c p : ℚ) (x z : JSNum)
    (hc : ∀ u v, noiseFn u v = .fin c) (hp : 0 < p) :
    ∀ (n : Nat) (a : NoiseAcc) (M A : ℚ), a.total = .fin (c * M) → a.maxValue = .fin M →
      a.amplitude = .fin A → 0 < A → 0 ≤ M →
      ∃ M', (octaveLoop s noiseFn x z (.fin p) n a).total = .fin (c * M') ∧
        (octaveLoop s noiseFn x z (.fin p) n a).maxValue = .fin M' ∧ M ≤ M' ∧
        (0 < n → 0 < M') := by
  intro n
  induction n with
  | zero =>
    intro a M A ht hm _ _ hM
    exact ⟨M, ht, hm, le_refl M, fun h => absurd h (lt_irrefl 0)⟩
  | succ n ih =>
    intro a M A ht hm hA hA0 hM
    have h1 : (octaveStep s noiseFn x z (.fin p) a).total = .fin (c * (M + A)) := by
      simp only [octaveStep, ht, hA, hc, JSNum.fin_mul_fin, JSNum.fin_add_fin]
      congr 1
      ring
    have h2 : (octaveStep s noiseFn x z (.fin p) a).maxValue = .fin (M + A) := by
      simp only [octaveStep, hm, hA, JSNum.fin_add_fin]
    have h3 : (octaveStep s noiseFn x z (.fin p) a).amplitude = .fin (A * p) := by
      simp only [octaveStep, hA, JSNum.fin_mul_fin]
    obtain ⟨M', e1, e2, e3, _⟩ :=
      ih (octaveStep s noiseFn x z (.fin p) a) (M + A) (A * p) h1 h2 h3
        (mul_pos hA0 hp) (by linarith)
    exact ⟨M', e1, e2, by linarith, fun _ => by linarith⟩

/-- Octave loop over a noise field with values in `[-1, 1]`: the absolute
value of the total is at most the accumulated amplitude, which does not
decrease. -/
theorem octaveLoop_bounded (s : Settings) (noiseFn : NoiseFn) (p : ℚ) (x z : JSNum)
    (hf : ∀ u v, ∃ q, noiseFn u v = .fin q ∧ -1 ≤ q ∧ q ≤ 1) (hp : 0 ≤ p) :
    ∀ (n : Nat) (a : NoiseAcc) (T M A : ℚ), a.total = .fin T → a.maxValue = .fin M →
      a.amplitude = .fin A → 0 ≤ A → |T| ≤ M →
      ∃ T' M', (octaveLoop s noiseFn x z (.fin p) n a).total = .fin T' ∧
        (octaveLoop s noiseFn x z (.fin p) n a).maxValue = .fin M' ∧ |T'| ≤ M' ∧
        M ≤ M' ∧ (0 < n → M + A ≤ M') := by
  intro n
  induction n with
  | zero =>
    intro a T M A ht hm _ _ hT
    exact ⟨T, M, ht, hm, hT, le_refl M, fun h => absurd h (lt_irrefl 0)⟩
  | succ n ih =>
    intro a T M A ht hm hA hA0 hT
    obtain ⟨q, hq, hq1, hq2⟩ := hf (x * a.frequency) (z * a.frequency)
    have h1 : (octaveStep s noiseFn x z (.fin p) a).total = .fin (T + q * A) := by
      simp only [octaveStep, ht, hA, hq, JSNum.fin_mul_fin, JSNum.fin_add_fin]
    have h2 : (octaveStep s noiseFn x z (.fin p) a).maxValue = .fin (M + A) := by
      simp only [octaveStep, hm, hA, JSNum.fin_add_fin]
    have h3 : (octaveStep s noiseFn x z (.fin p) a).amplitude = .fin (A * p) := by
      simp only [octaveStep, hA, JSNum.fin_mul_fin]
    have hT2 := abs_le.mp hT
    have hb : |T + q * A| ≤ M + A := by
      rw [abs_le]
      constructor <;> nlinarith [hT2.1, hT2.2]
    obtain ⟨T', M', e1, e2, e3, e4, _⟩ :=
      ih (octaveStep s noiseFn x z (.fin p) a) (T + q * A) (M + A) (A * p) h1 h2 h3
        (mul_nonneg hA0 hp) hb
    exact ⟨T', M', e1, e2, e3, by linarith, fun _ => e4⟩

/-- Exact arithmetic: over a noise field that returns the constant `c` everywhere, with
`noiseMaxVal = 0`, `noiseAmplitude > 0`, `persistence > 0` and at least one
octave, `layeredNoise` returns exactly `c` at every `(x, z)`, whatever the
frequency and its multiplier; when moreover `c` is at least the flatten
threshold, every height written by `createLandscape` is `c * (area * scale)`. -/
theorem layeredNoise_constant_exact (s : Settings) (noiseFn : NoiseFn) (c a p t : ℚ)
    (hc : ∀ u v, noiseFn u v = .fin c) (hmax : s.noiseMaxVal = .fin 0)
    (ha : s.noiseAmplitude = .fin a) (ha0 : 0 < a) (hp : 0 < p) :
    (∀ (octaves : Nat) (x z : JSNum), 1 ≤ octaves →
      layeredNoise s x z noiseFn octaves (.fin p) = .fin c) ∧
    (s.persistence = .fin p → 1 ≤ s.octaves → s.flattenThreshold = .fin t → t ≤ c →
      ∀ (plane : JSNum → JSNum → JSNum → List (JSNum × JSNum)) (width depth resolution : JSNum),
        ∀ height ∈ createLandscape s plane width depth resolution noiseFn,
          height = .fin c * (s.area * s.scale)) := by
  have key : ∀ (octaves : Nat) (x z : JSNum), 1 ≤ octaves →
      layeredNoise s x z noiseFn octaves (.fin p) = .fin c := by
    intro octaves x z ho
    obtain ⟨M, e1, e2, _, e4⟩ :=
      octaveLoop_const s noiseFn c p x z hc hp octaves (noiseInit s) 0 a
        (by simp [noiseInit]) (by simp [noiseInit, hmax]) (by simp [noiseInit, ha]) ha0
        (le_refl 0)
    have hM : 0 < M := e4 ho
    unfold layeredNoise noiseFinal
    rw [e1, e2, JSNum.fin_div_fin _ _ (ne_of_gt hM)]
    congr 1
    field_simp
  refine ⟨key, ?_⟩
  intro hpers hoct hthr htc plane width depth resolution height hmem
  unfold createLandscape at hmem
  obtain ⟨xz, _, rfl⟩ := List.mem_map.mp hmem
  unfold vertexHeight
  simp only [hpers, key _ _ _ hoct, hthr, remapNoiseValue, JSNum.lt_fin_fin]
  rw [if_neg (by simpa using htc)]

/-- C2: over a noise field with values in `[-1, 1]`, with `noiseMaxVal = 0`,
`noiseAmplitude > 0`, `persistence >= 0` and at least one octave, the
accumulated total is bounded in absolute value by the accumulated `maxValue`,
and `layeredNoise` returns a number in `[-1, 1]` at every `(x, z)`. -/
theorem layeredNoise_in_unit_interval (s : Settings) (noiseFn : NoiseFn) (a p : ℚ)
    (octaves : Nat) (x z : JSNum)
    (hf : ∀ u v, ∃ q, noiseFn u v = .fin q ∧ -1 ≤ q ∧ q ≤ 1)
    (hmax : s.noiseMaxVal = .fin 0) (ha : s.noiseAmplitude = .fin a) (ha0 : 0 < a)
    (hp : 0 ≤ p) (ho : 1 ≤ octaves) :
    (∃ T M, (noiseFinal s noiseFn x z octaves (.fin p)).total = .fin T ∧
      (noiseFinal s noiseFn x z octaves (.fin p)).maxValue = .fin M ∧ |T| ≤ M) ∧
    ∃ q, layeredNoise s x z noiseFn octaves (.fin p) = .fin q ∧ -1 ≤ q ∧ q ≤ 1 := by
  obtain ⟨T, M, e1, e2, e3, _, e5⟩ :=
    octaveLoop_bounded s noiseFn p x z hf hp octaves (noiseInit s) 0 0 a
      (by simp [noiseInit]) (by simp [noiseInit, hmax]) (by simp [noiseInit, ha])
      (le_of_lt ha0) (by simp)
  have hM : 0 < M := by
    have := e5 ho
    linarith
  refine ⟨⟨T, M, e1, e2, e3⟩, T / M, ?_, ?_, ?_⟩
  · unfold layeredNoise noiseFinal
    rw [e1, e2, JSNum.fin_div_fin _ _ (ne_of_gt hM)]
  · rw [le_div_iff₀ hM]
    linarith [(abs_le.mp e3).1]
  · rw [div_le_iff₀ hM]
    linarith [(abs_le.mp e3).2]

/-- C2 at the initial settings (five octaves, persistence one half) and the
noise field that is `-1` everywhere. -/
theorem layeredNoise_in_unit_interval_witness :
    (0 : ℚ) < 1 ∧
    ∃ q, layeredNoise defaultSettings (.fin 3) (.fin 4) (fun _ _ => .fin (-1)) 5 (.fin (1 / 2))
      = .fin q ∧ -1 ≤ q ∧ q ≤ 1 :=
  ⟨by norm_num,
    (layeredNoise_in_unit_interval defaultSettings (fun _ _ => .fin (-1)) 1 (1 / 2) 5 _ _
      (fun _ _ => ⟨-1, rfl, le_refl _, by norm_num⟩) rfl rfl (by norm_num) (by norm_num)
      (by norm_num)).2⟩

/-- C3, refuted: with `octaves = 0` and `noiseMaxVal = 0`, and likewise with
`noiseAmplitude = 0`, the accumulated `maxValue` is zero, `layeredNoise`
returns `NaN` and `createLandscape` writes the height `NaN`. -/
theorem layeredNoise_zero_maxValue_returns_nan :
    (noiseFinal zeroOctaveSettings (fun _ _ => .fin (1 / 2)) (.fin 0) (.fin 0) 0
      (.fin (1 / 2))).maxValue = .fin 0 ∧
    layeredNoise zeroOctaveSettings (.fin 0) (.fin 0) (fun _ _ => .fin (1 / 2)) 0 (.fin (1 / 2))
      = .nan ∧
    createLandscape zeroOctaveSettings (fun _ _ _ => [(.fin 0, .fin 0)]) (.fin 500) (.fin 500)
      (.fin 150) (fun _ _ => .fin (1 / 2)) = [.nan] ∧
    (noiseFinal zeroAmplitudeSettings (fun _ _ => .fin (1 / 2)) (.fin 0) (.fin 0) 5
      (.fin (1 / 2))).maxValue = .fin 0 ∧
    layeredNoise zeroAmplitudeSettings (.fin 0) (.fin 0) (fun _ _ => .fin (1 / 2)) 5
      (.fin (1 / 2)) = .nan ∧
    createLandscape zeroAmplitudeSettings (fun _ _ _ => [(.fin 0, .fin 0)]) (.fin 500) (.fin 500)
      (.fin 150) (fun _ _ => .fin (1 / 2)) = [.nan] := by
  have h0 : (JSNum.fin 0 / JSNum.fin 0 : JSNum) = .nan := by decide
  have hr : ∀ y : JSNum, remapNoiseValue .nan (.fin 0) (.fin 0) * y = .nan := by
    intro y
    cases y <;> rfl
  refine ⟨by decide, by decide, by decide, ?_, ?_, ?_⟩
  · simp [noiseFinal, octaveLoop, octaveStep, noiseInit, zeroAmplitudeSettings, defaultSettings]
  · simp [layeredNoise, noiseFinal, octaveLoop, octaveStep, noiseInit, zeroAmplitudeSettings,
      defaultSettings, h0]
  · simp [createLandscape, vertexHeight, layeredNoise, noiseFinal, octaveLoop, octaveStep,
      noiseInit, zeroAmplitudeSettings, defaultSettings, h0, hr]

/-- C3, amended: `layeredNoise` has no error path and always returns
`total / maxValue`; whenever the accumulated `maxValue` evaluates to zero the
returned value is not finite (`NaN` or an infinity), and the height that
`createLandscape` computes for a vertex whose `maxValue` is zero is not finite
either. -/
theorem layeredNoise_zero_maxValue_not_finite (s : Settings) (noiseFn : NoiseFn) :
    (∀ (x z persistence : JSNum) (octaves : Nat),
      (noiseFinal s noiseFn x z octaves persistence).maxValue = .fin 0 →
      layeredNoise s x z noiseFn octaves persistence
        = (noiseFinal s noiseFn x z octaves persistence).total / .fin 0 ∧
      (layeredNoise s x z noiseFn octaves persistence).isFinite = false) ∧
    (∀ x z : JSNum,
      (noiseFinal s noiseFn (x / (s.area / .fin 10)) (z / (s.area / .fin 10)) s.octaves
        s.persistence).maxValue = .fin 0 →
      (vertexHeight s noiseFn x z).isFinite = false) := by
  have key : ∀ (x z persistence : JSNum) (octaves : Nat),
      (noiseFinal s noiseFn x z octaves persistence).maxValue = .fin 0 →
      layeredNoise s x z noiseFn octaves persistence
        = (noiseFinal s noiseFn x z octaves persistence).total / .fin 0 ∧
      (layeredNoise s x z noiseFn octaves persistence).isFinite = false := by
    intro x z persistence octaves h0
    have e : layeredNoise s x z noiseFn octaves persistence
        = (noiseFinal s noiseFn x z octaves persistence).total / .fin 0 := by
      unfold layeredNoise
      rw [h0]
    refine ⟨e, ?_⟩
    rw [e]
    exact JSNum.div_zero_isFinite _
  refine ⟨key, ?_⟩
  intro x z h0
  unfold vertexHeight
  exact JSNum.mul_isFinite_left _ _ (remapNoiseValue_isFinite _ _ _ (key _ _ _ _ h0).2)

/-- C3, amended, at zero octaves and at zero amplitude. -/
theorem layeredNoise_zero_maxValue_not_finite_witness :
    ((noiseFinal zeroOctaveSettings (fun _ _ => .fin (1 / 2)) (.fin 3) (.fin 4) 0
        (.fin (1 / 2))).maxValue = .fin 0 ∧
      (layeredNoise zeroOctaveSettings (.fin 3) (.fin 4) (fun _ _ => .fin (1 / 2)) 0
        (.fin (1 / 2))).isFinite = false) ∧
    ((noiseFinal zeroOctaveSettings (fun _ _ => .fin (1 / 2))
        (.fin 3 / (zeroOctaveSettings.area / .fin 10))
        (.fin 4 / (zeroOctaveSettings.area / .fin 10)) zeroOctaveSettings.octaves
        zeroOctaveSettings.persistence).maxValue = .fin 0 ∧
      (vertexHeight zeroOctaveSettings (fun _ _ => .fin (1 / 2)) (.fin 3) (.fin 4)).isFinite
        = false) :=
  ⟨⟨rfl,
      ((layeredNoise_zero_maxValue_not_finite zeroOctaveSettings (fun _ _ => .fin (1 / 2))).1
        (.fin 3) (.fin 4) (.fin (1 / 2)) 0 rfl).2⟩,
    ⟨rfl,
      (layeredNoise_zero_maxValue_not_finite zeroOctaveSettings (fun _ _ => .fin (1 / 2))).2
        (.fin 3) (.fin 4) rfl⟩⟩

/-! ## Flatten remap -/

/-- C4: remapping the threshold itself returns the threshold, for every
threshold and every strength. -/
theorem remapNoiseValue_at_threshold (t s : JSNum) : remapNoiseValue t t s = t := by
  unfold remapNoiseValue
  rw [JSNum.lt_irrefl]
  rfl

/-- Exact arithmetic: with strength `0` every value below the threshold is
remapped to the threshold; with strength `1` every value is returned unchanged. -/
theorem remapNoiseValue_exact_strength (v t : ℚ) :
    (v < t → remapNoiseValue (.fin v) (.fin t) (.fin 0) = .fin t) ∧
    remapNoiseValue (.fin v) (.fin t) (.fin 1) = .fin v := by
  constructor
  · intro h
    simp [remapNoiseValue, h]
  · unfold remapNoiseValue
    split_ifs
    · simp
    · rfl

/-! ## Player against the world -/

/-- C6, refuted: at a wall contact (normal `(1, 0, 0)`, not on floor) a
player whose velocity `(1, 0, 0)` points away from the wall loses that
velocity. -/
theorem playerCollisions_outward_velocity_removed :
    wallWorld.capsuleIntersect playerLeavingWall.collider = some ⟨⟨1, 0, 0⟩, 1 / 10⟩ ∧
    (playerCollisions wallWorld playerLeavingWall).onFloor = false ∧
    0 ≤ (⟨1, 0, 0⟩ : Vec3).dot playerLeavingWall.velocity ∧
    (playerCollisions wallWorld playerLeavingWall).velocity = ⟨0, 0, 0⟩ ∧
    (playerCollisions wallWorld playerLeavingWall).velocity ≠ playerLeavingWall.velocity := by
  refine ⟨rfl, ?_, ?_, ?_, ?_⟩ <;>
    simp [playerCollisions, wallWorld, playerLeavingWall, Vec3.addScaledVector, Vec3.dot]

/-- C6, amended: at every contact classified as not on floor the velocity
component along the contact normal is removed, whatever the sign of
`normal . velocity`. -/
theorem playerCollisions_not_on_floor (w : World) (p : Player) (result : Contact)
    (hq : w.capsuleIntersect p.collider = some result)
    (hfloor : (playerCollisions w p).onFloor = false) :
    (playerCollisions w p).velocity
      = p.velocity.sub (result.normal.multiplyScalar (result.normal.dot p.velocity)) := by
  simp only [playerCollisions, hq] at hfloor ⊢
  simp only [hfloor]
  ext <;> simp [Vec3.addScaledVector, Vec3.sub, Vec3.multiplyScalar] <;> ring

/-- C6, amended, at the wall contact with an outward velocity. -/
theorem playerCollisions_not_on_floor_witness :
    (wallWorld.capsuleIntersect playerLeavingWall.collider = some ⟨⟨1, 0, 0⟩, 1 / 10⟩ ∧
      (playerCollisions wallWorld playerLeavingWall).onFloor = false) ∧
    (playerCollisions wallWorld playerLeavingWall).velocity
      = playerLeavingWall.velocity.sub
          ((⟨1, 0, 0⟩ : Vec3).multiplyScalar ((⟨1, 0, 0⟩ : Vec3).dot playerLeavingWall.velocity)) :=
  ⟨⟨rfl, by simp [playerCollisions, wallWorld]⟩,
    playerCollisions_not_on_floor wallWorld playerLeavingWall ⟨⟨1, 0, 0⟩, 1 / 10⟩ rfl
      (by simp [playerCollisions, wallWorld])⟩

/-- C7, refuted: at a floor contact (normal `(0, 1, 0)`) a player falling
with velocity `(0, -5, 0)` is classified on floor and keeps the vertical
velocity `-5`. -/
theorem playerCollisions_floor_keeps_falling_velocity :
    floorWorld.capsuleIntersect playerFalling.collider = some ⟨⟨0, 1, 0⟩, 1 / 10⟩ ∧
    (playerCollisions floorWorld playerFalling).onFloor = true ∧
    (playerCollisions floorWorld playerFalling).velocity = ⟨0, -5, 0⟩ ∧
    (playerCollisions floorWorld playerFalling).velocity.y < 0 := by
  refine ⟨rfl, ?_, ?_, ?_⟩ <;> simp [playerCollisions, floorWorld, playerFalling]

/-- C7, amended: at every contact whose normal is `(0, 1, 0)` the player is
classified on floor, the velocity is left unchanged and the capsule is moved
up by the depth. -/
theorem playerCollisions_floor_contact (w : World) (p : Player) (depth : ℚ)
    (hq : w.capsuleIntersect p.collider = some ⟨⟨0, 1, 0⟩, depth⟩) :
    (playerCollisions w p).onFloor = true ∧
    (playerCollisions w p).velocity = p.velocity ∧
    (playerCollisions w p).collider = p.collider.translate ⟨0, depth, 0⟩ := by
  simp [playerCollisions, hq, Vec3.multiplyScalar]

/-- C7, amended, for the falling player on the floor of `floorWorld`. -/
theorem playerCollisions_floor_contact_witness :
    floorWorld.capsuleIntersect playerFalling.collider = some ⟨⟨0, 1, 0⟩, 1 / 10⟩ ∧
    (playerCollisions floorWorld playerFalling).onFloor = true ∧
    (playerCollisions floorWorld playerFalling).velocity = playerFalling.velocity :=
  ⟨rfl, (playerCollisions_floor_contact floorWorld playerFalling (1 / 10) rfl).1,
    (playerCollisions_floor_contact floorWorld playerFalling (1 / 10) rfl).2.1⟩

/-- C8: at every contact with a unit normal whose vertical component is not
positive, the player is classified not on floor, the new velocity has no
component along the normal, and the capsule is translated by `normal * depth`. -/
theorem playerCollisions_wall_contact (w : World) (p : Player) (n : Vec3) (depth : ℚ)
    (hq : w.capsuleIntersect p.collider = some ⟨n, depth⟩) (hunit : n.dot n = 1)
    (hy : n.y ≤ 0) :
    (playerCollisions w p).onFloor = false ∧
    n.dot (playerCollisions w p).velocity = 0 ∧
    (playerCollisions w p).collider = p.collider.translate (n.multiplyScalar depth) ∧
    (playerCollisions w p).collider.start = p.collider.start.add (n.multiplyScalar depth) ∧
    (playerCollisions w p).collider.end = p.collider.end.add (n.multiplyScalar depth) ∧
    (playerCollisions w p).collider.radius = p.collider.radius := by
  have hny : ¬ (n.y > 0) := not_lt.mpr hy
  simp only [Vec3.dot] at hunit
  simp only [playerCollisions, hq, hny, decide_False, Bool.not_false, if_true, Capsule.translate]
  refine ⟨trivial, ?_, trivial, trivial, trivial, trivial⟩
  simp only [Vec3.dot, Vec3.addScaledVector]
  linear_combination (-(n.x * p.velocity.x + n.y * p.velocity.y + n.z * p.velocity.z)) * hunit

/-- C8 for the player pressed against the wall of `wallWorld` with velocity
`(0, -5, 0)`. -/
theorem playerCollisions_wall_contact_witness :
    (wallWorld.capsuleIntersect playerFalling.collider = some ⟨⟨1, 0, 0⟩, 1 / 10⟩ ∧
      (⟨1, 0, 0⟩ : Vec3).dot ⟨1, 0, 0⟩ = 1 ∧ (⟨1, 0, 0⟩ : Vec3).y ≤ 0) ∧
    (playerCollisions wallWorld playerFalling).onFloor = false ∧
    (⟨1, 0, 0⟩ : Vec3).dot (playerCollisions wallWorld playerFalling).velocity = 0 :=
  ⟨⟨rfl, by norm_num [Vec3.dot], le_refl _⟩,
    (playerCollisions_wall_contact wallWorld playerFalling ⟨1, 0, 0⟩ (1 / 10) rfl
      (by norm_num [Vec3.dot]) (le_refl _)).1,
    (playerCollisions_wall_contact wallWorld playerFalling ⟨1, 0, 0⟩ (1 / 10) rfl
      (by norm_num [Vec3.dot]) (le_refl _)).2.1⟩

/-! ## Spheres against the world -/

/-- C9: when the world query of `updateSpheres` returns a contact with unit
normal `n` and depth `d`, the velocity becomes `v - 1.5 * (n . v) * n`: its
normal component is `-0.5` times the old one, its tangential part is
unchanged, gravity is not applied, and the center moves by `n * d` from the
integrated position.  When the query returns no contact, the response only
subtracts `GRAVITY * dt` from the vertical velocity. -/
theorem sphereWorldStep_response (w : World) (deltaTime : ℚ) (b : Body) :
    (∀ (n : Vec3) (d : ℚ), w.sphereIntersect (sphereIntegrate deltaTime b).collider = some ⟨n, d⟩ →
      n.dot n = 1 →
      (sphereWorldStep w deltaTime b).velocity
        = b.velocity.sub (n.multiplyScalar (3 / 2 * n.dot b.velocity)) ∧
      n.dot (sphereWorldStep w deltaTime b).velocity = -(1 / 2) * n.dot b.velocity ∧
      (sphereWorldStep w deltaTime b).velocity.sub
          (n.multiplyScalar (n.dot (sphereWorldStep w deltaTime b).velocity))
        = b.velocity.sub (n.multiplyScalar (n.dot b.velocity)) ∧
      (sphereWorldStep w deltaTime b).collider.center
        = ((b.collider.center.addScaledVector b.velocity deltaTime).add (n.multiplyScalar d)) ∧
      (sphereWorldStep w deltaTime b).collider.radius = b.collider.radius) ∧
    (w.sphereIntersect (sphereIntegrate deltaTime b).collider = none →
      (sphereWorldStep w deltaTime b).velocity
        = ⟨b.velocity.x, b.velocity.y - GRAVITY * deltaTime, b.velocity.z⟩ ∧
      (sphereWorldStep w deltaTime b).collider = (sphereIntegrate deltaTime b).collider ∧
      (sphereWorldStep w deltaTime b).collider.center
        = b.collider.center.addScaledVector b.velocity deltaTime) := by
  constructor
  · intro n d hq hunit
    simp only [Vec3.dot] at hunit
    have hv : (sphereWorldStep w deltaTime b).velocity
        = b.velocity.addScaledVector n (-(n.dot b.velocity) * (3 / 2)) := by
      simp only [sphereWorldStep, hq, sphereWorldResponse]
      rfl
    have hd : n.dot (sphereWorldStep w deltaTime b).velocity = -(1 / 2) * n.dot b.velocity := by
      rw [hv]
      simp only [Vec3.dot, Vec3.addScaledVector]
      linear_combination
        (-(3 / 2) * (n.x * b.velocity.x + n.y * b.velocity.y + n.z * b.velocity.z)) * hunit
    refine ⟨?_, hd, ?_, ?_, ?_⟩
    · rw [hv]
      ext <;> simp [Vec3.addScaledVector, Vec3.sub, Vec3.multiplyScalar] <;> ring
    · rw [hd, hv]
      ext <;> simp [Vec3.addScaledVector, Vec3.sub, Vec3.multiplyScalar] <;> ring
    · simp only [sphereWorldStep, hq, sphereWorldResponse]
      rfl
    · simp only [sphereWorldStep, hq, sphereWorldResponse]
      rfl
  · intro hq
    simp only [sphereWorldStep, hq, sphereWorldResponse]
    exact ⟨rfl, trivial, rfl⟩

/-- C9 for a sphere flying into the floor of `floorWorld`, and for the same
sphere in the world without geometry. -/
theorem sphereWorldStep_response_witness :
    (floorWorld.sphereIntersect (sphereIntegrate (1 / 100) flyingSphere).collider
        = some ⟨⟨0, 1, 0⟩, 1 / 10⟩ ∧ (⟨0, 1, 0⟩ : Vec3).dot ⟨0, 1, 0⟩ = 1 ∧
      (⟨0, 1, 0⟩ : Vec3).dot (sphereWorldStep floorWorld (1 / 100) flyingSphere).velocity
        = -(1 / 2) * (⟨0, 1, 0⟩ : Vec3).dot flyingSphere.velocity) ∧
    (emptyWorld.sphereIntersect (sphereIntegrate (1 / 100) flyingSphere).collider = none ∧
      (sphereWorldStep emptyWorld (1 / 100) flyingSphere).velocity
        = ⟨flyingSphere.velocity.x, flyingSphere.velocity.y - GRAVITY * (1 / 100),
            flyingSphere.velocity.z⟩) :=
  ⟨⟨rfl, by norm_num [Vec3.dot],
      ((sphereWorldStep_response floorWorld (1 / 100) flyingSphere).1 ⟨0, 1, 0⟩ (1 / 10) rfl
        (by norm_num [Vec3.dot])).2.1⟩,
    ⟨rfl, ((sphereWorldStep_response emptyWorld (1 / 100) flyingSphere).2 rfl).1⟩⟩

/-! ## Spheres against spheres -/

/-- On a pool of two spheres `spheresCollisions` runs the pair test once. -/
theorem spheresCollisions_two (sqrt : ℚ → ℚ) (s1 s2 : Body) :
    spheresCollisions sqrt [s1, s2] = [(collidePair sqrt s1 s2).1, (collidePair sqrt s1 s2).2] := by
  simp [spheresCollisions, List.range_succ, List.range', collideAt]

/-- The squared length of a difference is zero only for equal vectors. -/
theorem Vec3.lengthSq_sub_pos (a b : Vec3) (h : a ≠ b) : 0 < (a.sub b).lengthSq := by
  by_contra hc
  apply h
  simp only [Vec3.lengthSq, Vec3.sub, not_lt] at hc
  have hx : a.x - b.x = 0 := by
    nlinarith [sq_nonneg (a.x - b.x), sq_nonneg (a.y - b.y), sq_nonneg (a.z - b.z)]
  have hy : a.y - b.y = 0 := by
    nlinarith [sq_nonneg (a.x - b.x), sq_nonneg (a.y - b.y), sq_nonneg (a.z - b.z)]
  have hz : a.z - b.z = 0 := by
    nlinarith [sq_nonneg (a.x - b.x), sq_nonneg (a.y - b.y), sq_nonneg (a.z - b.z)]
  ext
  · linarith
  · linarith
  · linarith

/-- C10, refuted: two spheres of radius `0.2` whose centers are exactly `0.4`
apart, with velocities `(1, 0, 0)` and `(-1, 0, 0)` along the line of
centers, are left unchanged by `spheresCollisions`: their velocities are not
exchanged. -/
theorem spheresCollisions_touching_unchanged :
    (⟨0, 0, 0⟩ : Vec3).distanceToSquared ⟨2 / 5, 0, 0⟩
      = (SPHERE_RADIUS + SPHERE_RADIUS) * (SPHERE_RADIUS + SPHERE_RADIUS) ∧
    spheresCollisions ratSqrt touchingPair = touchingPair ∧
    (spheresCollisions ratSqrt touchingPair).map Body.velocity = [⟨1, 0, 0⟩, ⟨-1, 0, 0⟩] ∧
    (spheresCollisions ratSqrt touchingPair).map Body.velocity ≠ [⟨-1, 0, 0⟩, ⟨1, 0, 0⟩] := by
  have h : spheresCollisions ratSqrt touchingPair = touchingPair := by
    unfold touchingPair
    rw [spheresCollisions_two]
    norm_num [collidePair, Vec3.distanceToSquared, SPHERE_RADIUS]
  refine ⟨by norm_num [Vec3.distanceToSquared, SPHERE_RADIUS], h, ?_, ?_⟩
  · rw [h]
    rfl
  · rw [h]
    norm_num [touchingPair]

/-- Exact arithmetic: two equal-radius spheres whose centers are distinct and
closer than the sum of the radii, with velocities `+v` and `-v` along the
line of centers, leave `spheresCollisions` with the velocities `-v` and `+v`;
when the center distance equals the sum of the radii nothing changes. -/
theorem spheresCollisions_exact_head_on (sqrt : ℚ → ℚ) (c1 c2 : Vec3) (r k : ℚ)
    (hs : sqrt (c1.sub c2).lengthSq * sqrt (c1.sub c2).lengthSq = (c1.sub c2).lengthSq)
    (hne : c1 ≠ c2) :
    (c1.distanceToSquared c2 < (r + r) * (r + r) →
      (spheresCollisions sqrt
          [⟨⟨c1, r⟩, (c1.sub c2).multiplyScalar k⟩,
            ⟨⟨c2, r⟩, ((c1.sub c2).multiplyScalar k).negate⟩]).map Body.velocity
        = [((c1.sub c2).multiplyScalar k).negate, (c1.sub c2).multiplyScalar k]) ∧
    (c1.distanceToSquared c2 = (r + r) * (r + r) →
      spheresCollisions sqrt
          [⟨⟨c1, r⟩, (c1.sub c2).multiplyScalar k⟩,
            ⟨⟨c2, r⟩, ((c1.sub c2).multiplyScalar k).negate⟩]
        = [⟨⟨c1, r⟩, (c1.sub c2).multiplyScalar k⟩,
            ⟨⟨c2, r⟩, ((c1.sub c2).multiplyScalar k).negate⟩]) := by
  have hpos := Vec3.lengthSq_sub_pos c1 c2 hne
  have hl : sqrt (c1.sub c2).lengthSq ≠ 0 := by
    intro h0
    rw [h0] at hs
    linarith
  constructor
  · intro hlt
    rw [spheresCollisions_two]
    simp only [collidePair, if_pos hlt, List.map]
    simp only [Vec3.normalize, Vec3.length, if_neg hl, Vec3.divideScalar]
    generalize sqrt (c1.sub c2).lengthSq = l at hs hl
    simp only [Vec3.lengthSq, Vec3.sub] at hs
    have hi : l * (1 / l) = 1 := by field_simp
    generalize 1 / l = i at hi
    simp only [List.cons.injEq, and_true, Vec3.ext_iff, Vec3.sub, Vec3.add, Vec3.multiplyScalar,
      Vec3.dot, Vec3.negate]
    refine ⟨⟨?_, ?_, ?_⟩, ⟨?_, ?_, ?_⟩⟩
    · linear_combination (2 * (c1.x - c2.x) * k * i ^ 2) * hs
        - (2 * (c1.x - c2.x) * k * (1 + l * i)) * hi
    · linear_combination (2 * (c1.y - c2.y) * k * i ^ 2) * hs
        - (2 * (c1.y - c2.y) * k * (1 + l * i)) * hi
    · linear_combination (2 * (c1.z - c2.z) * k * i ^ 2) * hs
        - (2 * (c1.z - c2.z) * k * (1 + l * i)) * hi
    · linear_combination (-(2 * (c1.x - c2.x) * k * i ^ 2)) * hs
        + (2 * (c1.x - c2.x) * k * (1 + l * i)) * hi
    · linear_combination (-(2 * (c1.y - c2.y) * k * i ^ 2)) * hs
        + (2 * (c1.y - c2.y) * k * (1 + l * i)) * hi
    · linear_combination (-(2 * (c1.z - c2.z) * k * i ^ 2)) * hs
        + (2 * (c1.z - c2.z) * k * (1 + l * i)) * hi
  · intro heq
    rw [spheresCollisions_two]
    simp only [collidePair, heq, lt_irrefl, if_false]

/-- The square root `ratSqrt` is exact at `9 / 100`. -/
theorem ratSqrt_nine_hundredths : ratSqrt (9 / 100) = 3 / 10 := by
  have h1 : ((9 : ℚ) / 100).num = 9 := by norm_num
  have h2 : ((9 : ℚ) / 100).den = 100 := by norm_num
  have h3 : Nat.sqrt 9 = 3 := Nat.sqrt_eq 3
  have h4 : Nat.sqrt 100 = 10 := Nat.sqrt_eq 10
  have h5 : Int.toNat 9 = 9 := rfl
  unfold ratSqrt
  rw [h1, h2, h5, h3, h4]
  norm_num

/-- The squared distance is the squared length of the difference. -/
theorem Vec3.distanceToSquared_eq (a b : Vec3) : a.distanceToSquared b = (a.sub b).lengthSq := rfl

/-- Normalising a vector of non-zero length, with a square root exact at its
squared length, multiplies it by the inverse of the length and gives a unit
vector. -/
theorem Vec3.normalize_unit (sqrt : ℚ → ℚ) (a : Vec3)
    (hs : sqrt a.lengthSq * sqrt a.lengthSq = a.lengthSq) (hpos : 0 < a.lengthSq) :
    a.normalize sqrt = a.multiplyScalar (1 / sqrt a.lengthSq) ∧
    (a.normalize sqrt).dot (a.normalize sqrt) = 1 := by
  have hl : sqrt a.lengthSq ≠ 0 := by
    intro h0
    rw [h0] at hs
    linarith
  have e : a.normalize sqrt = a.multiplyScalar (1 / sqrt a.lengthSq) := by
    simp only [Vec3.normalize, Vec3.length, if_neg hl, Vec3.divideScalar]
  refine ⟨e, ?_⟩
  rw [e]
  have hi : sqrt a.lengthSq * (1 / sqrt a.lengthSq) = 1 := by field_simp
  generalize sqrt a.lengthSq = l at hs hi
  generalize 1 / l = i at hi
  simp only [Vec3.lengthSq] at hs
  simp only [Vec3.dot, Vec3.multiplyScalar]
  linear_combination (-(i ^ 2)) * hs + (l * i + 1) * hi

/-- Exact arithmetic: on a pool of two spheres whose centers are distinct and
closer than the sum of the radii, when `sqrt` returns a number whose square is
the squared distance, `spheresCollisions` moves each center by half the
overlap, in opposite directions along the unit vector of the line of centers;
afterwards the squared center distance is the square of the sum of the radii
and the midpoint of the centers is unchanged. -/
theorem spheresCollisions_exact_split (sqrt : ℚ → ℚ) (s1 s2 : Body)
    (hs : sqrt (s1.collider.center.distanceToSquared s2.collider.center)
        * sqrt (s1.collider.center.distanceToSquared s2.collider.center)
      = s1.collider.center.distanceToSquared s2.collider.center)
    (hne : s1.collider.center ≠ s2.collider.center)
    (hlt : s1.collider.center.distanceToSquared s2.collider.center
      < (s1.collider.radius + s2.collider.radius) * (s1.collider.radius + s2.collider.radius)) :
    ∃ t1 t2 n, spheresCollisions sqrt [s1, s2] = [t1, t2] ∧
      n = (s1.collider.center.sub s2.collider.center).multiplyScalar
        (1 / sqrt (s1.collider.center.distanceToSquared s2.collider.center)) ∧
      n.dot n = 1 ∧
      t1.collider.center = s1.collider.center.addScaledVector n
        ((s1.collider.radius + s2.collider.radius
          - sqrt (s1.collider.center.distanceToSquared s2.collider.center)) / 2) ∧
      t2.collider.center = s2.collider.center.addScaledVector n
        (-((s1.collider.radius + s2.collider.radius
          - sqrt (s1.collider.center.distanceToSquared s2.collider.center)) / 2)) ∧
      t1.collider.center.distanceToSquared t2.collider.center
        = (s1.collider.radius + s2.collider.radius) * (s1.collider.radius + s2.collider.radius) ∧
      (t1.collider.center.add t2.collider.center).multiplyScalar (1 / 2)
        = (s1.collider.center.add s2.collider.center).multiplyScalar (1 / 2) ∧
      t1.collider.radius = s1.collider.radius ∧ t2.collider.radius = s2.collider.radius ∧
      (∀ dist : ℚ, 0 ≤ dist → 0 ≤ s1.collider.radius + s2.collider.radius →
        dist * dist = t1.collider.center.distanceToSquared t2.collider.center →
        dist = s1.collider.radius + s2.collider.radius) := by
  have hroot : ∀ a b : ℚ, 0 ≤ a → 0 ≤ b → a * a = b * b → a = b := by
    intro a b ha hb hab
    nlinarith [sq_nonneg (a - b), sq_nonneg (a + b)]
  have hpos := Vec3.lengthSq_sub_pos _ _ hne
  rw [Vec3.distanceToSquared_eq] at hs
  obtain ⟨hn, hunit⟩ := Vec3.normalize_unit sqrt _ hs hpos
  have hl : sqrt (s1.collider.center.sub s2.collider.center).lengthSq ≠ 0 := by
    intro h0
    rw [h0] at hs
    linarith
  have hi : sqrt (s1.collider.center.sub s2.collider.center).lengthSq
      * (1 / sqrt (s1.collider.center.sub s2.collider.center).lengthSq) = 1 := by field_simp
  refine ⟨(collidePair sqrt s1 s2).1, (collidePair sqrt s1 s2).2,
    (s1.collider.center.sub s2.collider.center).normalize sqrt, spheresCollisions_two _ _ _,
    ?_, hunit, ?_, ?_, ?dist, ?_, ?_, ?_, ?_⟩
  case dist =>
    simp only [collidePair, if_pos hlt]
    simp only [hn, Vec3.distanceToSquared_eq]
    generalize sqrt (s1.collider.center.sub s2.collider.center).lengthSq = l at hs hi
    generalize 1 / l = i at hi
    generalize s1.collider.radius + s2.collider.radius = r
    simp only [Vec3.lengthSq, Vec3.sub, Vec3.addScaledVector, Vec3.multiplyScalar] at hs ⊢
    linear_combination (-(i ^ 2 * r ^ 2)) * hs
      + (r ^ 2 * (i * l + 1)
        - ((s1.collider.center.x - s2.collider.center.x)
              * (s1.collider.center.x - s2.collider.center.x)
            + (s1.collider.center.y - s2.collider.center.y)
              * (s1.collider.center.y - s2.collider.center.y)
            + (s1.collider.center.z - s2.collider.center.z)
              * (s1.collider.center.z - s2.collider.center.z))
          * (2 * i * r + 1 - l * i)) * hi
  · rw [hn, Vec3.distanceToSquared_eq]
  · simp only [collidePair, if_pos hlt]
  · simp only [collidePair, if_pos hlt]
  · simp only [collidePair, if_pos hlt]
    ext <;> simp [Vec3.add, Vec3.addScaledVector, Vec3.multiplyScalar] <;> ring
  · simp only [collidePair, if_pos hlt]
  · simp only [collidePair, if_pos hlt]
  · intro dist hd hr hdd
    apply hroot _ _ hd hr
    rw [hdd]
    simp only [collidePair, if_pos hlt]
    simp only [hn, Vec3.distanceToSquared_eq]
    generalize sqrt (s1.collider.center.sub s2.collider.center).lengthSq = l at hs hi
    generalize 1 / l = i at hi
    generalize s1.collider.radius + s2.collider.radius = r
    simp only [Vec3.lengthSq, Vec3.sub, Vec3.addScaledVector, Vec3.multiplyScalar] at hs ⊢
    linear_combination (-(i ^ 2 * r ^ 2)) * hs
      + (r ^ 2 * (i * l + 1)
        - ((s1.collider.center.x - s2.collider.center.x)
              * (s1.collider.center.x - s2.collider.center.x)
            + (s1.collider.center.y - s2.collider.center.y)
              * (s1.collider.center.y - s2.collider.center.y)
            + (s1.collider.center.z - s2.collider.center.z)
              * (s1.collider.center.z - s2.collider.center.z))
          * (2 * i * r + 1 - l * i)) * hi

/-! ## Frames and substeps -/

/-- C14: for every elapsed time `t`, `animate` runs exactly five substeps,
each of duration `min(0.05, t) / 5`; the five durations sum to `min(0.05, t)`,
which is at most `0.05`, and each duration is at most `0.01`. -/
theorem animate_five_equal_substeps (env : Env) (t : ℚ) (g : Game) :
    animate env t g
      = substep env (min (1 / 20) t / 5) (substep env (min (1 / 20) t / 5)
          (substep env (min (1 / 20) t / 5) (substep env (min (1 / 20) t / 5)
            (substep env (min (1 / 20) t / 5) g)))) ∧
    STEPS_PER_FRAME = 5 ∧
    frameDeltaTime t = min (1 / 20) t / 5 ∧
    (List.replicate STEPS_PER_FRAME (frameDeltaTime t)).sum = min (1 / 20) t ∧
    (List.replicate STEPS_PER_FRAME (frameDeltaTime t)).sum ≤ 1 / 20 ∧
    frameDeltaTime t ≤ 1 / 100 := by
  have hdt : frameDeltaTime t = min (1 / 20) t / 5 := by
    simp [frameDeltaTime, STEPS_PER_FRAME]
  have hmin : min (1 / 20) t ≤ 1 / 20 := min_le_left _ _
  have hsum : (List.replicate STEPS_PER_FRAME (frameDeltaTime t)).sum = min (1 / 20) t := by
    rw [hdt]
    simp only [STEPS_PER_FRAME, List.sum_replicate, nsmul_eq_mul]
    push_cast
    ring
  refine ⟨?_, rfl, hdt, hsum, ?_, ?_⟩
  · simp only [animate, hdt, STEPS_PER_FRAME, animateLoop]
  · rw [hsum]
    exact hmin
  · rw [hdt]
    linarith

/-! ## Flatten remap: order properties -/

/-- On finite arguments `remapNoiseValue` is the rational function of the source. -/
theorem remapNoiseValue_fin (v t s : ℚ) :
    remapNoiseValue (.fin v) (.fin t) (.fin s) = .fin (if v < t then t + (v - t) * s else v) := by
  unfold remapNoiseValue
  by_cases h : v < t <;> simp [h]

/-- Exact arithmetic: for every threshold and every strength in `[0, 1]`,
`remapNoiseValue` is monotone non-decreasing in its value argument, never
lowers a value, and never exceeds the larger of the value and the threshold. -/
theorem remapNoiseValue_exact_monotone (v1 v2 t s : ℚ) (hs0 : 0 ≤ s) (hs1 : s ≤ 1) :
    ∃ r1 r2, remapNoiseValue (.fin v1) (.fin t) (.fin s) = .fin r1 ∧
      remapNoiseValue (.fin v2) (.fin t) (.fin s) = .fin r2 ∧
      (v1 ≤ v2 → r1 ≤ r2) ∧ v1 ≤ r1 ∧ r1 ≤ max v1 t := by
  refine ⟨_, _, remapNoiseValue_fin v1 t s, remapNoiseValue_fin v2 t s, ?_, ?_, ?_⟩
  · intro h12
    by_cases h1 : v1 < t <;> by_cases h2 : v2 < t <;> simp only [h1, h2, if_true, if_false]
    · nlinarith
    · nlinarith
    · linarith
    · exact h12
  · by_cases h1 : v1 < t <;> simp only [h1, if_true, if_false]
    · nlinarith
    · exact le_refl _
  · by_cases h1 : v1 < t <;> simp only [h1, if_true, if_false]
    · apply le_max_of_le_right
      nlinarith
    · exact le_max_left _ _

/-! ## Out-of-bounds recovery -/

/-- C12, refuted: for a player below the threshold with velocity
`(0, -40, 0)`, `teleportPlayerIfOob` leaves the velocity as it is. -/
theorem teleportPlayerIfOob_keeps_velocity :
    fallenGame.camera.position.y ≤ -25 ∧
    (teleportPlayerIfOob fallenGame).player.velocity = ⟨0, -40, 0⟩ ∧
    (teleportPlayerIfOob fallenGame).player.velocity ≠ Vec3.zero := by
  have h : fallenGame.camera.position.y ≤ -25 := by norm_num [fallenGame]
  refine ⟨h, ?_, ?_⟩
  · simp only [teleportPlayerIfOob, if_pos h]
    rfl
  · simp only [teleportPlayerIfOob, if_pos h]
    norm_num [fallenGame, Vec3.zero]

/-- C12, amended: when the vertical position of the camera is at or below
`-25`, `teleportPlayerIfOob` resets the capsule to the spawn pose, moves the
camera to the capsule end `(0, 1, 0)`, sets the view rotation to zero and
leaves the player velocity (and everything else) unchanged; above the
threshold it changes nothing. -/
theorem teleportPlayerIfOob_effect (g : Game) :
    (g.camera.position.y ≤ -25 →
      (teleportPlayerIfOob g).player.collider = spawnCapsule ∧
      (teleportPlayerIfOob g).player.collider.start = ⟨0, 7 / 20, 0⟩ ∧
      (teleportPlayerIfOob g).player.collider.end = ⟨0, 1, 0⟩ ∧
      (teleportPlayerIfOob g).player.collider.radius = 7 / 20 ∧
      (teleportPlayerIfOob g).camera.position = ⟨0, 1, 0⟩ ∧
      (teleportPlayerIfOob g).camera.rotation = ⟨0, 0, 0⟩ ∧
      (teleportPlayerIfOob g).player.velocity = g.player.velocity ∧
      (teleportPlayerIfOob g).player.onFloor = g.player.onFloor ∧
      (teleportPlayerIfOob g).spheres = g.spheres ∧
      (teleportPlayerIfOob g).sphereIdx = g.sphereIdx ∧
      (teleportPlayerIfOob g).devMode = g.devMode) ∧
    (-25 < g.camera.position.y → teleportPlayerIfOob g = g) := by
  constructor
  · intro h
    simp only [teleportPlayerIfOob, if_pos h, spawnCapsule]
    exact ⟨trivial, trivial, trivial, trivial, trivial, trivial, trivial, trivial, trivial,
      trivial, trivial⟩
  · intro h
    simp only [teleportPlayerIfOob, if_neg (not_le.mpr h)]

/-- C12, amended, for the fallen player and for the player at start-up. -/
theorem teleportPlayerIfOob_effect_witness :
    (fallenGame.camera.position.y ≤ -25 ∧
      (teleportPlayerIfOob fallenGame).player.collider = spawnCapsule ∧
      (teleportPlayerIfOob fallenGame).player.velocity = fallenGame.player.velocity) ∧
    ((-25 : ℚ) < (⟨0, 1, 0⟩ : Vec3).y ∧
      teleportPlayerIfOob { fallenGame with camera := ⟨⟨0, 1, 0⟩, ⟨0, 0, 0⟩⟩ }
        = { fallenGame with camera := ⟨⟨0, 1, 0⟩, ⟨0, 0, 0⟩⟩ }) :=
  ⟨⟨by norm_num [fallenGame],
      ((teleportPlayerIfOob_effect fallenGame).1 (by norm_num [fallenGame])).1,
      ((teleportPlayerIfOob_effect fallenGame).1 (by norm_num [fallenGame])).2.2.2.2.2.2.1⟩,
    ⟨by norm_num,
      (teleportPlayerIfOob_effect { fallenGame with camera := ⟨⟨0, 1, 0⟩, ⟨0, 0, 0⟩⟩ }).2
        (by norm_num)⟩⟩

/-! ## Launching spheres -/

/-- One call of `throwBall` on a pool of `NUM_SPHERES` bodies with the cursor
inside the pool. -/
theorem throwBall_step (env : Env) (now : ℚ) (g : Game)
    (hlen : g.spheres.length = NUM_SPHERES) (hidx : g.sphereIdx < NUM_SPHERES) :
    (throwBall env now g).spheres.length = NUM_SPHERES ∧
    (throwBall env now g).sphereIdx = (g.sphereIdx + 1) % NUM_SPHERES ∧
    (throwBall env now g).sphereIdx < NUM_SPHERES ∧
    (∀ i, i ≠ g.sphereIdx → (throwBall env now g).spheres[i]? = g.spheres[i]?) := by
  have hlt : g.sphereIdx < g.spheres.length := by rw [hlen]; exact hidx
  have hget : g.spheres[g.sphereIdx]? = some (g.spheres[g.sphereIdx]) :=
    List.getElem?_eq_getElem hlt
  have hN : 0 < NUM_SPHERES := by decide
  simp only [throwBall, hget, List.length_set, hlen]
  refine ⟨trivial, trivial, Nat.mod_lt _ hN, ?_⟩
  intro i hi
  exact List.getElem?_set_ne (Ne.symm hi)

/-- The cursors of consecutive launches advance by one modulo `NUM_SPHERES`. -/
theorem throwBalls_trace (env : Env) :
    ∀ (times : List ℚ) (g : Game), g.spheres.length = NUM_SPHERES →
      g.sphereIdx < NUM_SPHERES →
      throwCursors env times g
        = (List.range times.length).map (fun k => (g.sphereIdx + k) % NUM_SPHERES) ∧
      (throwBalls env times g).sphereIdx = (g.sphereIdx + times.length) % NUM_SPHERES ∧
      (throwBalls env times g).spheres.length = NUM_SPHERES := by
  intro times
  induction times with
  | nil =>
    intro g hlen hidx
    refine ⟨rfl, ?_, hlen⟩
    simp only [throwBalls, List.length_nil, Nat.add_zero]
    exact (Nat.mod_eq_of_lt hidx).symm
  | cons now times ih =>
    intro g hlen hidx
    obtain ⟨h1, h2, h3, _⟩ := throwBall_step env now g hlen hidx
    obtain ⟨e1, e2, e3⟩ := ih (throwBall env now g) h1 h3
    refine ⟨?_, ?_, e3⟩
    · simp only [throwCursors, e1, h2, List.length_cons, List.range_succ_eq_map, List.map_cons,
        List.map_map, Nat.add_zero, Nat.mod_eq_of_lt hidx]
      congr 1
      apply List.map_congr_left
      intro k _
      simp only [Function.comp, NUM_SPHERES]
      omega
    · simp only [throwBalls, e2, h2, List.length_cons, NUM_SPHERES]
      omega

/-- The cursors `(i + k) mod NUM_SPHERES` for `k` below `NUM_SPHERES` are the
indices of the pool, each once. -/
theorem cursors_perm (i : Nat) (hi : i < NUM_SPHERES) :
    ((List.range NUM_SPHERES).map (fun k => (i + k) % NUM_SPHERES)).Perm
      (List.range NUM_SPHERES) := by
  rw [List.perm_ext_iff_of_nodup]
  · intro a
    simp only [List.mem_map, List.mem_range, NUM_SPHERES] at hi ⊢
    constructor
    · rintro ⟨k, _, rfl⟩
      omega
    · intro ha
      exact ⟨(a + 100 - i) % 100, by omega, by omega⟩
  · apply List.Nodup.map_on _ (List.nodup_range _)
    intro x hx y hy hxy
    simp only [List.mem_range, NUM_SPHERES] at hx hy hxy hi
    omega
  · exact List.nodup_range _

/-! ## Player against spheres -/

/-- The third iteration of `playerSphereCollision` reads the point `vector1`
of the state left by the first two iterations. -/
theorem playerSphereCollision_third (sqrt : ℚ → ℚ) (playerCollider : Capsule)
    (playerVelocity : Vec3) (sphere : Body) :
    playerSphereCollision sqrt playerCollider playerVelocity sphere
      = ((playerSpherePoint sqrt (playerCollider.radius + sphere.collider.radius)
            (playerSphereAfterEnd sqrt playerCollider playerVelocity sphere).vector1
            (playerSphereAfterEnd sqrt playerCollider playerVelocity sphere)).playerVelocity,
          (playerSpherePoint sqrt (playerCollider.radius + sphere.collider.radius)
            (playerSphereAfterEnd sqrt playerCollider playerVelocity sphere).vector1
            (playerSphereAfterEnd sqrt playerCollider playerVelocity sphere)).sphere) := rfl

/-- The state of `playerSphereCollision` after the first two iterations, for
the spawn capsule, a player at rest and the sphere `sphereBesideStart`: the
start point was hit, `vector1` holds the normal `(-1, 0, 0)`. -/
theorem playerSphereAfterEnd_besideStart :
    playerSphereAfterEnd ratSqrt spawnCapsule Vec3.zero sphereBesideStart
      = { vector1 := ⟨-1, 0, 0⟩
          playerVelocity := ⟨-1, 0, 0⟩
          sphere := ⟨⟨⟨17 / 40, 7 / 20, 0⟩, SPHERE_RADIUS⟩, ⟨0, 0, 0⟩⟩ } := by
  have h9 : ratSqrt (9 / 100) = 3 / 10 := ratSqrt_nine_hundredths
  simp only [playerSphereAfterEnd, playerSpherePoint, spawnCapsule, sphereBesideStart,
    SPHERE_RADIUS, Vec3.zero, Vec3.distanceToSquared, Vec3.sub, Vec3.add, Vec3.multiplyScalar,
    Vec3.addScaledVector, Vec3.dot, Vec3.normalize, Vec3.length, Vec3.lengthSq,
    Vec3.divideScalar]
  norm_num [h9]

/-- The result of `playerSphereCollision` for the spawn capsule, a player at
rest and the sphere `sphereBesideStart`: only the correction of the first
iteration is applied. -/
theorem playerSphereCollision_besideStart :
    playerSphereCollision ratSqrt spawnCapsule Vec3.zero sphereBesideStart
      = (⟨-1, 0, 0⟩, ⟨⟨⟨17 / 40, 7 / 20, 0⟩, SPHERE_RADIUS⟩, ⟨0, 0, 0⟩⟩) := by
  rw [playerSphereCollision_third, playerSphereAfterEnd_besideStart]
  simp only [playerSpherePoint, spawnCapsule, sphereBesideStart, SPHERE_RADIUS,
    Vec3.distanceToSquared]
  norm_num

/-- C16, the defect: for the spawn capsule and the sphere `sphereBesideStart`
the start point is within range, so the first iteration stores its normal
`(-1, 0, 0)` in `vector1`; the third iteration then tests this normal instead
of the midpoint `(0, 0.675, 0)`.  The midpoint is within range of the sphere,
the point tested is not, and no third correction is applied. -/
theorem playerSphereCollision_third_point_overwritten :
    spawnCapsule.start.distanceToSquared sphereBesideStart.collider.center
      < (spawnCapsule.radius + sphereBesideStart.collider.radius)
        * (spawnCapsule.radius + sphereBesideStart.collider.radius) ∧
    (spawnCapsule.start.add spawnCapsule.end).multiplyScalar (1 / 2) = ⟨0, 27 / 40, 0⟩ ∧
    (playerSphereAfterEnd ratSqrt spawnCapsule Vec3.zero sphereBesideStart).vector1
      = ⟨-1, 0, 0⟩ ∧
    (playerSphereAfterEnd ratSqrt spawnCapsule Vec3.zero sphereBesideStart).sphere.collider.center
      = ⟨17 / 40, 7 / 20, 0⟩ ∧
    (⟨0, 27 / 40, 0⟩ : Vec3).distanceToSquared ⟨17 / 40, 7 / 20, 0⟩
      < (spawnCapsule.radius + sphereBesideStart.collider.radius)
        * (spawnCapsule.radius + sphereBesideStart.collider.radius) ∧
    ¬ ((⟨-1, 0, 0⟩ : Vec3).distanceToSquared ⟨17 / 40, 7 / 20, 0⟩
      < (spawnCapsule.radius + sphereBesideStart.collider.radius)
        * (spawnCapsule.radius + sphereBesideStart.collider.radius)) ∧
    playerSphereCollision ratSqrt spawnCapsule Vec3.zero sphereBesideStart
      = (⟨-1, 0, 0⟩, ⟨⟨⟨17 / 40, 7 / 20, 0⟩, SPHERE_RADIUS⟩, ⟨0, 0, 0⟩⟩) := by
  refine ⟨?_, ?_, ?_, ?_, ?_, ?_, ?_⟩
  · norm_num [spawnCapsule, sphereBesideStart, SPHERE_RADIUS, Vec3.distanceToSquared]
  · norm_num [spawnCapsule, Vec3.add, Vec3.multiplyScalar]
  · rw [playerSphereAfterEnd_besideStart]
  · rw [playerSphereAfterEnd_besideStart]
  · norm_num [spawnCapsule, sphereBesideStart, SPHERE_RADIUS, Vec3.distanceToSquared]
  · norm_num [spawnCapsule, sphereBesideStart, SPHERE_RADIUS, Vec3.distanceToSquared]
  · exact playerSphereCollision_besideStart

/-! ## Collision normals -/

/-- The difference of a vector with itself normalises to the zero vector,
whatever the square root. -/
theorem Vec3.normalize_sub_self (sqrt : ℚ → ℚ) (p : Vec3) :
    (p.sub p).normalize sqrt = Vec3.zero := by
  simp [Vec3.normalize, Vec3.divideScalar, Vec3.multiplyScalar, Vec3.sub, Vec3.zero]

/-- C17, refuted: the first two spheres of the initial pool have the same
center, the pair test passes, and the normal used is the zero vector, whose
squared length is `0`, not `1`. -/
theorem initial_pool_normal_is_zero :
    initialSpheres[0]? = some restingSphere ∧ initialSpheres[1]? = some restingSphere ∧
    restingSphere.collider.center.distanceToSquared restingSphere.collider.center
      < (restingSphere.collider.radius + restingSphere.collider.radius)
        * (restingSphere.collider.radius + restingSphere.collider.radius) ∧
    (restingSphere.collider.center.sub restingSphere.collider.center).normalize ratSqrt
      = ⟨0, 0, 0⟩ ∧
    ((restingSphere.collider.center.sub restingSphere.collider.center).normalize
      ratSqrt).lengthSq = 0 ∧
    ((restingSphere.collider.center.sub restingSphere.collider.center).normalize
      ratSqrt).lengthSq ≠ 1 := by
  have hn := Vec3.normalize_sub_self ratSqrt restingSphere.collider.center
  refine ⟨rfl, rfl, ?_, ?_, ?_, ?_⟩
  · norm_num [restingSphere, SPHERE_RADIUS, Vec3.distanceToSquared]
  · rw [hn]
    rfl
  · rw [hn]
    norm_num [Vec3.zero, Vec3.lengthSq]
  · rw [hn]
    norm_num [Vec3.zero, Vec3.lengthSq]

/-- Exact arithmetic: the normal of a collision response is
`normalize(p - q)`, computed without division by zero; for distinct positions
and a square root exact at the squared distance it has squared length `1`;
for coincident positions it is the zero vector, and then both
`spheresCollisions` (pair step) and `playerSphereCollision` (point step)
leave velocities and centers unchanged. -/
theorem collision_exact_normal (sqrt : ℚ → ℚ) (p q : Vec3) :
    (if (p.sub q).length sqrt = 0 then 1 else (p.sub q).length sqrt) ≠ 0 ∧
    (p ≠ q → sqrt (p.distanceToSquared q) * sqrt (p.distanceToSquared q)
        = p.distanceToSquared q →
      ((p.sub q).normalize sqrt).lengthSq = 1 ∧
      ∀ (r : ℚ) (st : PlayerSphereState), st.sphere.collider.center = q →
        p.distanceToSquared q < r * r →
        (playerSpherePoint sqrt r p st).vector1 = (p.sub q).normalize sqrt) ∧
    (p = q →
      (p.sub q).normalize sqrt = Vec3.zero ∧
      (∀ s1 s2 : Body, s1.collider.center = p → s2.collider.center = q →
        collidePair sqrt s1 s2 = (s1, s2)) ∧
      (∀ (r : ℚ) (st : PlayerSphereState), st.sphere.collider.center = q →
        (playerSpherePoint sqrt r p st).playerVelocity = st.playerVelocity ∧
        (playerSpherePoint sqrt r p st).sphere = st.sphere)) := by
  refine ⟨?_, ?_, ?_⟩
  · split_ifs with h
    · exact one_ne_zero
    · exact h
  · intro hne hs
    rw [Vec3.distanceToSquared_eq] at hs
    have hu := (Vec3.normalize_unit sqrt _ hs (Vec3.lengthSq_sub_pos _ _ hne)).2
    refine ⟨hu, ?_⟩
    intro r st hc hlt
    simp only [playerSpherePoint, hc, if_pos hlt]
  · intro hpq
    subst hpq
    have hn := Vec3.normalize_sub_self sqrt p
    refine ⟨hn, ?_, ?_⟩
    · intro s1 s2 h1 h2
      obtain ⟨⟨c1, r1⟩, v1⟩ := s1
      obtain ⟨⟨c2, r2⟩, v2⟩ := s2
      simp only at h1 h2
      subst h1 h2
      simp only [collidePair, hn]
      split_ifs
      · simp [Vec3.zero, Vec3.multiplyScalar, Vec3.addScaledVector, Vec3.add, Vec3.sub, Vec3.dot]
      · rfl
    · intro r st hc
      obtain ⟨vec, pv, ⟨⟨c, rad⟩, sv⟩⟩ := st
      simp only at hc
      subst hc
      simp only [playerSpherePoint, hn]
      split_ifs
      · simp [Vec3.zero, Vec3.multiplyScalar, Vec3.addScaledVector, Vec3.add, Vec3.sub, Vec3.dot]
      · exact ⟨rfl, rfl⟩

/-! ## Momentum -/

/-- The sum of the velocities of a pool, by components. -/
theorem totalVelocity_eq (pool : List Body) :
    totalVelocity pool
      = ⟨(pool.map fun b => b.velocity.x).sum, (pool.map fun b => b.velocity.y).sum,
          (pool.map fun b => b.velocity.z).sum⟩ := by
  have key : ∀ (l : List Body) (acc : Vec3),
      l.foldl (fun acc b => acc.add b.velocity) acc
        = ⟨acc.x + (l.map fun b => b.velocity.x).sum, acc.y + (l.map fun b => b.velocity.y).sum,
            acc.z + (l.map fun b => b.velocity.z).sum⟩ := by
    intro l
    induction l with
    | nil => intro acc; simp
    | cons b l ih =>
      intro acc
      rw [List.foldl_cons, ih]
      ext <;> simp only [List.map_cons, List.sum_cons, Vec3.add] <;> ring
  unfold totalVelocity
  rw [key]
  simp [Vec3.zero]

/-- Replacing one entry of a list changes the sum of a rational quantity by
the difference of the entries. -/
theorem sum_map_set (f : Body → ℚ) :
    ∀ (l : List Body) (i : Nat) (a : Body) (h : i < l.length),
      ((l.set i a).map f).sum = (l.map f).sum - f (l.get ⟨i, h⟩) + f a := by
  intro l
  induction l with
  | nil => intro i a h; exact absurd h (Nat.not_lt_zero _)
  | cons b l ih =>
    intro i a h
    cases i with
    | zero =>
      have hb : (b :: l).get ⟨0, h⟩ = b := rfl
      simp only [List.set_cons_zero, List.map_cons, List.sum_cons, hb]
      ring
    | succ i =>
      have h2 : i < l.length := Nat.lt_of_succ_lt_succ h
      simp only [List.set_cons_succ, List.map_cons, List.sum_cons, ih i a h2, List.get_cons_succ]
      ring

/-- One pair step of `spheresCollisions` at distinct indices preserves the
sum of every quantity that the pair step preserves. -/
theorem collideAt_sum (sqrt : ℚ → ℚ) (f : Body → ℚ)
    (hf : ∀ s1 s2, f (collidePair sqrt s1 s2).1 + f (collidePair sqrt s1 s2).2 = f s1 + f s2)
    (i j : Nat) (hij : i ≠ j) (pool : List Body) :
    ((collideAt sqrt i j pool).map f).sum = (pool.map f).sum := by
  unfold collideAt
  cases hi : pool[i]? with
  | none => rfl
  | some s1 =>
    cases hj : pool[j]? with
    | none => rfl
    | some s2 =>
      obtain ⟨hil, hie⟩ := List.getElem?_eq_some.mp hi
      obtain ⟨hjl, hje⟩ := List.getElem?_eq_some.mp hj
      have hjl2 : j < (pool.set i (collidePair sqrt s1 s2).1).length := by
        rw [List.length_set]
        exact hjl
      have hget : (pool.set i (collidePair sqrt s1 s2).1).get ⟨j, hjl2⟩ = s2 := by
        rw [List.get_eq_getElem]
        simp only [List.getElem_set_ne hij]
        exact hje
      have hget1 : pool.get ⟨i, hil⟩ = s1 := by
        rw [List.get_eq_getElem]
        exact hie
      simp only []
      rw [sum_map_set f _ j _ hjl2, sum_map_set f _ i _ hil, hget, hget1]
      linarith [hf s1 s2]

/-- The function `spheresCollisions` preserves the sum of every quantity that
the pair step preserves. -/
theorem spheresCollisions_sum (sqrt : ℚ → ℚ) (f : Body → ℚ)
    (hf : ∀ s1 s2, f (collidePair sqrt s1 s2).1 + f (collidePair sqrt s1 s2).2 = f s1 + f s2)
    (pool : List Body) :
    ((spheresCollisions sqrt pool).map f).sum = (pool.map f).sum := by
  have inner : ∀ (i : Nat) (l : List Nat), (∀ j ∈ l, i ≠ j) → ∀ p : List Body,
      ((l.foldl (fun pool j => collideAt sqrt i j pool) p).map f).sum = (p.map f).sum := by
    intro i l
    induction l with
    | nil => intro _ p; rfl
    | cons j l ih =>
      intro h p
      rw [List.foldl_cons, ih (fun k hk => h k (List.mem_cons_of_mem _ hk)),
        collideAt_sum sqrt f hf i j (h j (List.mem_cons_self _ _))]
  have outer : ∀ (n : Nat) (l : List Nat) (p : List Body),
      ((l.foldl (fun pool i =>
          (List.range' (i + 1) (n - (i + 1))).foldl (fun pool j => collideAt sqrt i j pool) pool)
        p).map f).sum = (p.map f).sum := by
    intro n l
    induction l with
    | nil => intro p; rfl
    | cons i l ih =>
      intro p
      rw [List.foldl_cons, ih, inner]
      intro j hj
      have := (List.mem_range'_1.mp hj).1
      omega
  exact outer _ _ _

/-- The pair step of `spheresCollisions` preserves the sum of the two velocities. -/
theorem collidePair_velocity (sqrt : ℚ → ℚ) (s1 s2 : Body) :
    (collidePair sqrt s1 s2).1.velocity.add (collidePair sqrt s1 s2).2.velocity
      = s1.velocity.add s2.velocity := by
  simp only [collidePair]
  split_ifs
  · ext <;> simp only [Vec3.add, Vec3.sub] <;> ring
  · rfl

/-- One iteration of the loop of `playerSphereCollision` preserves the sum of
the player velocity and the sphere velocity. -/
theorem playerSpherePoint_velocity (sqrt : ℚ → ℚ) (r : ℚ) (point : Vec3)
    (st : PlayerSphereState) :
    (playerSpherePoint sqrt r point st).playerVelocity.add
        (playerSpherePoint sqrt r point st).sphere.velocity
      = st.playerVelocity.add st.sphere.velocity := by
  simp only [playerSpherePoint]
  split_ifs
  · ext <;> simp only [Vec3.add, Vec3.sub] <;> ring
  · rfl

/-- Exact arithmetic: `spheresCollisions` leaves the sum of all sphere
velocities unchanged, for every pool, and `playerSphereCollision` leaves
`playerVelocity + sphere.velocity` unchanged, for every capsule, player
velocity and sphere. -/
theorem collisions_exact_momentum (sqrt : ℚ → ℚ) :
    (∀ pool : List Body, totalVelocity (spheresCollisions sqrt pool) = totalVelocity pool) ∧
    (∀ (playerCollider : Capsule) (playerVelocity : Vec3) (sphere : Body),
      (playerSphereCollision sqrt playerCollider playerVelocity sphere).1.add
          (playerSphereCollision sqrt playerCollider playerVelocity sphere).2.velocity
        = playerVelocity.add sphere.velocity) := by
  constructor
  · intro pool
    rw [totalVelocity_eq, totalVelocity_eq]
    have hx := spheresCollisions_sum sqrt (fun b => b.velocity.x)
      (fun s1 s2 => congrArg Vec3.x (collidePair_velocity sqrt s1 s2)) pool
    have hy := spheresCollisions_sum sqrt (fun b => b.velocity.y)
      (fun s1 s2 => congrArg Vec3.y (collidePair_velocity sqrt s1 s2)) pool
    have hz := spheresCollisions_sum sqrt (fun b => b.velocity.z)
      (fun s1 s2 => congrArg Vec3.z (collidePair_velocity sqrt s1 s2)) pool
    rw [hx, hy, hz]
  · intro playerCollider playerVelocity sphere
    simp only [playerSphereCollision]
    rw [playerSpherePoint_velocity, playerSpherePoint_velocity, playerSpherePoint_velocity]

/-! ## Free-fly mode -/

/-- In free-fly mode `controls` only moves the camera. -/
theorem controls_devMode (env : Env) (deltaTime : ℚ) (g : Game) (h : g.devMode = true) :
    (controls env deltaTime g).player = g.player ∧
    (controls env deltaTime g).spheres = g.spheres ∧
    (controls env deltaTime g).devMode = true := by
  simp only [controls, h, if_true]
  exact ⟨trivial, trivial, trivial⟩

/-- In free-fly mode `updatePlayer` does nothing. -/
theorem updatePlayer_devMode (env : Env) (deltaTime : ℚ) (g : Game) (h : g.devMode = true) :
    updatePlayer env deltaTime g = g := by
  simp [updatePlayer, h]

/-- The player after one substep in free-fly mode. -/
theorem substep_devMode (env : Env) (deltaTime : ℚ) (g : Game) (h : g.devMode = true) :
    (substep env deltaTime g).player.onFloor = g.player.onFloor ∧
    (substep env deltaTime g).player.collider
      = (if (controls env deltaTime g).camera.position.y ≤ -25 then spawnCapsule
          else g.player.collider) ∧
    (substep env deltaTime g).player.velocity
      = (updateSpheres env.world env.sqrt env.exp g.player.collider deltaTime g.player.velocity
          g.spheres).1 ∧
    (substep env deltaTime g).spheres
      = (updateSpheres env.world env.sqrt env.exp g.player.collider deltaTime g.player.velocity
          g.spheres).2 := by
  obtain ⟨hp, hsph, hdev⟩ := controls_devMode env deltaTime g h
  simp only [substep, updatePlayer_devMode env deltaTime _ hdev]
  simp only [teleportPlayerIfOob, updateSpheresStep, hp, hsph, spawnCapsule]
  split_ifs <;> exact ⟨rfl, rfl, rfl, rfl⟩

/-- The player velocity returned by `updateSpheres` is threaded through the
callbacks of the spheres. -/
theorem updateSpheres_fst (w : World) (sqrt exp : ℚ → ℚ) (pc : Capsule) (deltaTime : ℚ)
    (pv : Vec3) (pool : List Body) :
    (updateSpheres w sqrt exp pc deltaTime pv pool).1
      = pool.foldl (fun v b => (updateSphere w sqrt exp pc deltaTime v b).1) pv := by
  have key : ∀ (l : List Body) (acc : Vec3 × List Body),
      (l.foldl (fun (acc : Vec3 × List Body) sphere =>
          ((updateSphere w sqrt exp pc deltaTime acc.1 sphere).1,
            acc.2 ++ [(updateSphere w sqrt exp pc deltaTime acc.1 sphere).2])) acc).1
        = l.foldl (fun v b => (updateSphere w sqrt exp pc deltaTime v b).1) acc.1 := by
    intro l
    induction l with
    | nil => intro acc; rfl
    | cons b l ih => intro acc; rw [List.foldl_cons, ih, List.foldl_cons]
  simp only [updateSpheres]
  exact key pool (pv, [])

/-- With a substep of duration `0` in the world without geometry a resting
sphere reaches `playerSphereCollision` unchanged. -/
theorem restingSphere_before_player :
    sphereDamping expTaylor 0 (sphereWorldStep emptyWorld 0 restingSphere) = restingSphere := by
  simp only [sphereDamping, sphereWorldStep, sphereWorldResponse, sphereIntegrate, emptyWorld,
    restingSphere, expTaylor, GRAVITY, Vec3.addScaledVector, Vec3.zero]
  norm_num

/-- A sphere resting far below the spawn capsule exchanges nothing with the player. -/
theorem playerSphereCollision_resting (pv : Vec3) :
    (playerSphereCollision ratSqrt spawnCapsule pv restingSphere).1 = pv := by
  have h1 : ¬ ((⟨0, 7 / 20, 0⟩ : Vec3).distanceToSquared ⟨0, -100, 0⟩
      < (7 / 20 + 1 / 5) * (7 / 20 + 1 / 5)) := by
    norm_num [Vec3.distanceToSquared]
  have h2 : ¬ ((⟨0, 1, 0⟩ : Vec3).distanceToSquared ⟨0, -100, 0⟩
      < (7 / 20 + 1 / 5) * (7 / 20 + 1 / 5)) := by
    norm_num [Vec3.distanceToSquared]
  have h3 : ¬ ((((⟨0, 7 / 20, 0⟩ : Vec3).add ⟨0, 1, 0⟩).multiplyScalar
        (1 / 2)).distanceToSquared ⟨0, -100, 0⟩
      < (7 / 20 + 1 / 5) * (7 / 20 + 1 / 5)) := by
    norm_num [Vec3.distanceToSquared, Vec3.add, Vec3.multiplyScalar]
  simp only [playerSphereCollision, playerSpherePoint, spawnCapsule, restingSphere,
    SPHERE_RADIUS, h1, h2, h3, if_false]

/-- A resting sphere leaves the player velocity unchanged in `updateSpheres`. -/
theorem updateSphere_resting (pv : Vec3) :
    (updateSphere emptyWorld ratSqrt expTaylor spawnCapsule 0 pv restingSphere).1 = pv := by
  unfold updateSphere
  rw [restingSphere_before_player]
  exact playerSphereCollision_resting pv

/-- With a substep of duration `0` in the world without geometry the sphere
`sphereBesideStart` reaches `playerSphereCollision` unchanged. -/
theorem sphereBesideStart_before_player :
    sphereDamping expTaylor 0 (sphereWorldStep emptyWorld 0 sphereBesideStart)
      = sphereBesideStart := by
  simp only [sphereDamping, sphereWorldStep, sphereWorldResponse, sphereIntegrate, emptyWorld,
    sphereBesideStart, expTaylor, GRAVITY, Vec3.addScaledVector]
  norm_num

/-- The player velocity after `updateSpheres` in the state `freeFlyHit`. -/
theorem updateSpheres_freeFlyHit :
    (updateSpheres emptyWorld ratSqrt expTaylor spawnCapsule 0 Vec3.zero
      (sphereBesideStart :: List.replicate 99 restingSphere)).1 = ⟨-1, 0, 0⟩ := by
  have hrep : ∀ (n : Nat) (v : Vec3),
      (List.replicate n restingSphere).foldl
        (fun v b => (updateSphere emptyWorld ratSqrt expTaylor spawnCapsule 0 v b).1) v = v := by
    intro n
    induction n with
    | zero => intro v; rfl
    | succ n ih => intro v; rw [List.replicate_succ, List.foldl_cons, updateSphere_resting, ih]
  rw [updateSpheres_fst, List.foldl_cons, hrep]
  simp only [updateSphere, sphereBesideStart_before_player, playerSphereCollision_besideStart]

/-- C13, refuted: in free-fly mode a substep resets the capsule when the
camera is below the out-of-bounds threshold, and a substep changes the player
velocity when a sphere touches the capsule. -/
theorem substep_devMode_changes_player :
    (freeFlyBelow.devMode = true ∧
      (substep plainEnv (1 / 100) freeFlyBelow).player.collider = spawnCapsule ∧
      (substep plainEnv (1 / 100) freeFlyBelow).player.collider ≠ freeFlyBelow.player.collider) ∧
    (freeFlyHit.devMode = true ∧
      (substep plainEnv 0 freeFlyHit).player.velocity = ⟨-1, 0, 0⟩ ∧
      (substep plainEnv 0 freeFlyHit).player.velocity ≠ freeFlyHit.player.velocity) := by
  have h1 := (substep_devMode plainEnv (1 / 100) freeFlyBelow rfl).2.1
  have hcam : (controls plainEnv (1 / 100) freeFlyBelow).camera.position.y ≤ -25 := by
    norm_num [controls, freeFlyBelow, idleKeys]
  rw [if_pos hcam] at h1
  have h2 := (substep_devMode plainEnv 0 freeFlyHit rfl).2.2.1
  have h3 : (substep plainEnv 0 freeFlyHit).player.velocity = ⟨-1, 0, 0⟩ := by
    rw [h2]
    exact updateSpheres_freeFlyHit
  refine ⟨⟨rfl, h1, ?_⟩, ⟨rfl, h3, ?_⟩⟩
  · rw [h1]
    norm_num [spawnCapsule, freeFlyBelow]
  · rw [h3]
    norm_num [freeFlyHit, Vec3.zero]

/-- C13, amended: in free-fly mode `controls` and `updatePlayer` leave the
player (velocity, capsule, floor flag) unchanged; over a whole substep the
floor flag is unchanged, the capsule is unchanged unless the camera is at or
below `-25` after `controls` (then it is reset to the spawn pose), the player
velocity is the one that the `playerSphereCollision` calls of `updateSpheres`
return, and the spheres are the pool returned by `updateSpheres`. -/
theorem substep_free_fly (env : Env) (deltaTime : ℚ) (g : Game) (h : g.devMode = true) :
    (controls env deltaTime g).player = g.player ∧
    (updatePlayer env deltaTime (controls env deltaTime g)).player = g.player ∧
    (substep env deltaTime g).player.onFloor = g.player.onFloor ∧
    (substep env deltaTime g).player.collider
      = (if (controls env deltaTime g).camera.position.y ≤ -25 then spawnCapsule
          else g.player.collider) ∧
    (substep env deltaTime g).player.velocity
      = (updateSpheres env.world env.sqrt env.exp g.player.collider deltaTime g.player.velocity
          g.spheres).1 ∧
    (substep env deltaTime g).spheres
      = (updateSpheres env.world env.sqrt env.exp g.player.collider deltaTime g.player.velocity
          g.spheres).2 := by
  obtain ⟨hp, _, hdev⟩ := controls_devMode env deltaTime g h
  refine ⟨hp, ?_, substep_devMode env deltaTime g h⟩
  rw [updatePlayer_devMode env deltaTime _ hdev, hp]

/-- C13, amended, for the state `freeFlyHit`. -/
theorem substep_free_fly_witness :
    freeFlyHit.devMode = true ∧
    (substep plainEnv (1 / 100) freeFlyHit).player.onFloor = freeFlyHit.player.onFloor ∧
    (substep plainEnv (1 / 100) freeFlyHit).spheres
      = (updateSpheres plainEnv.world plainEnv.sqrt plainEnv.exp freeFlyHit.player.collider
          (1 / 100) freeFlyHit.player.velocity freeFlyHit.spheres).2 :=
  ⟨rfl, (substep_free_fly plainEnv (1 / 100) freeFlyHit rfl).2.2.1,
    (substep_free_fly plainEnv (1 / 100) freeFlyHit rfl).2.2.2.2.2⟩

/-! ## Capsule shape -/

/-- Translating a capsule keeps its shape. -/
theorem capsuleShape_translate (c : Capsule) (v : Vec3) (h : capsuleShape c) :
    capsuleShape (c.translate v) := by
  obtain ⟨h1, h2⟩ := h
  refine ⟨?_, h2⟩
  rw [← h1]
  ext <;> simp only [Capsule.translate, Vec3.sub, Vec3.add] <;> ring

/-- The function `playerCollisions` keeps the shape of the capsule. -/
theorem capsuleShape_playerCollisions (w : World) (p : Player) (h : capsuleShape p.collider) :
    capsuleShape (playerCollisions w p).collider := by
  unfold playerCollisions
  cases w.capsuleIntersect p.collider with
  | none => exact h
  | some result => exact capsuleShape_translate _ _ h

/-- The function `teleportPlayerIfOob` keeps the shape of the capsule. -/
theorem capsuleShape_teleport (g : Game) (h : capsuleShape g.player.collider) :
    capsuleShape (teleportPlayerIfOob g).player.collider := by
  unfold teleportPlayerIfOob
  split_ifs
  · constructor
    · ext <;> norm_num [Vec3.sub]
    · rfl
  · exact h

/-- One substep keeps the shape of the capsule. -/
theorem capsuleShape_substep (env : Env) (deltaTime : ℚ) (g : Game)
    (h : capsuleShape g.player.collider) :
    capsuleShape (controls env deltaTime g).player.collider ∧
    capsuleShape (updatePlayer env deltaTime g).player.collider ∧
    capsuleShape (substep env deltaTime g).player.collider := by
  have hc : ∀ g : Game, capsuleShape g.player.collider →
      capsuleShape (controls env deltaTime g).player.collider := by
    intro g h
    unfold controls
    split_ifs <;> exact h
  have hu : ∀ g : Game, capsuleShape g.player.collider →
      capsuleShape (updatePlayer env deltaTime g).player.collider := by
    intro g h
    unfold updatePlayer
    split_ifs
    · exact capsuleShape_playerCollisions _ _ (capsuleShape_translate _ _ h)
    · exact h
  refine ⟨hc g h, hu g h, ?_⟩
  unfold substep
  apply capsuleShape_teleport
  exact hu _ (hc g h)

/-- Exact arithmetic: the spawn capsule has `end - start = (0, 0.65, 0)` and
radius `0.35`, and every operation of a substep keeps this shape: the
translation by `velocity * dt` of `updatePlayer`, the push-out of
`playerCollisions`, `updateSpheres` with its `playerSphereCollision` calls (which
leave the capsule untouched), `teleportPlayerIfOob`, hence a whole substep and
every sequence of frames started from the spawn capsule. -/
theorem capsule_exact_invariant (env : Env) :
    capsuleShape spawnCapsule ∧
    (∀ (deltaTime : ℚ) (g : Game), capsuleShape g.player.collider →
      capsuleShape (playerIntegrate env deltaTime g.player).collider ∧
      capsuleShape (playerCollisions env.world g.player).collider ∧
      capsuleShape (updatePlayer env deltaTime g).player.collider ∧
      (updateSpheresStep env deltaTime g).player.collider = g.player.collider ∧
      capsuleShape (teleportPlayerIfOob g).player.collider ∧
      capsuleShape (substep env deltaTime g).player.collider) ∧
    (∀ (frames : List ℚ) (g : Game), g.player.collider = spawnCapsule →
      capsuleShape (frames.foldl (fun g elapsed => animate env elapsed g) g).player.collider) := by
  have hspawn : capsuleShape spawnCapsule := by
    constructor
    · ext <;> norm_num [spawnCapsule, Vec3.sub]
    · rfl
  have hloop : ∀ (deltaTime : ℚ) (n : Nat) (g : Game), capsuleShape g.player.collider →
      capsuleShape (animateLoop env deltaTime n g).player.collider := by
    intro deltaTime n
    induction n with
    | zero => intro g h; exact h
    | succ n ih =>
      intro g h
      exact ih _ (capsuleShape_substep env deltaTime g h).2.2
  have hframes : ∀ (frames : List ℚ) (g : Game), capsuleShape g.player.collider →
      capsuleShape (frames.foldl (fun g elapsed => animate env elapsed g) g).player.collider := by
    intro frames
    induction frames with
    | nil => intro g h; exact h
    | cons t frames ih =>
      intro g h
      rw [List.foldl_cons]
      exact ih _ (hloop _ _ g h)
  refine ⟨hspawn, ?_, ?_⟩
  · intro deltaTime g h
    exact ⟨capsuleShape_translate _ _ h, capsuleShape_playerCollisions _ _ h,
      (capsuleShape_substep env deltaTime g h).2.1, rfl, capsuleShape_teleport g h,
      (capsuleShape_substep env deltaTime g h).2.2⟩
  · intro frames g hg
    apply hframes
    rw [hg]
    exact hspawn

/-! ## Properties of binary64 rounding -/

/-- A rational strictly within one half of an integer rounds to that integer. -/
theorem roundHalfEven_near (y : ℚ) (m : ℤ) (h1 : (m : ℚ) - 1 / 2 < y) (h2 : y < m + 1 / 2) :
    roundHalfEven y = m := by
  unfold roundHalfEven
  by_cases hy : (m : ℚ) ≤ y
  · have hf : ⌊y⌋ = m := by
      rw [Int.floor_eq_iff]
      constructor
      · exact hy
      · linarith
    rw [hf, if_pos (by linarith)]
  · push_neg at hy
    have hf : ⌊y⌋ = m - 1 := by
      rw [Int.floor_eq_iff]
      push_cast
      constructor <;> linarith
    rw [hf]
    push_cast
    rw [if_neg (by linarith), if_pos (by linarith)]
    ring

/-- The rounded integer is within one half of the argument. -/
theorem roundHalfEven_close (y : ℚ) :
    (roundHalfEven y : ℚ) - 1 / 2 ≤ y ∧ y ≤ roundHalfEven y + 1 / 2 := by
  have h1 := Int.floor_le y
  have h2 := Int.lt_floor_add_one y
  unfold roundHalfEven
  split_ifs with a b c
  · constructor <;> linarith
  · push_cast
    constructor <;> linarith
  · constructor <;> linarith
  · push_cast
    constructor <;> linarith

/-- Rounding to the nearest integer is monotone. -/
theorem roundHalfEven_mono (y1 y2 : ℚ) (h : y1 ≤ y2) : roundHalfEven y1 ≤ roundHalfEven y2 := by
  by_contra hc
  push_neg at hc
  have h1 := (roundHalfEven_close y1).1
  have h2 := (roundHalfEven_close y2).2
  have hc2 : (roundHalfEven y2 : ℚ) + 1 ≤ roundHalfEven y1 := by exact_mod_cast hc
  have heq : y1 = y2 := by linarith
  rw [heq] at hc
  exact lt_irrefl _ hc

/-- An integer rounds to itself. -/
theorem roundHalfEven_int (n : ℤ) : roundHalfEven (n : ℚ) = n :=
  roundHalfEven_near _ _ (by linarith) (by linarith)

/-- The binary logarithm of a rational between two consecutive powers of two. -/
theorem log_eq_of_bounds (x : ℚ) (k : ℤ) (h1 : (2 : ℚ) ^ k ≤ x) (h2 : x < (2 : ℚ) ^ (k + 1)) :
    Int.log 2 x = k := by
  have hx : 0 < x := lt_of_lt_of_le (by positivity) h1
  have hb : 1 < 2 := by norm_num
  have a : k ≤ Int.log 2 x := (Int.zpow_le_iff_le_log hb hx).mp (by exact_mod_cast h1)
  have b : Int.log 2 x < k + 1 := (Int.lt_zpow_iff_log_lt hb hx).mp (by exact_mod_cast h2)
  omega

/-- Powers of two written as multiples of the unit in the last place. -/
theorem zpow_split (k : ℤ) :
    (2 : ℚ) ^ k = 4503599627370496 * 2 ^ (k - 52) ∧
    (2 : ℚ) ^ (k + 1) = 9007199254740992 * 2 ^ (k - 52) := by
  have h : (2 : ℚ) ^ k = 4503599627370496 * 2 ^ (k - 52) := by
    rw [zpow_sub₀ (by norm_num)]
    norm_num
    field_simp
  refine ⟨h, ?_⟩
  rw [zpow_add₀ (by norm_num), h]
  norm_num
  ring

/-- The scaled significand of a positive rational lies in `[2^52, 2^53)`. -/
theorem significand_bounds (x : ℚ) (hx : 0 < x) :
    (4503599627370496 : ℚ) ≤ x / 2 ^ (Int.log 2 x - 52) ∧
    x / 2 ^ (Int.log 2 x - 52) < 9007199254740992 := by
  have hb : 1 < 2 := by norm_num
  have h1 : ((2 : ℕ) : ℚ) ^ Int.log 2 x ≤ x := Int.zpow_log_le_self hb hx
  have h2 : x < ((2 : ℕ) : ℚ) ^ (Int.log 2 x + 1) := Int.lt_zpow_succ_log_self hb x
  push_cast at h1 h2
  have hu : (0 : ℚ) < 2 ^ (Int.log 2 x - 52) := by positivity
  obtain ⟨e1, e2⟩ := zpow_split (Int.log 2 x)
  rw [e1] at h1
  rw [e2] at h2
  constructor
  · rw [le_div_iff₀ hu]
    exact h1
  · rw [div_lt_iff₀ hu]
    exact h2

/-- The value of `round53` at a point of the binade of unit `u = 2 ^ e` that lies
strictly within half a unit of the grid point `m * u`. -/
theorem round53_near (x : ℚ) (m e : ℤ) (u : ℚ) (hu : u = 2 ^ e)
    (h1 : 4503599627370496 * u ≤ x) (h2 : x < 9007199254740992 * u)
    (h3 : (m : ℚ) * u - u / 2 < x) (h4 : x < m * u + u / 2) :
    round53 x = m * u := by
  have hupos : 0 < u := by rw [hu]; positivity
  have hlog : Int.log 2 x = e + 52 := by
    apply log_eq_of_bounds
    · rw [zpow_add₀ (by norm_num), ← hu]
      norm_num
      linarith
    · rw [zpow_add₀ (by norm_num), zpow_add₀ (by norm_num), ← hu]
      norm_num
      linarith
  unfold round53
  rw [hlog]
  have he : e + 52 - 52 = e := by ring
  rw [he, ← hu]
  rw [roundHalfEven_near (x / u) m]
  · rw [lt_div_iff₀ hupos]
    linarith
  · rw [div_lt_iff₀ hupos]
    linarith

/-- The significand after rounding lies in `[2^52, 2^53]`. -/
theorem round53_significand (x : ℚ) (hx : 0 < x) :
    (4503599627370496 : ℤ) ≤ roundHalfEven (x / 2 ^ (Int.log 2 x - 52)) ∧
    roundHalfEven (x / 2 ^ (Int.log 2 x - 52)) ≤ 9007199254740992 := by
  obtain ⟨h1, h2⟩ := significand_bounds x hx
  constructor
  · have := roundHalfEven_mono _ _ h1
    rw [show (4503599627370496 : ℚ) = ((4503599627370496 : ℤ) : ℚ) by norm_num,
      roundHalfEven_int] at this
    exact this
  · have := roundHalfEven_mono _ _ (le_of_lt h2)
    rw [show (9007199254740992 : ℚ) = ((9007199254740992 : ℤ) : ℚ) by norm_num,
      roundHalfEven_int] at this
    exact this

/-- A positive rational rounds to a positive rational. -/
theorem round53_pos (x : ℚ) (hx : 0 < x) : 0 < round53 x := by
  have h := (round53_significand x hx).1
  unfold round53
  apply mul_pos
  · exact_mod_cast lt_of_lt_of_le (by norm_num) h
  · positivity

/-- Binade bounds: `2 ^ log x <= round53 x <= 2 ^ (log x + 1)`. -/
theorem round53_binade (x : ℚ) (hx : 0 < x) :
    (2 : ℚ) ^ Int.log 2 x ≤ round53 x ∧ round53 x ≤ 2 ^ (Int.log 2 x + 1) := by
  obtain ⟨h1, h2⟩ := round53_significand x hx
  have hu : (0 : ℚ) < 2 ^ (Int.log 2 x - 52) := by positivity
  obtain ⟨e1, e2⟩ := zpow_split (Int.log 2 x)
  have c1 : (4503599627370496 : ℚ) ≤ roundHalfEven (x / 2 ^ (Int.log 2 x - 52)) := by
    exact_mod_cast h1
  have c2 : (roundHalfEven (x / 2 ^ (Int.log 2 x - 52)) : ℚ) ≤ 9007199254740992 := by
    exact_mod_cast h2
  unfold round53
  rw [e1, e2]
  constructor
  · exact mul_le_mul_of_nonneg_right c1 (le_of_lt hu)
  · exact mul_le_mul_of_nonneg_right c2 (le_of_lt hu)

/-- The rounding `round53` is monotone on positive rationals. -/
theorem round53_mono (x y : ℚ) (hx : 0 < x) (h : x ≤ y) : round53 x ≤ round53 y := by
  have hy : 0 < y := lt_of_lt_of_le hx h
  have hlog : Int.log 2 x ≤ Int.log 2 y := Int.log_mono_right hx h
  rcases eq_or_lt_of_le hlog with heq | hlt
  · unfold round53
    rw [heq]
    have hu : (0 : ℚ) < 2 ^ (Int.log 2 y - 52) := by positivity
    apply mul_le_mul_of_nonneg_right _ (le_of_lt hu)
    have : x / 2 ^ (Int.log 2 y - 52) ≤ y / 2 ^ (Int.log 2 y - 52) :=
      div_le_div_of_nonneg_right h (le_of_lt hu)
    exact_mod_cast roundHalfEven_mono _ _ this
  · have a := (round53_binade x hx).2
    have b := (round53_binade y hy).1
    have c : (2 : ℚ) ^ (Int.log 2 x + 1) ≤ 2 ^ Int.log 2 y :=
      zpow_le_zpow_right₀ (by norm_num) (by omega)
    linarith

/-- The relative error of `round53` is at most `2 ^ -53`. -/
theorem round53_close (x : ℚ) (hx : 0 < x) : |round53 x - x| ≤ x / 2 ^ 53 := by
  obtain ⟨h1, _⟩ := significand_bounds x hx
  obtain ⟨c1, c2⟩ := roundHalfEven_close (x / 2 ^ (Int.log 2 x - 52))
  have hu : (0 : ℚ) < 2 ^ (Int.log 2 x - 52) := by positivity
  unfold round53
  generalize (2 : ℚ) ^ (Int.log 2 x - 52) = u at *
  generalize (roundHalfEven (x / u) : ℚ) = M at *
  rw [le_div_iff₀ hu] at h1 c1
  rw [div_le_iff₀ hu] at c2
  rw [abs_le]
  constructor <;> norm_num <;> nlinarith

/-- The rounding `round53` fixes its own values. -/
theorem round53_idem (x : ℚ) (hx : 0 < x) : round53 (round53 x) = round53 x := by
  obtain ⟨h1, h2⟩ := round53_significand x hx
  have hu : (0 : ℚ) < 2 ^ (Int.log 2 x - 52) := by positivity
  rcases eq_or_lt_of_le h2 with heq | hlt
  · have e : round53 x = (4503599627370496 : ℤ) * 2 ^ (Int.log 2 x - 52 + 1) := by
      unfold round53
      rw [heq, zpow_add₀ (by norm_num)]
      push_cast
      ring
    rw [e]
    apply round53_near _ _ (Int.log 2 x - 52 + 1) _ rfl
    · push_cast; exact le_refl _
    · push_cast
      have : (0 : ℚ) < 2 ^ (Int.log 2 x - 52 + 1) := by positivity
      linarith
    · have : (0 : ℚ) < 2 ^ (Int.log 2 x - 52 + 1) := by positivity
      linarith
    · have : (0 : ℚ) < 2 ^ (Int.log 2 x - 52 + 1) := by positivity
      linarith
  · have e : round53 x = (roundHalfEven (x / 2 ^ (Int.log 2 x - 52)) : ℤ)
        * 2 ^ (Int.log 2 x - 52) := rfl
    rw [e]
    have c1 : (4503599627370496 : ℚ) ≤ roundHalfEven (x / 2 ^ (Int.log 2 x - 52)) := by
      exact_mod_cast h1
    have c2 : (roundHalfEven (x / 2 ^ (Int.log 2 x - 52)) : ℚ) < 9007199254740992 := by
      exact_mod_cast hlt
    apply round53_near _ _ (Int.log 2 x - 52) _ rfl
    · exact mul_le_mul_of_nonneg_right c1 (le_of_lt hu)
    · exact mul_lt_mul_of_pos_right c2 hu
    · linarith
    · linarith

/-- The value of `binary64` at a positive point of the binade of unit `u = 2 ^ e`
that lies strictly within half a unit of the grid point `m * u`. -/
theorem binary64_near (x : ℚ) (m e : ℤ) (u : ℚ) (hu : u = 2 ^ e)
    (h1 : 4503599627370496 * u ≤ x) (h2 : x < 9007199254740992 * u)
    (h3 : (m : ℚ) * u - u / 2 < x) (h4 : x < m * u + u / 2) :
    binary64 x = m * u := by
  have hupos : 0 < u := by rw [hu]; positivity
  have hx : 0 < x := by linarith
  unfold binary64
  rw [if_neg (ne_of_gt hx), if_pos hx]
  exact round53_near x m e u hu h1 h2 h3 h4

/-- A rational halfway between two integers rounds to the even one. -/
theorem roundHalfEven_tie (m : ℤ) :
    roundHalfEven ((m : ℚ) + 1 / 2) = if m % 2 = 0 then m else m + 1 := by
  have hf : ⌊(m : ℚ) + 1 / 2⌋ = m := by
    rw [Int.floor_eq_iff]
    constructor <;> linarith
  unfold roundHalfEven
  rw [hf, if_neg (by linarith), if_neg (by linarith)]

/-- The value of `binary64` at the midpoint of the grid points `m * u` and
`(m + 1) * u` of a binade of unit `u = 2 ^ e`: the one with even significand. -/
theorem binary64_tie (x : ℚ) (m e : ℤ) (u : ℚ) (hu : u = 2 ^ e)
    (h1 : 4503599627370496 * u ≤ x) (h2 : x < 9007199254740992 * u)
    (h3 : x = (m : ℚ) * u + u / 2) :
    binary64 x = (if m % 2 = 0 then m else m + 1 : ℤ) * u := by
  have hupos : 0 < u := by rw [hu]; positivity
  have hx : 0 < x := by linarith
  have hlog : Int.log 2 x = e + 52 := by
    apply log_eq_of_bounds
    · rw [zpow_add₀ (by norm_num), ← hu]
      norm_num
      linarith
    · rw [zpow_add₀ (by norm_num), zpow_add₀ (by norm_num), ← hu]
      norm_num
      linarith
  unfold binary64
  rw [if_neg (ne_of_gt hx), if_pos hx]
  unfold round53
  rw [hlog]
  have he : e + 52 - 52 = e := by ring
  rw [he, ← hu]
  have hy : x / u = (m : ℚ) + 1 / 2 := by
    rw [h3]
    field_simp
    ring
  rw [hy, roundHalfEven_tie]

/-- The rounding `binary64` is odd. -/
theorem binary64_neg (x : ℚ) : binary64 (-x) = -binary64 x := by
  unfold binary64
  rcases lt_trichotomy x 0 with h | h | h
  · rw [if_neg (by linarith), if_pos (by linarith), if_neg (by linarith), if_neg (by linarith)]
    simp
  · subst h
    simp
  · rw [if_neg (by linarith), if_neg (by linarith), if_neg (by linarith), if_pos h]
    simp

/-- The rounding `binary64` has the properties collected in `IsRounding`. -/
theorem binary64_isRounding : IsRounding binary64 where
  mono := by
    intro x y h
    unfold binary64
    rcases lt_trichotomy x 0 with hx | hx | hx <;> rcases lt_trichotomy y 0 with hy | hy | hy
    · rw [if_neg (by linarith), if_neg (by linarith), if_neg (by linarith), if_neg (by linarith)]
      have := round53_mono (-y) (-x) (by linarith) (by linarith)
      linarith
    · rw [if_neg (by linarith), if_neg (by linarith), if_pos hy]
      have := round53_pos (-x) (by linarith)
      linarith
    · rw [if_neg (by linarith), if_neg (by linarith), if_neg (by linarith), if_pos hy]
      have := round53_pos (-x) (by linarith)
      have := round53_pos y hy
      linarith
    · linarith
    · rw [hx, hy]
    · rw [if_pos hx, if_neg (by linarith), if_pos hy]
      exact le_of_lt (round53_pos y hy)
    · linarith
    · linarith
    · rw [if_neg (by linarith), if_pos hx, if_neg (by linarith), if_pos hy]
      exact round53_mono x y hx h
  idem := by
    intro x
    rcases lt_trichotomy x 0 with hx | hx | hx
    · have e : binary64 x = -round53 (-x) := by
        unfold binary64
        rw [if_neg (by linarith), if_neg (by linarith)]
      rw [e, binary64_neg]
      have hp := round53_pos (-x) (by linarith)
      have : binary64 (round53 (-x)) = round53 (round53 (-x)) := by
        unfold binary64
        rw [if_neg (by linarith), if_pos hp]
      rw [this, round53_idem _ (by linarith)]
    · subst hx
      simp [binary64]
    · have e : binary64 x = round53 x := by
        unfold binary64
        rw [if_neg (by linarith), if_pos hx]
      rw [e]
      have hp := round53_pos x hx
      have : binary64 (round53 x) = round53 (round53 x) := by
        unfold binary64
        rw [if_neg (by linarith), if_pos hp]
      rw [this, round53_idem _ hx]
  neg := binary64_neg
  zero := by simp [binary64]
  one := by
    have : binary64 1 = (4503599627370496 : ℤ) * (1 / 4503599627370496 : ℚ) := by
      unfold binary64
      rw [if_neg (by norm_num), if_pos (by norm_num)]
      exact round53_near 1 4503599627370496 (-52) (1 / 4503599627370496) (by norm_num)
        (by norm_num) (by norm_num) (by norm_num) (by norm_num)
    rw [this]
    norm_num
  err := by
    intro x
    unfold binary64
    rcases lt_trichotomy x 0 with hx | hx | hx
    · rw [if_neg (by linarith), if_neg (by linarith)]
      have := round53_close (-x) (by linarith)
      rw [abs_of_neg hx]
      rw [show -round53 (-x) - x = -(round53 (-x) - -x) by ring, abs_neg]
      exact this
    · subst hx
      simp
    · rw [if_neg (by linarith), if_pos hx, abs_of_pos hx]
      exact round53_close x hx

/-- The identity, exact arithmetic, has the properties collected in `IsRounding`. -/
theorem id_isRounding : IsRounding id where
  mono := fun _ _ h => h
  idem := fun _ => rfl
  neg := fun _ => rfl
  zero := rfl
  one := rfl
  err := by
    intro x
    simp only [id, sub_self, abs_zero]
    positivity

/-- Rounding by the identity changes nothing. -/
theorem JSNum.round_id (a : JSNum) : a.round id = a := by
  cases a <;> rfl

/-- The rounding `binary64` fixes zero. -/
theorem binary64_zero : binary64 0 = 0 := by
  simp [binary64]

/-- The doubles `0.05` and `0.3`, and the value of `0.3 + (0.05 - 0.3) * 1` in binary64. -/
theorem binary64_remap_example :
    binary64 (1 / 20) = 3602879701896397 / 72057594037927936 ∧
    binary64 (3 / 10) = 5404319552844595 / 18014398509481984 ∧
    remapNoiseValueR binary64 (.fin (binary64 (1 / 20))) (.fin (binary64 (3 / 10))) (.fin 1)
      = .fin (900719925474099 / 18014398509481984) := by
  have h0 : binary64 (1 / 20) = 3602879701896397 / 72057594037927936 := by
    rw [binary64_near (1 / 20) 7205759403792794 (-57) (1 / 144115188075855872) (by norm_num)
      (by norm_num) (by norm_num) (by norm_num) (by norm_num)]
    norm_num
  have h1 : binary64 (3 / 10) = 5404319552844595 / 18014398509481984 := by
    rw [binary64_near (3 / 10) 5404319552844595 (-54) (1 / 18014398509481984) (by norm_num)
      (by norm_num) (by norm_num) (by norm_num) (by norm_num)]
    norm_num
  have h2 : binary64 (18014398509481983 / 72057594037927936) = 1 / 4 := by
    rw [binary64_tie (18014398509481983 / 72057594037927936) 9007199254740991 (-55)
      (1 / 36028797018963968) (by norm_num) (by norm_num) (by norm_num) (by norm_num)]
    norm_num
  have h3 : binary64 (1 / 4) = 1 / 4 := by
    rw [binary64_near (1 / 4) 4503599627370496 (-54) (1 / 18014398509481984) (by norm_num)
      (by norm_num) (by norm_num) (by norm_num) (by norm_num)]
    norm_num
  have h4 : binary64 (900719925474099 / 18014398509481984)
      = 900719925474099 / 18014398509481984 := by
    rw [binary64_near (900719925474099 / 18014398509481984) 7205759403792792 (-57)
      (1 / 144115188075855872) (by norm_num) (by norm_num) (by norm_num) (by norm_num)
      (by norm_num)]
    norm_num
  refine ⟨h0, h1, ?_⟩
  rw [h0, h1]
  simp only [remapNoiseValueR, JSNum.lt_fin_fin, JSNum.fin_sub_fin, JSNum.fin_mul_fin,
    JSNum.fin_add_fin, JSNum.round]
  norm_num [h2, h3, h4, binary64_neg]

/-! ## Flatten remap with rounding -/

/-- On finite arguments `remapNoiseValue` with rounding is the expression
of the source with each result rounded. -/
theorem remapNoiseValueR_fin (fl : ℚ → ℚ) (v t s : ℚ) :
    remapNoiseValueR fl (.fin v) (.fin t) (.fin s)
      = .fin (if v < t then fl (t + fl (fl (v - t) * s)) else v) := by
  unfold remapNoiseValueR
  by_cases h : v < t <;> simp [h, JSNum.round]

/-- The double `0.05` is below the double `0.3`. -/
theorem binary64_twentieth_lt : binary64 (1 / 20) < binary64 (3 / 10) := by
  obtain ⟨h0, h1, _⟩ := binary64_remap_example
  rw [h0, h1]
  norm_num

/-- C5, refuted: in binary64 the strength `1` does not leave values
unchanged: with threshold `0.3` the value `0.05` is remapped to
`0.04999999999999999` (`0.05` minus `2 ^ -56`). -/
theorem remapNoiseValueR_strength_one_changes_value :
    binary64 (1 / 20) < binary64 (3 / 10) ∧
    remapNoiseValueR binary64 (.fin (binary64 (1 / 20))) (.fin (binary64 (3 / 10))) (.fin 1)
      = .fin (binary64 (1 / 20) - 1 / 72057594037927936) ∧
    remapNoiseValueR binary64 (.fin (binary64 (1 / 20))) (.fin (binary64 (3 / 10))) (.fin 1)
      ≠ .fin (binary64 (1 / 20)) := by
  obtain ⟨h0, h1, h2⟩ := binary64_remap_example
  refine ⟨?_, ?_, ?_⟩
  · rw [h0, h1]
    norm_num
  · rw [h2, h0]
    norm_num
  · rw [h2, h0]
    norm_num

/-- C5, amended: with strength `0` every value below the threshold is
remapped to the threshold exactly; with strength `1` a value at or above the
threshold is returned unchanged, and a value below it is returned as
`fl (t + fl (v - t))`, which is `v` in exact arithmetic and within the stated
rounding error of `v` otherwise. -/
theorem remapNoiseValueR_strength_zero_one (fl : ℚ → ℚ) (hfl : IsRounding fl) (v t : ℚ)
    (ht : fl t = t) :
    (v < t → remapNoiseValueR fl (.fin v) (.fin t) (.fin 0) = .fin t) ∧
    (t ≤ v → remapNoiseValueR fl (.fin v) (.fin t) (.fin 1) = .fin v) ∧
    (v < t → remapNoiseValueR fl (.fin v) (.fin t) (.fin 1) = .fin (fl (t + fl (v - t))) ∧
      |fl (t + fl (v - t)) - v| ≤ (|v - t| + |t + fl (v - t)|) / 2 ^ 53) ∧
    remapNoiseValueR id (.fin v) (.fin t) (.fin 1) = .fin v := by
  refine ⟨?_, ?_, ?_, ?_⟩
  · intro h
    rw [remapNoiseValueR_fin, if_pos h, mul_zero, hfl.zero, add_zero, ht]
  · intro h
    rw [remapNoiseValueR_fin, if_neg (not_lt.mpr h)]
  · intro h
    refine ⟨?_, ?_⟩
    · rw [remapNoiseValueR_fin, if_pos h, mul_one, hfl.idem]
    · have e1 := hfl.err (v - t)
      have e2 := hfl.err (t + fl (v - t))
      have tri : |fl (t + fl (v - t)) - v|
          ≤ |fl (t + fl (v - t)) - (t + fl (v - t))| + |fl (v - t) - (v - t)| := by
        have : fl (t + fl (v - t)) - v
            = (fl (t + fl (v - t)) - (t + fl (v - t))) + (fl (v - t) - (v - t)) := by ring
        rw [this]
        exact abs_add _ _
      have : (|v - t| + |t + fl (v - t)|) / 2 ^ 53
          = |t + fl (v - t)| / 2 ^ 53 + |v - t| / 2 ^ 53 := by ring
      rw [this]
      linarith
  · rw [remapNoiseValueR_fin]
    split_ifs
    · simp only [id]
      congr 1
      ring
    · rfl

/-- C5, amended, in binary64 at the threshold `0.3` and the value `0.05`. -/
theorem remapNoiseValueR_strength_zero_one_witness :
    (IsRounding binary64 ∧ binary64 (binary64 (3 / 10)) = binary64 (3 / 10) ∧
      binary64 (1 / 20) < binary64 (3 / 10)) ∧
    remapNoiseValueR binary64 (.fin (binary64 (1 / 20))) (.fin (binary64 (3 / 10))) (.fin 0)
      = .fin (binary64 (3 / 10)) :=
  ⟨⟨binary64_isRounding, binary64_isRounding.idem _,
      binary64_twentieth_lt⟩,
    (remapNoiseValueR_strength_zero_one binary64 binary64_isRounding (binary64 (1 / 20))
      (binary64 (3 / 10)) (binary64_isRounding.idem _)).1 binary64_twentieth_lt⟩

/-- C19, refuted: in binary64, with threshold `0.3` and strength `1` (inside
`[0, 1]`), the value `0.05` is remapped to a strictly smaller value:
`remapNoiseValue` lowers it. -/
theorem remapNoiseValueR_lowers_value :
    ((0 : ℚ) ≤ 1 ∧ (1 : ℚ) ≤ 1) ∧
    ∃ r, remapNoiseValueR binary64 (.fin (binary64 (1 / 20))) (.fin (binary64 (3 / 10)))
        (.fin 1) = .fin r ∧ r < binary64 (1 / 20) := by
  obtain ⟨h0, _, h2⟩ := binary64_remap_example
  refine ⟨⟨by norm_num, le_refl _⟩, _, h2, ?_⟩
  rw [h0]
  norm_num

/-- C19, amended: for every threshold `t` (a binary64 value) and every
strength in `[0, 1]`, `remapNoiseValue` with rounding is monotone
non-decreasing in its value argument and never exceeds the larger of the value
and the threshold; a value at or above the threshold is returned unchanged; a
value below it is returned at least as large as `fl (t + fl (v - t))`, the
rounded value of `t + (v - t)`; in exact arithmetic no value is lowered. -/
theorem remapNoiseValueR_monotone (fl : ℚ → ℚ) (hfl : IsRounding fl) (v1 v2 t s : ℚ)
    (ht : fl t = t) (hs0 : 0 ≤ s) (hs1 : s ≤ 1) :
    ∃ r1 r2 e1, remapNoiseValueR fl (.fin v1) (.fin t) (.fin s) = .fin r1 ∧
      remapNoiseValueR fl (.fin v2) (.fin t) (.fin s) = .fin r2 ∧
      remapNoiseValueR id (.fin v1) (.fin t) (.fin s) = .fin e1 ∧
      (v1 ≤ v2 → r1 ≤ r2) ∧ r1 ≤ max v1 t ∧ (t ≤ v1 → r1 = v1) ∧
      (v1 < t → fl (t + fl (v1 - t)) ≤ r1) ∧ v1 ≤ e1 := by
  have below : ∀ v : ℚ, v < t → fl (t + fl (fl (v - t) * s)) ≤ t := by
    intro v hv
    have a : fl (v - t) ≤ 0 := by
      have := hfl.mono (v - t) 0 (by linarith)
      rwa [hfl.zero] at this
    have b : fl (fl (v - t) * s) ≤ 0 := by
      have := hfl.mono (fl (v - t) * s) 0 (mul_nonpos_of_nonpos_of_nonneg a hs0)
      rwa [hfl.zero] at this
    have := hfl.mono (t + fl (fl (v - t) * s)) t (by linarith)
    rwa [ht] at this
  refine ⟨_, _, _, remapNoiseValueR_fin fl v1 t s, remapNoiseValueR_fin fl v2 t s,
    remapNoiseValueR_fin id v1 t s, ?_, ?_, ?_, ?_, ?_⟩
  · intro h12
    by_cases h1 : v1 < t <;> by_cases h2 : v2 < t <;> simp only [h1, h2, if_true, if_false]
    · apply hfl.mono
      have a := hfl.mono (v1 - t) (v2 - t) (by linarith)
      have b := hfl.mono (fl (v1 - t) * s) (fl (v2 - t) * s)
        (mul_le_mul_of_nonneg_right a hs0)
      linarith
    · have := below v1 h1
      linarith
    · linarith
    · exact h12
  · by_cases h1 : v1 < t <;> simp only [h1, if_true, if_false]
    · exact le_max_of_le_right (below v1 h1)
    · exact le_max_left _ _
  · intro h
    rw [if_neg (not_lt.mpr h)]
  · intro h1
    rw [if_pos h1]
    apply hfl.mono
    have a : fl (v1 - t) ≤ 0 := by
      have := hfl.mono (v1 - t) 0 (by linarith)
      rwa [hfl.zero] at this
    have b : fl (v1 - t) ≤ fl (v1 - t) * s := by nlinarith
    have c := hfl.mono _ _ b
    rw [hfl.idem] at c
    linarith
  · by_cases h1 : v1 < t <;> simp only [h1, if_true, if_false, id]
    · nlinarith
    · exact le_refl _

/-- C19, amended, in binary64 at threshold `0.3`, strength `1` and the values
`0.05 <= 0.3`. -/
theorem remapNoiseValueR_monotone_witness :
    (IsRounding binary64 ∧ binary64 (binary64 (3 / 10)) = binary64 (3 / 10) ∧
      (0 : ℚ) ≤ 1 ∧ (1 : ℚ) ≤ 1) ∧
    ∃ r1 r2 e1, remapNoiseValueR binary64 (.fin (binary64 (1 / 20))) (.fin (binary64 (3 / 10)))
        (.fin 1) = .fin r1 ∧
      remapNoiseValueR binary64 (.fin (binary64 (3 / 10))) (.fin (binary64 (3 / 10))) (.fin 1)
        = .fin r2 ∧
      remapNoiseValueR id (.fin (binary64 (1 / 20))) (.fin (binary64 (3 / 10))) (.fin 1)
        = .fin e1 ∧
      (binary64 (1 / 20) ≤ binary64 (3 / 10) → r1 ≤ r2) ∧
      r1 ≤ max (binary64 (1 / 20)) (binary64 (3 / 10)) ∧
      (binary64 (3 / 10) ≤ binary64 (1 / 20) → r1 = binary64 (1 / 20)) ∧
      (binary64 (1 / 20) < binary64 (3 / 10) →
        binary64 (binary64 (3 / 10) + binary64 (binary64 (1 / 20) - binary64 (3 / 10))) ≤ r1) ∧
      binary64 (1 / 20) ≤ e1 :=
  ⟨⟨binary64_isRounding, binary64_isRounding.idem _, by norm_num, le_refl _⟩,
    remapNoiseValueR_monotone binary64 binary64_isRounding (binary64 (1 / 20))
      (binary64 (3 / 10)) (binary64 (3 / 10)) 1 (binary64_isRounding.idem _) (by norm_num)
      (le_refl _)⟩


/-! ## Layered noise with rounding -/

/-- The value of `layeredNoise` in binary64 for the initial settings (five
octaves, persistence `0.5`) over the constant noise field `0.1`, and the height
computed from it. -/
theorem binary64_layeredNoise_example :
    binary64 (1 / 10) = 3602879701896397 / 36028797018963968 ∧
    layeredNoiseR binary64 (defaultSettingsR binary64) (.fin 3) (.fin 4)
        (fun _ _ => .fin (binary64 (1 / 10))) 5 (.fin (1 / 2))
      = .fin (7205759403792795 / 72057594037927936) ∧
    vertexHeightR binary64 (defaultSettingsR binary64) (fun _ _ => .fin (binary64 (1 / 10)))
        (.fin 3) (.fin 4)
      = .fin (5629499534213121 / 1125899906842624) := by
  have h0 : binary64 (1 / 10) = 3602879701896397 / 36028797018963968 := by
    rw [binary64_near (1 / 10) 7205759403792794 (-56) (1 / 72057594037927936) (by norm_num)
      (by norm_num) (by norm_num) (by norm_num) (by norm_num)]
    norm_num
  have h1 : binary64 (1 / 2) = 1 / 2 := by
    rw [binary64_near (1 / 2) 4503599627370496 (-53) (1 / 9007199254740992) (by norm_num)
      (by norm_num) (by norm_num) (by norm_num) (by norm_num)]
    norm_num
  have h2 : binary64 (3602879701896397 / 36028797018963968)
      = 3602879701896397 / 36028797018963968 := by
    rw [binary64_near (3602879701896397 / 36028797018963968)
      7205759403792794 (-56) (1 / 72057594037927936) (by norm_num)
      (by norm_num) (by norm_num) (by norm_num) (by norm_num)]
    norm_num
  have h3 : binary64 (1) = 1 := by
    rw [binary64_near (1) 4503599627370496 (-52) (1 / 4503599627370496) (by norm_num)
      (by norm_num) (by norm_num) (by norm_num) (by norm_num)]
    norm_num
  have h4 : binary64 (3602879701896397 / 72057594037927936)
      = 3602879701896397 / 72057594037927936 := by
    rw [binary64_near (3602879701896397 / 72057594037927936)
      7205759403792794 (-57) (1 / 144115188075855872) (by norm_num)
      (by norm_num) (by norm_num) (by norm_num) (by norm_num)]
    norm_num
  have h5 : binary64 (10808639105689191 / 72057594037927936)
      = 1351079888211149 / 9007199254740992 := by
    rw [binary64_tie (10808639105689191 / 72057594037927936)
      5404319552844595 (-55) (1 / 36028797018963968) (by norm_num)
      (by norm_num) (by norm_num) (by norm_num)]
    norm_num
  have h6 : binary64 (3 / 2) = 3 / 2 := by
    rw [binary64_near (3 / 2) 6755399441055744 (-52) (1 / 4503599627370496) (by norm_num)
      (by norm_num) (by norm_num) (by norm_num) (by norm_num)]
    norm_num
  have h7 : binary64 (1 / 4) = 1 / 4 := by
    rw [binary64_near (1 / 4) 4503599627370496 (-54) (1 / 18014398509481984) (by norm_num)
      (by norm_num) (by norm_num) (by norm_num) (by norm_num)]
    norm_num
  have h8 : binary64 (3602879701896397 / 144115188075855872)
      = 3602879701896397 / 144115188075855872 := by
    rw [binary64_near (3602879701896397 / 144115188075855872)
      7205759403792794 (-58) (1 / 288230376151711744) (by norm_num)
      (by norm_num) (by norm_num) (by norm_num) (by norm_num)]
    norm_num
  have h9 : binary64 (25220157913274781 / 144115188075855872)
      = 6305039478318695 / 36028797018963968 := by
    rw [binary64_near (25220157913274781 / 144115188075855872)
      6305039478318695 (-55) (1 / 36028797018963968) (by norm_num)
      (by norm_num) (by norm_num) (by norm_num) (by norm_num)]
    norm_num
  have h10 : binary64 (7 / 4) = 7 / 4 := by
    rw [binary64_near (7 / 4) 7881299347898368 (-52) (1 / 4503599627370496) (by norm_num)
      (by norm_num) (by norm_num) (by norm_num) (by norm_num)]
    norm_num
  have h11 : binary64 (1 / 8) = 1 / 8 := by
    rw [binary64_near (1 / 8) 4503599627370496 (-55) (1 / 36028797018963968) (by norm_num)
      (by norm_num) (by norm_num) (by norm_num) (by norm_num)]
    norm_num
  have h12 : binary64 (3602879701896397 / 288230376151711744)
      = 3602879701896397 / 288230376151711744 := by
    rw [binary64_near (3602879701896397 / 288230376151711744)
      7205759403792794 (-59) (1 / 576460752303423488) (by norm_num)
      (by norm_num) (by norm_num) (by norm_num) (by norm_num)]
    norm_num
  have h13 : binary64 (54043195528445957 / 288230376151711744)
      = 6755399441055745 / 36028797018963968 := by
    rw [binary64_near (54043195528445957 / 288230376151711744)
      6755399441055745 (-55) (1 / 36028797018963968) (by norm_num)
      (by norm_num) (by norm_num) (by norm_num) (by norm_num)]
    norm_num
  have h14 : binary64 (15 / 8) = 15 / 8 := by
    rw [binary64_near (15 / 8) 8444249301319680 (-52) (1 / 4503599627370496) (by norm_num)
      (by norm_num) (by norm_num) (by norm_num) (by norm_num)]
    norm_num
  have h15 : binary64 (1 / 16) = 1 / 16 := by
    rw [binary64_near (1 / 16) 4503599627370496 (-56) (1 / 72057594037927936) (by norm_num)
      (by norm_num) (by norm_num) (by norm_num) (by norm_num)]
    norm_num
  have h16 : binary64 (3602879701896397 / 576460752303423488)
      = 3602879701896397 / 576460752303423488 := by
    rw [binary64_near (3602879701896397 / 576460752303423488)
      7205759403792794 (-60) (1 / 1152921504606846976) (by norm_num)
      (by norm_num) (by norm_num) (by norm_num) (by norm_num)]
    norm_num
  have h17 : binary64 (111689270758788317 / 576460752303423488)
      = 3490289711212135 / 18014398509481984 := by
    rw [binary64_near (111689270758788317 / 576460752303423488)
      6980579422424270 (-55) (1 / 36028797018963968) (by norm_num)
      (by norm_num) (by norm_num) (by norm_num) (by norm_num)]
    norm_num
  have h18 : binary64 (31 / 16) = 31 / 16 := by
    rw [binary64_near (31 / 16) 8725724278030336 (-52) (1 / 4503599627370496) (by norm_num)
      (by norm_num) (by norm_num) (by norm_num) (by norm_num)]
    norm_num
  have h19 : binary64 (1 / 32) = 1 / 32 := by
    rw [binary64_near (1 / 32) 4503599627370496 (-57) (1 / 144115188075855872) (by norm_num)
      (by norm_num) (by norm_num) (by norm_num) (by norm_num)]
    norm_num
  have h20 : binary64 (3490289711212135 / 34902897112121344)
      = 7205759403792795 / 72057594037927936 := by
    rw [binary64_near (3490289711212135 / 34902897112121344)
      7205759403792795 (-56) (1 / 72057594037927936) (by norm_num)
      (by norm_num) (by norm_num) (by norm_num) (by norm_num)]
    norm_num
  have h21 : binary64 (450359962737049625 / 9007199254740992) = 50 := by
    rw [binary64_near (450359962737049625 / 9007199254740992)
      7036874417766400 (-47) (1 / 140737488355328) (by norm_num)
      (by norm_num) (by norm_num) (by norm_num) (by norm_num)]
    norm_num
  have h22 : binary64 (180143985094819875 / 36028797018963968)
      = 5629499534213121 / 1125899906842624 := by
    rw [binary64_near (180143985094819875 / 36028797018963968)
      5629499534213121 (-50) (1 / 1125899906842624) (by norm_num)
      (by norm_num) (by norm_num) (by norm_num) (by norm_num)]
    norm_num
  have hl : ∀ x z : JSNum, layeredNoiseR binary64 (defaultSettingsR binary64) x z
        (fun _ _ => .fin (binary64 (1 / 10))) 5 (.fin (1 / 2))
      = .fin (7205759403792795 / 72057594037927936) := by
    intro x z
    rw [h0]
    simp only [layeredNoiseR, octaveLoopR, octaveStepR, noiseInit, defaultSettingsR,
      JSNum.round, JSNum.fin_mul_fin, JSNum.fin_add_fin]
    norm_num [h0, h1, h2, h3, h4, h5, h6, h7, h8, h9, h10, h11, h12, h13, h14, h15, h16, h17,
      h18, h19, h20, binary64_zero, JSNum.fin_div_fin, JSNum.round]
  refine ⟨h0, hl _ _, ?_⟩
  have hd : (defaultSettingsR binary64).octaves = 5
      ∧ (defaultSettingsR binary64).persistence = .fin (1 / 2) := ⟨rfl, rfl⟩
  simp only [vertexHeightR, hd.1, hd.2, hl]
  simp only [remapNoiseValueR, defaultSettingsR, JSNum.lt_fin_fin, JSNum.fin_mul_fin,
    JSNum.round]
  norm_num [h0, h21, h22]

/-- Rounding a finite number rounds its value. -/
@[simp] theorem JSNum.round_fin (fl : ℚ → ℚ) (q : ℚ) : (JSNum.fin q).round fl = .fin (fl q) := rfl

/-- With the identity as rounding the octave loop is the exact octave loop. -/
theorem octaveLoopR_id (s : Settings) (noiseFn : NoiseFn) (x z persistence : JSNum) :
    ∀ (n : Nat) (a : NoiseAcc),
      octaveLoopR id s noiseFn x z persistence n a = octaveLoop s noiseFn x z persistence n a := by
  intro n
  induction n with
  | zero => intro a; rfl
  | succ n ih =>
    intro a
    have hstep : octaveStepR id s noiseFn x z persistence a
        = octaveStep s noiseFn x z persistence a := by
      simp only [octaveStepR, octaveStep, JSNum.round_id]
    simp only [octaveLoopR, octaveLoop, hstep, ih]

/-- With the identity as rounding `layeredNoise` is the exact function. -/
theorem layeredNoiseR_id (s : Settings) (x z : JSNum) (noiseFn : NoiseFn) (octaves : Nat)
    (persistence : JSNum) :
    layeredNoiseR id s x z noiseFn octaves persistence
      = layeredNoise s x z noiseFn octaves persistence := by
  simp only [layeredNoiseR, layeredNoise, noiseFinal, octaveLoopR_id, JSNum.round_id]

/-- With the identity as rounding `remapNoiseValue` is the exact function. -/
theorem remapNoiseValueR_id (v t s : JSNum) :
    remapNoiseValueR id v t s = remapNoiseValue v t s := by
  simp only [remapNoiseValueR, remapNoiseValue, JSNum.round_id]

/-- With the identity as rounding `createLandscape` is the exact function. -/
theorem createLandscapeR_id (s : Settings) (plane : JSNum → JSNum → JSNum → List (JSNum × JSNum))
    (width depth resolution : JSNum) (noiseFn : NoiseFn) :
    createLandscapeR id s plane width depth resolution noiseFn
      = createLandscape s plane width depth resolution noiseFn := by
  simp only [createLandscapeR, createLandscape, vertexHeightR, vertexHeight, layeredNoiseR_id,
    remapNoiseValueR_id, JSNum.round_id]

/-- The value `c * (area * scale)` computed in binary64 for `c = 0.1` and the
initial settings is `5`. -/
theorem binary64_height_claimed :
    (JSNum.fin (binary64 (1 / 10))
        * ((defaultSettingsR binary64).area * (defaultSettingsR binary64).scale).round
          binary64).round binary64 = .fin 5 := by
  have h0 : binary64 (1 / 10) = 3602879701896397 / 36028797018963968 := by
    rw [binary64_near (1 / 10) 7205759403792794 (-56) (1 / 72057594037927936) (by norm_num)
      (by norm_num) (by norm_num) (by norm_num) (by norm_num)]
    norm_num
  have h1 : binary64 (450359962737049625 / 9007199254740992) = 50 := by
    rw [binary64_near (450359962737049625 / 9007199254740992) 7036874417766400 (-47)
      (1 / 140737488355328) (by norm_num) (by norm_num) (by norm_num) (by norm_num)
      (by norm_num)]
    norm_num
  have h2 : binary64 (90071992547409925 / 18014398509481984) = 5 := by
    rw [binary64_near (90071992547409925 / 18014398509481984) 5629499534213120 (-50)
      (1 / 1125899906842624) (by norm_num) (by norm_num) (by norm_num) (by norm_num)
      (by norm_num)]
    norm_num
  simp only [defaultSettingsR, JSNum.fin_mul_fin, JSNum.round_fin]
  norm_num [h0, h1, h2]

/-- C1, refuted: in binary64, for the initial settings (`noiseMaxVal = 0`,
`noiseAmplitude = 1`, persistence `0.5`, five octaves, threshold `0`) and the
noise field that is `0.1` everywhere, `layeredNoise` returns
`0.10000000000000002` (`0.1` plus `2 ^ -56`), not `0.1`, and the height is
`5.000000000000001`, not the value `5` of `0.1 * (500 * 0.1)`. -/
theorem layeredNoiseR_constant_field_rounds :
    layeredNoiseR binary64 (defaultSettingsR binary64) (.fin 3) (.fin 4)
        (fun _ _ => .fin (binary64 (1 / 10))) 5 (.fin (1 / 2))
      = .fin (binary64 (1 / 10) + 1 / 72057594037927936) ∧
    layeredNoiseR binary64 (defaultSettingsR binary64) (.fin 3) (.fin 4)
        (fun _ _ => .fin (binary64 (1 / 10))) 5 (.fin (1 / 2))
      ≠ .fin (binary64 (1 / 10)) ∧
    createLandscapeR binary64 (defaultSettingsR binary64) (fun _ _ _ => [(.fin 3, .fin 4)])
        (.fin 500) (.fin 500) (.fin 150) (fun _ _ => .fin (binary64 (1 / 10)))
      = [.fin (5 + 1 / 1125899906842624)] ∧
    createLandscapeR binary64 (defaultSettingsR binary64) (fun _ _ _ => [(.fin 3, .fin 4)])
        (.fin 500) (.fin 500) (.fin 150) (fun _ _ => .fin (binary64 (1 / 10)))
      ≠ [(JSNum.fin (binary64 (1 / 10))
          * ((defaultSettingsR binary64).area * (defaultSettingsR binary64).scale).round
            binary64).round binary64] := by
  obtain ⟨h0, h1, h2⟩ := binary64_layeredNoise_example
  refine ⟨?_, ?_, ?_, ?_⟩
  · rw [h1, h0]
    norm_num
  · rw [h1, h0]
    norm_num
  · simp only [createLandscapeR, List.map, h2]
    norm_num
  · rw [binary64_height_claimed]
    simp only [createLandscapeR, List.map, h2]
    norm_num

/-- C1, amended: over a noise field that returns the constant `c`
everywhere, with `noiseMaxVal = 0`: (a) with rounding, for `noiseAmplitude = 1`
and one octave (the scenario of the specification), `layeredNoise` returns
exactly `c` at every `(x, z)`, whatever the persistence, the frequency and its
multiplier, and when `c` is at least the flatten threshold every height written
by `createLandscape` is the rounded product `c * (area * scale)`; (b) in exact
arithmetic the same holds for every `noiseAmplitude > 0`, `persistence > 0` and
every number of octaves `>= 1`. -/
theorem layeredNoiseR_constant_field (fl : ℚ → ℚ) (s : Settings) (noiseFn : NoiseFn)
    (c a t : ℚ) (hc : ∀ u v, noiseFn u v = .fin c) (hmax : s.noiseMaxVal = .fin 0)
    (ha : s.noiseAmplitude = .fin a) (ha0 : 0 < a) :
    (a = 1 → fl c = c → fl 1 = 1 →
      (∀ x z persistence : JSNum, layeredNoiseR fl s x z noiseFn 1 persistence = .fin c) ∧
      (s.octaves = 1 → s.flattenThreshold = .fin t → t ≤ c →
        ∀ (plane : JSNum → JSNum → JSNum → List (JSNum × JSNum))
          (width depth resolution : JSNum),
          ∀ height ∈ createLandscapeR fl s plane width depth resolution noiseFn,
            height = (JSNum.fin c * (s.area * s.scale).round fl).round fl)) ∧
    (∀ (p : ℚ) (octaves : Nat) (x z : JSNum), 0 < p → 1 ≤ octaves →
      layeredNoiseR id s x z noiseFn octaves (.fin p) = .fin c) ∧
    (∀ p : ℚ, 0 < p → s.persistence = .fin p → 1 ≤ s.octaves → s.flattenThreshold = .fin t →
      t ≤ c →
      ∀ (plane : JSNum → JSNum → JSNum → List (JSNum × JSNum)) (width depth resolution : JSNum),
        ∀ height ∈ createLandscapeR id s plane width depth resolution noiseFn,
          height = .fin c * (s.area * s.scale)) := by
  refine ⟨?_, ?_, ?_⟩
  · intro ha1 hfc hf1
    subst ha1
    have key : ∀ x z persistence : JSNum,
        layeredNoiseR fl s x z noiseFn 1 persistence = .fin c := by
      intro x z persistence
      simp only [layeredNoiseR, octaveLoopR, octaveStepR, noiseInit, hmax, ha, hc,
        JSNum.fin_mul_fin, JSNum.fin_add_fin, JSNum.round_fin, mul_one, zero_add, hfc, hf1]
      rw [JSNum.fin_div_fin _ _ one_ne_zero, JSNum.round_fin, div_one, hfc]
    refine ⟨key, ?_⟩
    intro hoct hthr htc plane width depth resolution height hmem
    unfold createLandscapeR at hmem
    obtain ⟨xz, _, rfl⟩ := List.mem_map.mp hmem
    simp only [vertexHeightR, hoct, key, hthr, remapNoiseValueR, JSNum.lt_fin_fin]
    rw [if_neg (by simpa using htc)]
  · intro p octaves x z hp ho
    rw [layeredNoiseR_id]
    exact (layeredNoise_constant_exact s noiseFn c a p t hc hmax ha ha0 hp).1 octaves x z ho
  · intro p hp hpers hoct hthr htc plane width depth resolution height hmem
    rw [createLandscapeR_id] at hmem
    exact (layeredNoise_constant_exact s noiseFn c a p t hc hmax ha ha0 hp).2 hpers hoct hthr
      htc plane width depth resolution height hmem

/-- C1, amended, in binary64 for the scenario of the specification: area 100,
one octave, persistence 1, amplitude 1, multiplier 2, threshold 0, strength 0
and the constant field `0.5`. -/
theorem layeredNoiseR_constant_field_witness :
    ((0 : ℚ) < 1 ∧ binary64 (1 / 2) = 1 / 2 ∧ binary64 1 = 1) ∧
    layeredNoiseR binary64 scenarioSettings (.fin 3) (.fin 4) (fun _ _ => .fin (1 / 2)) 1
      (.fin 1) = .fin (1 / 2) ∧
    ∀ height ∈ createLandscapeR binary64 scenarioSettings
        (fun _ _ _ => [(.fin (-50), .fin (-50)), (.fin 0, .fin 50)]) (.fin 100) (.fin 100)
        (.fin 10) (fun _ _ => .fin (1 / 2)),
      height = (JSNum.fin (1 / 2)
        * (scenarioSettings.area * scenarioSettings.scale).round binary64).round binary64 := by
  have hhalf : binary64 (1 / 2) = 1 / 2 := by
    rw [binary64_near (1 / 2) 4503599627370496 (-53) (1 / 9007199254740992) (by norm_num)
      (by norm_num) (by norm_num) (by norm_num) (by norm_num)]
    norm_num
  have h := (layeredNoiseR_constant_field binary64 scenarioSettings (fun _ _ => .fin (1 / 2))
    (1 / 2) 1 0 (fun _ _ => rfl) rfl rfl (by norm_num)).1 rfl hhalf binary64_isRounding.one
  exact ⟨⟨by norm_num, hhalf, binary64_isRounding.one⟩, h.1 _ _ _,
    h.2 rfl rfl (by norm_num) _ _ _ _⟩

/-! ## Capsule shape with rounding -/

/-- The push-out of the spawn capsule from a floor contact of depth `0.1`,
evaluated in binary64. -/
theorem binary64_pushOut_example :
    binary64 (7 / 20) = 3152519739159347 / 9007199254740992 ∧
    binary64 (13 / 20) = 5854679515581645 / 9007199254740992 ∧
    (playerCollisionsR binary64 (floorWorldR binary64) (initialPlayerR binary64)).collider
      = ⟨⟨0, 2026619832316723 / 4503599627370496, 0⟩, ⟨0, 2476979795053773 / 2251799813685248, 0⟩,
        3152519739159347 / 9007199254740992⟩ ∧
    binary64 (2476979795053773 / 2251799813685248 - 2026619832316723 / 4503599627370496)
      = 2927339757790823 / 4503599627370496 := by
  have h0 : binary64 (7 / 20)
      = 3152519739159347 / 9007199254740992 := by
    rw [binary64_near (7 / 20)
      6305039478318694 (-54) (1 / 18014398509481984)
      (by norm_num) (by norm_num) (by norm_num) (by norm_num) (by norm_num)]
    norm_num
  have h1 : binary64 (1 / 10)
      = 3602879701896397 / 36028797018963968 := by
    rw [binary64_near (1 / 10)
      7205759403792794 (-56) (1 / 72057594037927936)
      (by norm_num) (by norm_num) (by norm_num) (by norm_num) (by norm_num)]
    norm_num
  have h2 : binary64 (3602879701896397 / 36028797018963968)
      = 3602879701896397 / 36028797018963968 := by
    rw [binary64_near (3602879701896397 / 36028797018963968)
      7205759403792794 (-56) (1 / 72057594037927936)
      (by norm_num) (by norm_num) (by norm_num) (by norm_num) (by norm_num)]
    norm_num
  have h3 : binary64 (16212958658533785 / 36028797018963968)
      = 2026619832316723 / 4503599627370496 := by
    rw [binary64_tie (16212958658533785 / 36028797018963968)
      8106479329266892 (-54) (1 / 18014398509481984)
      (by norm_num) (by norm_num) (by norm_num) (by norm_num)]
    norm_num
  have h4 : binary64 (39631676720860365 / 36028797018963968)
      = 2476979795053773 / 2251799813685248 := by
    rw [binary64_near (39631676720860365 / 36028797018963968)
      4953959590107546 (-52) (1 / 4503599627370496)
      (by norm_num) (by norm_num) (by norm_num) (by norm_num) (by norm_num)]
    norm_num
  have h5 : binary64 (2927339757790823 / 4503599627370496)
      = 2927339757790823 / 4503599627370496 := by
    rw [binary64_near (2927339757790823 / 4503599627370496)
      5854679515581646 (-53) (1 / 9007199254740992)
      (by norm_num) (by norm_num) (by norm_num) (by norm_num) (by norm_num)]
    norm_num
  have h6 : binary64 (13 / 20)
      = 5854679515581645 / 9007199254740992 := by
    rw [binary64_near (13 / 20)
      5854679515581645 (-53) (1 / 9007199254740992)
      (by norm_num) (by norm_num) (by norm_num) (by norm_num) (by norm_num)]
    norm_num
  have h7 : binary64 (5854679515581645 / 9007199254740992)
      = 5854679515581645 / 9007199254740992 := by
    rw [binary64_near (5854679515581645 / 9007199254740992)
      5854679515581645 (-53) (1 / 9007199254740992)
      (by norm_num) (by norm_num) (by norm_num) (by norm_num) (by norm_num)]
    norm_num
  refine ⟨h0, h6, ?_, ?_⟩
  · simp only [playerCollisionsR, floorWorldR, initialPlayerR, spawnCapsuleR, Capsule.translateR,
      Vec3.multiplyScalarR, Vec3.addR]
    norm_num [h0, h1, h2, h3, h4, h5, h6, h7, binary64_zero]
  · norm_num [h0, h1, h2, h3, h4, h5, h6, h7]

/-- C20, refuted: in binary64 the spawn capsule has `end.y - start.y`
equal to the double `0.65`, and the push-out of `playerCollisions` for a floor
contact with normal `(0, 1, 0)` and depth `0.1` moves `start.y` to
`0.44999999999999996` and `end.y` to `1.1`: `end.y - start.y` is then the
double `0.6500000000000001`, neither the double nor the rational `0.65`. -/
theorem playerCollisionsR_changes_capsule_shape :
    (spawnCapsuleR binary64).end.y - (spawnCapsuleR binary64).start.y = binary64 (13 / 20) ∧
    (playerCollisionsR binary64 (floorWorldR binary64) (initialPlayerR binary64)).collider.end.y
      - (playerCollisionsR binary64 (floorWorldR binary64)
          (initialPlayerR binary64)).collider.start.y
      = binary64 (13 / 20) + 1 / 9007199254740992 ∧
    binary64 ((playerCollisionsR binary64 (floorWorldR binary64)
          (initialPlayerR binary64)).collider.end.y
      - (playerCollisionsR binary64 (floorWorldR binary64)
          (initialPlayerR binary64)).collider.start.y) ≠ binary64 (13 / 20) ∧
    (playerCollisionsR binary64 (floorWorldR binary64) (initialPlayerR binary64)).collider.end.y
      - (playerCollisionsR binary64 (floorWorldR binary64)
          (initialPlayerR binary64)).collider.start.y ≠ 13 / 20 := by
  obtain ⟨h0, h1, h2, h3⟩ := binary64_pushOut_example
  rw [h2]
  refine ⟨?_, ?_, ?_, ?_⟩
  · rw [h1]
    simp only [spawnCapsuleR, h0]
    norm_num
  · rw [h1]
    norm_num
  · rw [h3, h1]
    norm_num
  · norm_num

/-- C20, amended: with rounding, the spawn capsule is upright
(`start.x = end.x`, `start.z = end.z`) with radius the double `0.35`, and every
operation on the capsule keeps it so: a translation by any vector (the one of
`updatePlayer` is `velocity * dt`), the push-out of `playerCollisions` for every
contact, and `teleportPlayerIfOob`.  The difference `end.y - start.y` is not
kept exactly: a translation changes it by at most
`(|start.y + v.y| + |end.y + v.y|) / 2 ^ 53`.  In exact arithmetic the shape
`end - start = (0, 0.65, 0)`, radius `0.35` is kept by every operation of a
substep, `playerSphereCollision` included, and by every sequence of frames
started from the spawn capsule. -/
theorem capsule_upright_invariant (fl : ℚ → ℚ) (hfl : IsRounding fl) (env : Env) :
    capsuleUpright fl (spawnCapsuleR fl) ∧
    (∀ (c : Capsule) (v : Vec3), capsuleUpright fl c →
      capsuleUpright fl (c.translateR fl v) ∧
      |((c.translateR fl v).end.y - (c.translateR fl v).start.y) - (c.end.y - c.start.y)|
        ≤ (|c.start.y + v.y| + |c.end.y + v.y|) / 2 ^ 53) ∧
    (∀ (w : World) (p : Player), capsuleUpright fl p.collider →
      capsuleUpright fl (playerCollisionsR fl w p).collider) ∧
    (∀ g : Game, capsuleUpright fl g.player.collider →
      capsuleUpright fl (teleportPlayerIfOobR fl g).player.collider) ∧
    (∀ (deltaTime : ℚ) (g : Game), capsuleShape g.player.collider →
      capsuleShape (playerIntegrate env deltaTime g.player).collider ∧
      capsuleShape (playerCollisions env.world g.player).collider ∧
      (updateSpheresStep env deltaTime g).player.collider = g.player.collider ∧
      capsuleShape (teleportPlayerIfOob g).player.collider ∧
      capsuleShape (substep env deltaTime g).player.collider) ∧
    (∀ (frames : List ℚ) (g : Game), g.player.collider = spawnCapsule →
      capsuleShape (frames.foldl (fun g elapsed => animate env elapsed g) g).player.collider) := by
  have htr : ∀ (c : Capsule) (v : Vec3), capsuleUpright fl c →
      capsuleUpright fl (c.translateR fl v) := by
    intro c v h
    obtain ⟨h1, h2, h3⟩ := h
    refine ⟨?_, ?_, h3⟩
    · simp only [Capsule.translateR, Vec3.addR, h1]
    · simp only [Capsule.translateR, Vec3.addR, h2]
  refine ⟨⟨rfl, rfl, rfl⟩, ?_, ?_, ?_, ?_, ?_⟩
  · intro c v h
    refine ⟨htr c v h, ?_⟩
    simp only [Capsule.translateR, Vec3.addR]
    have e1 := hfl.err (c.start.y + v.y)
    have e2 := hfl.err (c.end.y + v.y)
    have e : fl (c.end.y + v.y) - fl (c.start.y + v.y) - (c.end.y - c.start.y)
        = (fl (c.end.y + v.y) - (c.end.y + v.y)) - (fl (c.start.y + v.y) - (c.start.y + v.y)) := by
      ring
    rw [e]
    calc |fl (c.end.y + v.y) - (c.end.y + v.y) - (fl (c.start.y + v.y) - (c.start.y + v.y))|
        ≤ |fl (c.end.y + v.y) - (c.end.y + v.y)| + |fl (c.start.y + v.y) - (c.start.y + v.y)| :=
          abs_sub _ _
      _ ≤ |c.end.y + v.y| / 2 ^ 53 + |c.start.y + v.y| / 2 ^ 53 := add_le_add e2 e1
      _ = (|c.start.y + v.y| + |c.end.y + v.y|) / 2 ^ 53 := by ring
  · intro w p h
    unfold playerCollisionsR
    cases w.capsuleIntersect p.collider with
    | none => exact h
    | some result => exact htr _ _ h
  · intro g h
    unfold teleportPlayerIfOobR
    split_ifs
    · exact ⟨rfl, rfl, rfl⟩
    · exact h
  · intro deltaTime g h
    obtain ⟨h1, h2, _, h4, h5, h6⟩ := (capsule_exact_invariant env).2.1 deltaTime g h
    exact ⟨h1, h2, h4, h5, h6⟩
  · exact (capsule_exact_invariant env).2.2

/-- C20, amended, in binary64: the capsule pushed out of the floor from the
spawn pose is upright with radius the double `0.35`, and a further translation
by `(0.1, 0.1, 0.1)` keeps it so. -/
theorem capsule_upright_invariant_witness :
    IsRounding binary64 ∧
    capsuleUpright binary64 (initialPlayerR binary64).collider ∧
    capsuleUpright binary64
      (playerCollisionsR binary64 (floorWorldR binary64) (initialPlayerR binary64)).collider ∧
    capsuleUpright binary64
      ((playerCollisionsR binary64 (floorWorldR binary64)
        (initialPlayerR binary64)).collider.translateR binary64
          ⟨binary64 (1 / 10), binary64 (1 / 10), binary64 (1 / 10)⟩) :=
  have h := capsule_upright_invariant binary64 binary64_isRounding plainEnv
  ⟨binary64_isRounding, h.1, h.2.2.1 _ _ h.1, (h.2.1 _ _ (h.2.2.1 _ _ h.1)).1⟩

/-! ## Momentum with rounding -/

/-- On a pool of two spheres `spheresCollisions` with rounding is one pair
step. -/
theorem spheresCollisionsR_two (fl sqrt : ℚ → ℚ) (s1 s2 : Body) :
    spheresCollisionsR fl sqrt [s1, s2]
      = [(collidePairR fl sqrt s1 s2).1, (collidePairR fl sqrt s1 s2).2] := by
  simp [spheresCollisionsR, List.range_succ, List.range', collideAtR]

/-- The stand-in for `Math.sqrt` is exact at `1 / 16`. -/
theorem ratSqrt_sixteenth : ratSqrt (1 / 16) = 1 / 4 := by
  have h1 : ((1 : ℚ) / 16).num = 1 := by norm_num
  have h2 : ((1 : ℚ) / 16).den = 16 := by norm_num
  have h3 : Nat.sqrt 1 = 1 := Nat.sqrt_eq 1
  have h4 : Nat.sqrt 16 = 4 := Nat.sqrt_eq 4
  have h5 : Int.toNat 1 = 1 := rfl
  unfold ratSqrt
  rw [h1, h2, h5, h3, h4]
  norm_num

/-- The pair step on `driftPair`, evaluated in binary64. -/
theorem binary64_driftPair_example :
    binary64 (1 / 10) = 3602879701896397 / 36028797018963968 ∧
    binary64 (3 / 10) = 5404319552844595 / 18014398509481984 ∧
    (driftFirst binary64).collider.center.distanceToSquaredR binary64
        (driftSecond binary64).collider.center
      < binary64 (binary64 ((driftFirst binary64).collider.radius
            + (driftSecond binary64).collider.radius)
          * binary64 ((driftFirst binary64).collider.radius
            + (driftSecond binary64).collider.radius)) ∧
    spheresCollisionsR binary64 ratSqrt (driftPair binary64)
      = [⟨⟨⟨5854679515581645 / 18014398509481984, 0, 0⟩, 3602879701896397 / 18014398509481984⟩,
        ⟨1351079888211149 / 4503599627370496, 0, 0⟩⟩,
        ⟨⟨⟨-(1351079888211149 / 18014398509481984), 0, 0⟩, 3602879701896397 / 18014398509481984⟩,
          ⟨1801439850948199 / 18014398509481984, 0, 0⟩⟩] := by
  have h0 : binary64 (1 / 5)
      = 3602879701896397 / 18014398509481984 := by
    rw [binary64_near (1 / 5)
      7205759403792794 (-55) (1 / 36028797018963968)
      (by norm_num) (by norm_num) (by norm_num) (by norm_num) (by norm_num)]
    norm_num
  have h1 : binary64 (1 / 10)
      = 3602879701896397 / 36028797018963968 := by
    rw [binary64_near (1 / 10)
      7205759403792794 (-56) (1 / 72057594037927936)
      (by norm_num) (by norm_num) (by norm_num) (by norm_num) (by norm_num)]
    norm_num
  have h2 : binary64 (3 / 10)
      = 5404319552844595 / 18014398509481984 := by
    rw [binary64_near (3 / 10)
      5404319552844595 (-54) (1 / 18014398509481984)
      (by norm_num) (by norm_num) (by norm_num) (by norm_num) (by norm_num)]
    norm_num
  have h3 : binary64 (1 / 4)
      = 1 / 4 := by
    rw [binary64_near (1 / 4)
      4503599627370496 (-54) (1 / 18014398509481984)
      (by norm_num) (by norm_num) (by norm_num) (by norm_num) (by norm_num)]
    norm_num
  have h4 : binary64 (1 / 16)
      = 1 / 16 := by
    rw [binary64_near (1 / 16)
      4503599627370496 (-56) (1 / 72057594037927936)
      (by norm_num) (by norm_num) (by norm_num) (by norm_num) (by norm_num)]
    norm_num
  have h5 : binary64 (3602879701896397 / 9007199254740992)
      = 3602879701896397 / 9007199254740992 := by
    rw [binary64_near (3602879701896397 / 9007199254740992)
      7205759403792794 (-54) (1 / 18014398509481984)
      (by norm_num) (by norm_num) (by norm_num) (by norm_num) (by norm_num)]
    norm_num
  have h6 : binary64 (12980742146337070512478121581609 / 81129638414606681695789005144064)
      = 1441151880758559 / 9007199254740992 := by
    rw [binary64_near (12980742146337070512478121581609 / 81129638414606681695789005144064)
      5764607523034236 (-55) (1 / 36028797018963968)
      (by norm_num) (by norm_num) (by norm_num) (by norm_num) (by norm_num)]
    norm_num
  have h7 : binary64 (4)
      = 4 := by
    rw [binary64_near (4)
      4503599627370496 (-50) (1 / 1125899906842624)
      (by norm_num) (by norm_num) (by norm_num) (by norm_num) (by norm_num)]
    norm_num
  have h8 : binary64 (1)
      = 1 := by
    rw [binary64_near (1)
      4503599627370496 (-52) (1 / 4503599627370496)
      (by norm_num) (by norm_num) (by norm_num) (by norm_num) (by norm_num)]
    norm_num
  have h9 : binary64 (3602879701896397 / 36028797018963968)
      = 3602879701896397 / 36028797018963968 := by
    rw [binary64_near (3602879701896397 / 36028797018963968)
      7205759403792794 (-56) (1 / 72057594037927936)
      (by norm_num) (by norm_num) (by norm_num) (by norm_num) (by norm_num)]
    norm_num
  have h10 : binary64 (5404319552844595 / 18014398509481984)
      = 5404319552844595 / 18014398509481984 := by
    rw [binary64_near (5404319552844595 / 18014398509481984)
      5404319552844595 (-54) (1 / 18014398509481984)
      (by norm_num) (by norm_num) (by norm_num) (by norm_num) (by norm_num)]
    norm_num
  have h11 : binary64 (1351079888211149 / 9007199254740992)
      = 1351079888211149 / 9007199254740992 := by
    rw [binary64_near (1351079888211149 / 9007199254740992)
      5404319552844596 (-55) (1 / 36028797018963968)
      (by norm_num) (by norm_num) (by norm_num) (by norm_num) (by norm_num)]
    norm_num
  have h12 : binary64 (1351079888211149 / 18014398509481984)
      = 1351079888211149 / 18014398509481984 := by
    rw [binary64_near (1351079888211149 / 18014398509481984)
      5404319552844596 (-56) (1 / 72057594037927936)
      (by norm_num) (by norm_num) (by norm_num) (by norm_num) (by norm_num)]
    norm_num
  have h13 : binary64 (5854679515581645 / 18014398509481984)
      = 5854679515581645 / 18014398509481984 := by
    rw [binary64_near (5854679515581645 / 18014398509481984)
      5854679515581645 (-54) (1 / 18014398509481984)
      (by norm_num) (by norm_num) (by norm_num) (by norm_num) (by norm_num)]
    norm_num
  have h14 : binary64 (14411518807585587 / 36028797018963968)
      = 3602879701896397 / 9007199254740992 := by
    rw [binary64_tie (14411518807585587 / 36028797018963968)
      7205759403792793 (-54) (1 / 18014398509481984)
      (by norm_num) (by norm_num) (by norm_num) (by norm_num)]
    norm_num
  have h15 : binary64 (10808639105689191 / 36028797018963968)
      = 1351079888211149 / 4503599627370496 := by
    rw [binary64_tie (10808639105689191 / 36028797018963968)
      5404319552844595 (-54) (1 / 18014398509481984)
      (by norm_num) (by norm_num) (by norm_num) (by norm_num)]
    norm_num
  have h16 : binary64 (1801439850948199 / 18014398509481984)
      = 1801439850948199 / 18014398509481984 := by
    rw [binary64_near (1801439850948199 / 18014398509481984)
      7205759403792796 (-56) (1 / 72057594037927936)
      (by norm_num) (by norm_num) (by norm_num) (by norm_num) (by norm_num)]
    norm_num
  refine ⟨h1, h2, ?_, ?_⟩
  · simp only [driftFirst, driftSecond, Vec3.distanceToSquaredR]
    norm_num [h0, h1, h2, h3, h4, h5, h6, h7, h8, h9, h10, h11, h12, h13, h14, h15, h16,
      binary64_zero]
  rw [driftPair, spheresCollisionsR_two]
  simp only [driftFirst, driftSecond, collidePairR, Vec3.distanceToSquaredR, Vec3.subR,
    Vec3.normalizeR, Vec3.lengthSqR,
    Vec3.multiplyScalarR, Vec3.dotR, Vec3.addR, Vec3.addScaledVectorR]
  norm_num [h0, h1, h2, h3, h4, h5, h6, h7, h8, h9, h10, h11, h12, h13, h14, h15, h16,
    binary64_zero, binary64_neg, ratSqrt_sixteenth]

/-- The bound on the change of a sum is not negative. -/
theorem exchangeBound_nonneg (fl : ℚ → ℚ) (v1 v2 a b : ℚ) : 0 ≤ exchangeBound fl v1 v2 a b := by
  unfold exchangeBound
  positivity

/-- The exchange of the components `a`, `b` with rounding moves the sum of
the two velocity components by at most `exchangeBound`. -/
theorem exchange_drift (fl : ℚ → ℚ) (hfl : IsRounding fl) (v1 v2 a b : ℚ) :
    |fl (fl (v1 + b) - a) + fl (fl (v2 + a) - b) - (v1 + v2)| ≤ exchangeBound fl v1 v2 a b := by
  have e1 := abs_le.mp (hfl.err (v1 + b))
  have e2 := abs_le.mp (hfl.err (fl (v1 + b) - a))
  have e3 := abs_le.mp (hfl.err (v2 + a))
  have e4 := abs_le.mp (hfl.err (fl (v2 + a) - b))
  have hb : exchangeBound fl v1 v2 a b
      = |v1 + b| / 2 ^ 53 + |fl (v1 + b) - a| / 2 ^ 53 + |v2 + a| / 2 ^ 53
        + |fl (v2 + a) - b| / 2 ^ 53 := by
    unfold exchangeBound
    ring
  rw [hb, abs_le]
  constructor <;> linarith [e1.1, e1.2, e2.1, e2.2, e3.1, e3.2, e4.1, e4.2]

/-- With the identity as rounding `spheresCollisions` is the exact function. -/
theorem spheresCollisionsR_id (sqrt : ℚ → ℚ) (pool : List Body) :
    spheresCollisionsR id sqrt pool = spheresCollisions sqrt pool := rfl

/-- With the identity as rounding one iteration of the loop of
`playerSphereCollision` is the exact iteration. -/
theorem playerSpherePointR_id (sqrt : ℚ → ℚ) (r : ℚ) (point : Vec3) (st : PlayerSphereState) :
    playerSpherePointR id sqrt r point st = playerSpherePoint sqrt r point st := rfl

/-- With the identity as rounding `playerSphereCollision` is the exact function. -/
theorem playerSphereCollisionR_id (sqrt : ℚ → ℚ) (playerCollider : Capsule)
    (playerVelocity : Vec3) (sphere : Body) :
    playerSphereCollisionR id sqrt playerCollider playerVelocity sphere
      = playerSphereCollision sqrt playerCollider playerVelocity sphere := by
  simp only [playerSphereCollisionR, playerSphereCollision, playerSpherePointR_id]
  rfl

/-- C18, refuted: in binary64, for two overlapping spheres on the x axis
(normal exactly `(1, 0, 0)`) with velocities `(0.1, 0, 0)` and `(0.3, 0, 0)`,
`spheresCollisions` returns the velocities `0.30000000000000004` and
`0.10000000000000003`: the sum of the velocities grows by `3 * 2 ^ -55`, and
the sum computed in binary64 changes from `0.4` to `0.4000000000000001`. -/
theorem spheresCollisionsR_changes_total_velocity :
    totalVelocity (spheresCollisionsR binary64 ratSqrt (driftPair binary64))
      = (totalVelocity (driftPair binary64)).add ⟨3 / 36028797018963968, 0, 0⟩ ∧
    totalVelocity (spheresCollisionsR binary64 ratSqrt (driftPair binary64))
      ≠ totalVelocity (driftPair binary64) ∧
    binary64 (totalVelocity (spheresCollisionsR binary64 ratSqrt (driftPair binary64))).x
      ≠ binary64 (totalVelocity (driftPair binary64)).x := by
  obtain ⟨h1, h2, _, h3⟩ := binary64_driftPair_example
  have k0 : binary64 (14411518807585587 / 36028797018963968)
      = 3602879701896397 / 9007199254740992 := by
    rw [binary64_tie (14411518807585587 / 36028797018963968)
      7205759403792793 (-54) (1 / 18014398509481984)
      (by norm_num) (by norm_num) (by norm_num) (by norm_num)]
    norm_num
  have k1 : binary64 (7205759403792795 / 18014398509481984)
      = 7205759403792795 / 18014398509481984 := by
    rw [binary64_near (7205759403792795 / 18014398509481984)
      7205759403792795 (-54) (1 / 18014398509481984)
      (by norm_num) (by norm_num) (by norm_num) (by norm_num) (by norm_num)]
    norm_num
  have hb : totalVelocity (driftPair binary64) = ⟨14411518807585587 / 36028797018963968, 0, 0⟩ := by
    simp only [driftPair, driftFirst, driftSecond, h1, h2, totalVelocity, List.foldl, Vec3.add,
      Vec3.zero]
    norm_num
  have ha : totalVelocity (spheresCollisionsR binary64 ratSqrt (driftPair binary64))
      = ⟨7205759403792795 / 18014398509481984, 0, 0⟩ := by
    rw [h3]
    simp only [totalVelocity, List.foldl, Vec3.add, Vec3.zero]
    norm_num
  rw [ha, hb]
  refine ⟨?_, ?_, ?_⟩
  · simp only [Vec3.add]
    norm_num
  · norm_num
  · norm_num [k0, k1]

/-- C18, amended: with rounding, a response of `spheresCollisions` (one
pair) or of `playerSphereCollision` (one capsule point) leaves the two
velocities `v1`, `v2` as they are when the computed test `d2 < r2` fails; when
it passes, with `n` the rounded normal and `a`, `b` the rounded projections of
`v1`, `v2` on `n`, it replaces them by `fl (fl (v1 + b) - a)` and
`fl (fl (v2 + a) - b)`, and each component of the sum `v1 + v2` moves by at
most `(|v1 + b| + |fl (v1 + b) - a| + |v2 + a| + |fl (v2 + a) - b|) / 2 ^ 53`.
In exact arithmetic `spheresCollisions` leaves the sum of all sphere velocities
unchanged for every pool, and `playerSphereCollision` leaves
`playerVelocity + sphere.velocity` unchanged. -/
theorem collisionsR_momentum_drift (fl sqrt : ℚ → ℚ) (hfl : IsRounding fl) :
    (∀ s1 s2 : Body, ∃ n a b : Vec3,
      n = (s1.collider.center.subR fl s2.collider.center).normalizeR fl sqrt ∧
      a = n.multiplyScalarR fl (n.dotR fl s1.velocity) ∧
      b = n.multiplyScalarR fl (n.dotR fl s2.velocity) ∧
      (¬ s1.collider.center.distanceToSquaredR fl s2.collider.center
          < fl (fl (s1.collider.radius + s2.collider.radius)
            * fl (s1.collider.radius + s2.collider.radius)) →
        collidePairR fl sqrt s1 s2 = (s1, s2)) ∧
      (s1.collider.center.distanceToSquaredR fl s2.collider.center
          < fl (fl (s1.collider.radius + s2.collider.radius)
            * fl (s1.collider.radius + s2.collider.radius)) →
        (collidePairR fl sqrt s1 s2).1.velocity = (s1.velocity.addR fl b).subR fl a ∧
        (collidePairR fl sqrt s1 s2).2.velocity = (s2.velocity.addR fl a).subR fl b ∧
        |(collidePairR fl sqrt s1 s2).1.velocity.x + (collidePairR fl sqrt s1 s2).2.velocity.x
            - (s1.velocity.x + s2.velocity.x)|
          ≤ exchangeBound fl s1.velocity.x s2.velocity.x a.x b.x ∧
        |(collidePairR fl sqrt s1 s2).1.velocity.y + (collidePairR fl sqrt s1 s2).2.velocity.y
            - (s1.velocity.y + s2.velocity.y)|
          ≤ exchangeBound fl s1.velocity.y s2.velocity.y a.y b.y ∧
        |(collidePairR fl sqrt s1 s2).1.velocity.z + (collidePairR fl sqrt s1 s2).2.velocity.z
            - (s1.velocity.z + s2.velocity.z)|
          ≤ exchangeBound fl s1.velocity.z s2.velocity.z a.z b.z)) ∧
    (∀ (r : ℚ) (point : Vec3) (st : PlayerSphereState), ∃ n a b : Vec3,
      n = (point.subR fl st.sphere.collider.center).normalizeR fl sqrt ∧
      a = n.multiplyScalarR fl (n.dotR fl st.playerVelocity) ∧
      b = n.multiplyScalarR fl (n.dotR fl st.sphere.velocity) ∧
      (¬ point.distanceToSquaredR fl st.sphere.collider.center < fl (r * r) →
        playerSpherePointR fl sqrt r point st = st) ∧
      (point.distanceToSquaredR fl st.sphere.collider.center < fl (r * r) →
        (playerSpherePointR fl sqrt r point st).playerVelocity
          = (st.playerVelocity.addR fl b).subR fl a ∧
        (playerSpherePointR fl sqrt r point st).sphere.velocity
          = (st.sphere.velocity.addR fl a).subR fl b ∧
        |(playerSpherePointR fl sqrt r point st).playerVelocity.x
            + (playerSpherePointR fl sqrt r point st).sphere.velocity.x
            - (st.playerVelocity.x + st.sphere.velocity.x)|
          ≤ exchangeBound fl st.playerVelocity.x st.sphere.velocity.x a.x b.x ∧
        |(playerSpherePointR fl sqrt r point st).playerVelocity.y
            + (playerSpherePointR fl sqrt r point st).sphere.velocity.y
            - (st.playerVelocity.y + st.sphere.velocity.y)|
          ≤ exchangeBound fl st.playerVelocity.y st.sphere.velocity.y a.y b.y ∧
        |(playerSpherePointR fl sqrt r point st).playerVelocity.z
            + (playerSpherePointR fl sqrt r point st).sphere.velocity.z
            - (st.playerVelocity.z + st.sphere.velocity.z)|
          ≤ exchangeBound fl st.playerVelocity.z st.sphere.velocity.z a.z b.z)) ∧
    (∀ pool : List Body,
      totalVelocity (spheresCollisionsR id sqrt pool) = totalVelocity pool) ∧
    (∀ (playerCollider : Capsule) (playerVelocity : Vec3) (sphere : Body),
      (playerSphereCollisionR id sqrt playerCollider playerVelocity sphere).1.add
          (playerSphereCollisionR id sqrt playerCollider playerVelocity sphere).2.velocity
        = playerVelocity.add sphere.velocity) := by
  refine ⟨?_, ?_, ?_, ?_⟩
  · intro s1 s2
    refine ⟨_, _, _, rfl, rfl, rfl, ?_, ?_⟩
    · intro h
      simp only [collidePairR, if_neg h]
    · intro h
      simp only [collidePairR, if_pos h]
      exact ⟨trivial, trivial, exchange_drift fl hfl _ _ _ _, exchange_drift fl hfl _ _ _ _,
        exchange_drift fl hfl _ _ _ _⟩
  · intro r point st
    refine ⟨_, _, _, rfl, rfl, rfl, ?_, ?_⟩
    · intro h
      simp only [playerSpherePointR, if_neg h]
    · intro h
      simp only [playerSpherePointR, if_pos h]
      exact ⟨trivial, trivial, exchange_drift fl hfl _ _ _ _, exchange_drift fl hfl _ _ _ _,
        exchange_drift fl hfl _ _ _ _⟩
  · intro pool
    rw [spheresCollisionsR_id]
    exact (collisions_exact_momentum sqrt).1 pool
  · intro playerCollider playerVelocity sphere
    rw [playerSphereCollisionR_id]
    exact (collisions_exact_momentum sqrt).2 playerCollider playerVelocity sphere

/-- C18, amended, in binary64 for the two spheres of `driftPair`: the test
passes, and the x component of the sum of their velocities moves by at most
the stated bound. -/
theorem collisionsR_momentum_drift_witness :
    IsRounding binary64 ∧
    (driftFirst binary64).collider.center.distanceToSquaredR binary64
        (driftSecond binary64).collider.center
      < binary64 (binary64 ((driftFirst binary64).collider.radius
            + (driftSecond binary64).collider.radius)
          * binary64 ((driftFirst binary64).collider.radius
            + (driftSecond binary64).collider.radius)) ∧
    ∃ a b : Vec3,
      (collidePairR binary64 ratSqrt (driftFirst binary64) (driftSecond binary64)).1.velocity
        = ((driftFirst binary64).velocity.addR binary64 b).subR binary64 a ∧
      (collidePairR binary64 ratSqrt (driftFirst binary64) (driftSecond binary64)).2.velocity
        = ((driftSecond binary64).velocity.addR binary64 a).subR binary64 b ∧
      |(collidePairR binary64 ratSqrt (driftFirst binary64) (driftSecond binary64)).1.velocity.x
          + (collidePairR binary64 ratSqrt (driftFirst binary64)
              (driftSecond binary64)).2.velocity.x
          - ((driftFirst binary64).velocity.x + (driftSecond binary64).velocity.x)|
        ≤ exchangeBound binary64 (driftFirst binary64).velocity.x
            (driftSecond binary64).velocity.x a.x b.x := by
  have hA := binary64_driftPair_example.2.2.1
  obtain ⟨_, a, b, _, _, _, _, h⟩ :=
    (collisionsR_momentum_drift binary64 ratSqrt binary64_isRounding).1
      (driftFirst binary64) (driftSecond binary64)
  obtain ⟨h1, h2, h3, _⟩ := h hA
  exact ⟨binary64_isRounding, hA, a, b, h1, h2, h3⟩

/-! ## Overlap split with rounding -/

/-- Two rounded sums of `c1 + m` and `c2 - m` differ from `c1 + c2` by at
most the two rounding errors. -/
theorem split_drift (fl : ℚ → ℚ) (hfl : IsRounding fl) (c1 c2 m : ℚ) :
    |fl (c1 + m) + fl (c2 - m) - (c1 + c2)| ≤ (|c1 + m| + |c2 - m|) / 2 ^ 53 := by
  have e1 := abs_le.mp (hfl.err (c1 + m))
  have e2 := abs_le.mp (hfl.err (c2 - m))
  rw [add_div, abs_le]
  constructor <;> linarith [e1.1, e1.2, e2.1, e2.2]

/-- The pair step on `nearPair`, evaluated in binary64. -/
theorem binary64_nearPair_example :
    binary64 (1 / 5) = 3602879701896397 / 18014398509481984 ∧
    (nearFirst binary64).collider.center.distanceToSquaredR binary64
        (nearSecond binary64).collider.center
      < binary64 (binary64 ((nearFirst binary64).collider.radius
            + (nearSecond binary64).collider.radius)
          * binary64 ((nearFirst binary64).collider.radius
            + (nearSecond binary64).collider.radius)) ∧
    spheresCollisionsR binary64 ratSqrt (nearPair binary64)
      = [⟨⟨⟨3715469692580659 / 4503599627370496, 0, 0⟩, 3602879701896397 / 18014398509481984⟩, ⟨0,
        0, 0⟩⟩,
        ⟨⟨⟨7656119366529843 / 18014398509481984, 0, 0⟩, 3602879701896397 / 18014398509481984⟩, ⟨0,
          0, 0⟩⟩] := by
  have h0 : binary64 (1 / 5)
      = 3602879701896397 / 18014398509481984 := by
    rw [binary64_near (1 / 5)
      7205759403792794 (-55) (1 / 36028797018963968)
      (by norm_num) (by norm_num) (by norm_num) (by norm_num) (by norm_num)]
    norm_num
  have h1 : binary64 (1 / 4)
      = 1 / 4 := by
    rw [binary64_near (1 / 4)
      4503599627370496 (-54) (1 / 18014398509481984)
      (by norm_num) (by norm_num) (by norm_num) (by norm_num) (by norm_num)]
    norm_num
  have h2 : binary64 (1 / 16)
      = 1 / 16 := by
    rw [binary64_near (1 / 16)
      4503599627370496 (-56) (1 / 72057594037927936)
      (by norm_num) (by norm_num) (by norm_num) (by norm_num) (by norm_num)]
    norm_num
  have h3 : binary64 (3602879701896397 / 9007199254740992)
      = 3602879701896397 / 9007199254740992 := by
    rw [binary64_near (3602879701896397 / 9007199254740992)
      7205759403792794 (-54) (1 / 18014398509481984)
      (by norm_num) (by norm_num) (by norm_num) (by norm_num) (by norm_num)]
    norm_num
  have h4 : binary64 (12980742146337070512478121581609 / 81129638414606681695789005144064)
      = 1441151880758559 / 9007199254740992 := by
    rw [binary64_near (12980742146337070512478121581609 / 81129638414606681695789005144064)
      5764607523034236 (-55) (1 / 36028797018963968)
      (by norm_num) (by norm_num) (by norm_num) (by norm_num) (by norm_num)]
    norm_num
  have h5 : binary64 (4)
      = 4 := by
    rw [binary64_near (4)
      4503599627370496 (-50) (1 / 1125899906842624)
      (by norm_num) (by norm_num) (by norm_num) (by norm_num) (by norm_num)]
    norm_num
  have h6 : binary64 (1)
      = 1 := by
    rw [binary64_near (1)
      4503599627370496 (-52) (1 / 4503599627370496)
      (by norm_num) (by norm_num) (by norm_num) (by norm_num) (by norm_num)]
    norm_num
  have h7 : binary64 (1351079888211149 / 9007199254740992)
      = 1351079888211149 / 9007199254740992 := by
    rw [binary64_near (1351079888211149 / 9007199254740992)
      5404319552844596 (-55) (1 / 36028797018963968)
      (by norm_num) (by norm_num) (by norm_num) (by norm_num) (by norm_num)]
    norm_num
  have h8 : binary64 (1351079888211149 / 18014398509481984)
      = 1351079888211149 / 18014398509481984 := by
    rw [binary64_near (1351079888211149 / 18014398509481984)
      5404319552844596 (-56) (1 / 72057594037927936)
      (by norm_num) (by norm_num) (by norm_num) (by norm_num) (by norm_num)]
    norm_num
  have h9 : binary64 (14861878770322637 / 18014398509481984)
      = 3715469692580659 / 4503599627370496 := by
    rw [binary64_tie (14861878770322637 / 18014398509481984)
      7430939385161318 (-53) (1 / 9007199254740992)
      (by norm_num) (by norm_num) (by norm_num) (by norm_num)]
    norm_num
  have h10 : binary64 (7656119366529843 / 18014398509481984)
      = 7656119366529843 / 18014398509481984 := by
    rw [binary64_near (7656119366529843 / 18014398509481984)
      7656119366529843 (-54) (1 / 18014398509481984)
      (by norm_num) (by norm_num) (by norm_num) (by norm_num) (by norm_num)]
    norm_num
  refine ⟨h0, ?_, ?_⟩
  · simp only [nearFirst, nearSecond, Vec3.distanceToSquaredR]
    norm_num [h0, h1, h2, h3, h4, h5, h6, h7, h8, h9, h10, binary64_zero]
  rw [nearPair, spheresCollisionsR_two]
  simp only [nearFirst, nearSecond, collidePairR, Vec3.distanceToSquaredR, Vec3.subR,
    Vec3.normalizeR, Vec3.lengthSqR, Vec3.multiplyScalarR, Vec3.dotR, Vec3.addR,
    Vec3.addScaledVectorR, Vec3.zero]
  norm_num [h0, h1, h2, h3, h4, h5, h6, h7, h8, h9, h10, binary64_zero, binary64_neg,
    ratSqrt_sixteenth]

/-- C11, refuted: in binary64, for two spheres of radius `0.2` with centers
`(0.75, 0, 0)` and `(0.5, 0, 0)` (distinct, closer than `0.4`; the square root
of the squared distance is exact), `spheresCollisions` moves the centers to
`0.825` and `0.425`: their distance is `0.39999999999999997`, one unit in the
last place below the sum of the radii, also when computed in binary64, and the
midpoint of the centers has moved. -/
theorem spheresCollisionsR_misses_radius_sum :
    ∃ t1 t2, spheresCollisionsR binary64 ratSqrt (nearPair binary64) = [t1, t2] ∧
      t1.collider.center.y = t2.collider.center.y ∧
      t1.collider.center.z = t2.collider.center.z ∧
      t1.collider.center.x - t2.collider.center.x
        = binary64 (1 / 5) + binary64 (1 / 5) - 1 / 18014398509481984 ∧
      binary64 (t1.collider.center.x - t2.collider.center.x)
        ≠ binary64 (binary64 (1 / 5) + binary64 (1 / 5)) ∧
      t1.collider.center.distanceToSquared t2.collider.center
        ≠ (binary64 (1 / 5) + binary64 (1 / 5)) * (binary64 (1 / 5) + binary64 (1 / 5)) ∧
      (t1.collider.center.add t2.collider.center).multiplyScalar (1 / 2)
        ≠ ((⟨3 / 4, 0, 0⟩ : Vec3).add ⟨1 / 2, 0, 0⟩).multiplyScalar (1 / 2) := by
  obtain ⟨h0, _, h1⟩ := binary64_nearPair_example
  have k0 : binary64 (7205759403792793 / 18014398509481984)
      = 7205759403792793 / 18014398509481984 := by
    rw [binary64_near (7205759403792793 / 18014398509481984)
      7205759403792793 (-54) (1 / 18014398509481984)
      (by norm_num) (by norm_num) (by norm_num) (by norm_num) (by norm_num)]
    norm_num
  have k1 : binary64 (3602879701896397 / 9007199254740992)
      = 3602879701896397 / 9007199254740992 := by
    rw [binary64_near (3602879701896397 / 9007199254740992)
      7205759403792794 (-54) (1 / 18014398509481984)
      (by norm_num) (by norm_num) (by norm_num) (by norm_num) (by norm_num)]
    norm_num
  refine ⟨_, _, h1, rfl, rfl, ?_, ?_, ?_, ?_⟩
  · rw [h0]
    norm_num
  · rw [h0]
    norm_num [k0, k1]
  · rw [h0]
    norm_num [Vec3.distanceToSquared]
  · intro h
    have hx := congrArg Vec3.x h
    norm_num [Vec3.add, Vec3.multiplyScalar] at hx

/-- C11, amended: (a) with rounding, on a pool of two spheres that pass the
test `d2 < r2`, `spheresCollisions` moves the two centers by the same rounded
vector `m` (the normal times half the overlap) in opposite directions, to
`fl (c1 + m)` and `fl (c2 - m)`, keeps the radii, and moves each component of
the sum of the centers by at most `(|c1 + m| + |c2 - m|) / 2 ^ 53`; (b) in exact
arithmetic, when the centers are distinct and closer than the sum of the radii
and `Math.sqrt` returns a number whose square is the squared distance, the
squared center distance afterwards is the square of the sum of the radii (so
the distance is the sum of the radii) and the midpoint is unchanged. -/
theorem spheresCollisionsR_splits_overlap (fl sqrt : ℚ → ℚ) (hfl : IsRounding fl)
    (s1 s2 : Body) :
    (s1.collider.center.distanceToSquaredR fl s2.collider.center
        < fl (fl (s1.collider.radius + s2.collider.radius)
          * fl (s1.collider.radius + s2.collider.radius)) →
      ∃ t1 t2 m, spheresCollisionsR fl sqrt [s1, s2] = [t1, t2] ∧
        m = ((s1.collider.center.subR fl s2.collider.center).normalizeR fl
            sqrt).multiplyScalarR fl
          (fl (fl (fl (s1.collider.radius + s2.collider.radius)
            - sqrt (s1.collider.center.distanceToSquaredR fl s2.collider.center)) / 2)) ∧
        t1.collider.center = s1.collider.center.addR fl m ∧
        t2.collider.center = s2.collider.center.subR fl m ∧
        t1.collider.radius = s1.collider.radius ∧ t2.collider.radius = s2.collider.radius ∧
        |t1.collider.center.x + t2.collider.center.x
            - (s1.collider.center.x + s2.collider.center.x)|
          ≤ (|s1.collider.center.x + m.x| + |s2.collider.center.x - m.x|) / 2 ^ 53 ∧
        |t1.collider.center.y + t2.collider.center.y
            - (s1.collider.center.y + s2.collider.center.y)|
          ≤ (|s1.collider.center.y + m.y| + |s2.collider.center.y - m.y|) / 2 ^ 53 ∧
        |t1.collider.center.z + t2.collider.center.z
            - (s1.collider.center.z + s2.collider.center.z)|
          ≤ (|s1.collider.center.z + m.z| + |s2.collider.center.z - m.z|) / 2 ^ 53) ∧
    (sqrt (s1.collider.center.distanceToSquared s2.collider.center)
          * sqrt (s1.collider.center.distanceToSquared s2.collider.center)
        = s1.collider.center.distanceToSquared s2.collider.center →
      s1.collider.center ≠ s2.collider.center →
      s1.collider.center.distanceToSquared s2.collider.center
        < (s1.collider.radius + s2.collider.radius)
          * (s1.collider.radius + s2.collider.radius) →
      ∃ t1 t2, spheresCollisionsR id sqrt [s1, s2] = [t1, t2] ∧
        t1.collider.center.distanceToSquared t2.collider.center
          = (s1.collider.radius + s2.collider.radius)
            * (s1.collider.radius + s2.collider.radius) ∧
        (t1.collider.center.add t2.collider.center).multiplyScalar (1 / 2)
          = (s1.collider.center.add s2.collider.center).multiplyScalar (1 / 2) ∧
        t1.collider.radius = s1.collider.radius ∧ t2.collider.radius = s2.collider.radius ∧
        (∀ dist : ℚ, 0 ≤ dist → 0 ≤ s1.collider.radius + s2.collider.radius →
          dist * dist = t1.collider.center.distanceToSquared t2.collider.center →
          dist = s1.collider.radius + s2.collider.radius)) := by
  constructor
  · intro h
    have e2 : ∀ (c n : Vec3) (d : ℚ),
        c.addScaledVectorR fl n (-d) = c.subR fl (n.multiplyScalarR fl d) := by
      intro c n d
      simp only [Vec3.addScaledVectorR, Vec3.subR, Vec3.multiplyScalarR, mul_neg, hfl.neg,
        sub_eq_add_neg]
    refine ⟨(collidePairR fl sqrt s1 s2).1, (collidePairR fl sqrt s1 s2).2, _,
      spheresCollisionsR_two _ _ _ _, rfl, ?_, ?_, ?_, ?_, ?_, ?_, ?_⟩
    · simp only [collidePairR, if_pos h]
      rfl
    · simp only [collidePairR, if_pos h, e2]
    · simp only [collidePairR, if_pos h]
    · simp only [collidePairR, if_pos h]
    · simp only [collidePairR, if_pos h, e2]
      exact split_drift fl hfl _ _ _
    · simp only [collidePairR, if_pos h, e2]
      exact split_drift fl hfl _ _ _
    · simp only [collidePairR, if_pos h, e2]
      exact split_drift fl hfl _ _ _
  · intro hs hne hlt
    obtain ⟨t1, t2, _, h, _, _, _, _, hd, hm, hr1, hr2, hu⟩ :=
      spheresCollisions_exact_split sqrt s1 s2 hs hne hlt
    rw [spheresCollisionsR_id]
    exact ⟨t1, t2, h, hd, hm, hr1, hr2, hu⟩

/-- C11, amended, (a) in binary64 for the two spheres of `nearPair` and (b) in
exact arithmetic for two spheres of radius `0.2` whose centers are `0.3` apart. -/
theorem spheresCollisionsR_splits_overlap_witness :
    (IsRounding binary64 ∧
      (nearFirst binary64).collider.center.distanceToSquaredR binary64
          (nearSecond binary64).collider.center
        < binary64 (binary64 ((nearFirst binary64).collider.radius
              + (nearSecond binary64).collider.radius)
            * binary64 ((nearFirst binary64).collider.radius
              + (nearSecond binary64).collider.radius))) ∧
    (∃ t1 t2 m, spheresCollisionsR binary64 ratSqrt [nearFirst binary64, nearSecond binary64]
        = [t1, t2] ∧
      t1.collider.center = (nearFirst binary64).collider.center.addR binary64 m ∧
      t2.collider.center = (nearSecond binary64).collider.center.subR binary64 m) ∧
    (ratSqrt ((⟨3 / 10, 0, 0⟩ : Vec3).distanceToSquared ⟨0, 0, 0⟩)
        * ratSqrt ((⟨3 / 10, 0, 0⟩ : Vec3).distanceToSquared ⟨0, 0, 0⟩)
        = (⟨3 / 10, 0, 0⟩ : Vec3).distanceToSquared ⟨0, 0, 0⟩ ∧
      (⟨3 / 10, 0, 0⟩ : Vec3) ≠ ⟨0, 0, 0⟩ ∧
      (⟨3 / 10, 0, 0⟩ : Vec3).distanceToSquared ⟨0, 0, 0⟩ < (1 / 5 + 1 / 5) * (1 / 5 + 1 / 5)) ∧
    ∃ t1 t2, spheresCollisionsR id ratSqrt overlappingPair = [t1, t2] ∧
      t1.collider.center.distanceToSquared t2.collider.center
        = (1 / 5 + 1 / 5) * (1 / 5 + 1 / 5) ∧
      (t1.collider.center.add t2.collider.center).multiplyScalar (1 / 2)
        = ((⟨3 / 10, 0, 0⟩ : Vec3).add ⟨0, 0, 0⟩).multiplyScalar (1 / 2) := by
  have hA := binary64_nearPair_example.2.1
  have hlen : (⟨3 / 10, 0, 0⟩ : Vec3).distanceToSquared ⟨0, 0, 0⟩ = 9 / 100 := by
    norm_num [Vec3.distanceToSquared]
  have hs : ratSqrt ((⟨3 / 10, 0, 0⟩ : Vec3).distanceToSquared ⟨0, 0, 0⟩)
      * ratSqrt ((⟨3 / 10, 0, 0⟩ : Vec3).distanceToSquared ⟨0, 0, 0⟩)
      = (⟨3 / 10, 0, 0⟩ : Vec3).distanceToSquared ⟨0, 0, 0⟩ := by
    rw [hlen, ratSqrt_nine_hundredths]
    norm_num
  have hne : (⟨3 / 10, 0, 0⟩ : Vec3) ≠ ⟨0, 0, 0⟩ := by
    intro h
    have hx := congrArg Vec3.x h
    norm_num at hx
  have hlt : (⟨3 / 10, 0, 0⟩ : Vec3).distanceToSquared ⟨0, 0, 0⟩
      < (1 / 5 + 1 / 5) * (1 / 5 + 1 / 5) := by
    norm_num [Vec3.distanceToSquared]
  obtain ⟨t1, t2, m, h, _, h1, h2, _⟩ :=
    (spheresCollisionsR_splits_overlap binary64 ratSqrt binary64_isRounding
      (nearFirst binary64) (nearSecond binary64)).1 hA
  obtain ⟨u1, u2, k, kd, km, _⟩ :=
    (spheresCollisionsR_splits_overlap id ratSqrt id_isRounding
      ⟨⟨⟨3 / 10, 0, 0⟩, 1 / 5⟩, ((⟨3 / 10, 0, 0⟩ : Vec3).sub ⟨0, 0, 0⟩).multiplyScalar (-5)⟩
      ⟨⟨⟨0, 0, 0⟩, 1 / 5⟩, (((⟨3 / 10, 0, 0⟩ : Vec3).sub ⟨0, 0, 0⟩).multiplyScalar (-5)).negate⟩).2
      hs hne hlt
  exact ⟨⟨binary64_isRounding, hA⟩, ⟨t1, t2, m, h, h1, h2⟩, ⟨hs, hne, hlt⟩, u1, u2, k, kd, km⟩

/-! ## Head-on collisions with rounding -/

/-- The stand-in for `Math.sqrt` is exact at `25 / 256`. -/
theorem ratSqrt_25_256 : ratSqrt (25 / 256) = 5 / 16 := by
  have h1 : ((25 : ℚ) / 256).num = 25 := by norm_num
  have h2 : ((25 : ℚ) / 256).den = 256 := by norm_num
  have h3 : Nat.sqrt 25 = 5 := Nat.sqrt_eq 5
  have h4 : Nat.sqrt 256 = 16 := Nat.sqrt_eq 16
  have h5 : Int.toNat 25 = 25 := rfl
  unfold ratSqrt
  rw [h1, h2, h5, h3, h4]
  norm_num

/-- The pair step on `headOnFirst`, `headOnSecond`, evaluated in binary64:
the test passes and the velocity `0.1875` becomes `-0.18750000000000006`. -/
theorem binary64_headOn_example :
    (headOnFirst binary64).collider.center.distanceToSquaredR binary64
        (headOnSecond binary64).collider.center
      < binary64 (binary64 ((headOnFirst binary64).collider.radius
            + (headOnSecond binary64).collider.radius)
          * binary64 ((headOnFirst binary64).collider.radius
            + (headOnSecond binary64).collider.radius)) ∧
    spheresCollisionsR binary64 ratSqrt [headOnFirst binary64, headOnSecond binary64]
      = [⟨⟨⟨1925288840700887 / 9007199254740992, 2567051787601183 / 9007199254740992, 0⟩,
        3602879701896397 / 18014398509481984⟩, ⟨-(3377699720527873 / 18014398509481984), -(1 / 4),
        0⟩⟩,
        ⟨⟨⟨-(1891511843495609 / 72057594037927936), -(5044031582654957 / 144115188075855872), 0⟩,
          3602879701896397 / 18014398509481984⟩, ⟨3377699720527873 / 18014398509481984, 1 / 4,
          0⟩⟩] := by
  have h0 : binary64 (1 / 5)
      = 3602879701896397 / 18014398509481984 := by
    rw [binary64_near (1 / 5)
      7205759403792794 (-55) (1 / 36028797018963968)
      (by norm_num) (by norm_num) (by norm_num) (by norm_num) (by norm_num)]
    norm_num
  have h1 : binary64 (3 / 16)
      = 3 / 16 := by
    rw [binary64_near (3 / 16)
      6755399441055744 (-55) (1 / 36028797018963968)
      (by norm_num) (by norm_num) (by norm_num) (by norm_num) (by norm_num)]
    norm_num
  have h2 : binary64 (1 / 4)
      = 1 / 4 := by
    rw [binary64_near (1 / 4)
      4503599627370496 (-54) (1 / 18014398509481984)
      (by norm_num) (by norm_num) (by norm_num) (by norm_num) (by norm_num)]
    norm_num
  have h3 : binary64 (9 / 256)
      = 9 / 256 := by
    rw [binary64_near (9 / 256)
      5066549580791808 (-57) (1 / 144115188075855872)
      (by norm_num) (by norm_num) (by norm_num) (by norm_num) (by norm_num)]
    norm_num
  have h4 : binary64 (1 / 16)
      = 1 / 16 := by
    rw [binary64_near (1 / 16)
      4503599627370496 (-56) (1 / 72057594037927936)
      (by norm_num) (by norm_num) (by norm_num) (by norm_num) (by norm_num)]
    norm_num
  have h5 : binary64 (25 / 256)
      = 25 / 256 := by
    rw [binary64_near (25 / 256)
      7036874417766400 (-56) (1 / 72057594037927936)
      (by norm_num) (by norm_num) (by norm_num) (by norm_num) (by norm_num)]
    norm_num
  have h6 : binary64 (3602879701896397 / 9007199254740992)
      = 3602879701896397 / 9007199254740992 := by
    rw [binary64_near (3602879701896397 / 9007199254740992)
      7205759403792794 (-54) (1 / 18014398509481984)
      (by norm_num) (by norm_num) (by norm_num) (by norm_num) (by norm_num)]
    norm_num
  have h7 : binary64 (12980742146337070512478121581609 / 81129638414606681695789005144064)
      = 1441151880758559 / 9007199254740992 := by
    rw [binary64_near (12980742146337070512478121581609 / 81129638414606681695789005144064)
      5764607523034236 (-55) (1 / 36028797018963968)
      (by norm_num) (by norm_num) (by norm_num) (by norm_num) (by norm_num)]
    norm_num
  have h8 : binary64 (16 / 5)
      = 3602879701896397 / 1125899906842624 := by
    rw [binary64_near (16 / 5)
      7205759403792794 (-51) (1 / 2251799813685248)
      (by norm_num) (by norm_num) (by norm_num) (by norm_num) (by norm_num)]
    norm_num
  have h9 : binary64 (10808639105689191 / 18014398509481984)
      = 1351079888211149 / 2251799813685248 := by
    rw [binary64_tie (10808639105689191 / 18014398509481984)
      5404319552844595 (-53) (1 / 9007199254740992)
      (by norm_num) (by norm_num) (by norm_num) (by norm_num)]
    norm_num
  have h10 : binary64 (3602879701896397 / 4503599627370496)
      = 3602879701896397 / 4503599627370496 := by
    rw [binary64_near (3602879701896397 / 4503599627370496)
      7205759403792794 (-53) (1 / 9007199254740992)
      (by norm_num) (by norm_num) (by norm_num) (by norm_num) (by norm_num)]
    norm_num
  have h11 : binary64 (4053239664633447 / 36028797018963968)
      = 4053239664633447 / 36028797018963968 := by
    rw [binary64_near (4053239664633447 / 36028797018963968)
      8106479329266894 (-56) (1 / 72057594037927936)
      (by norm_num) (by norm_num) (by norm_num) (by norm_num) (by norm_num)]
    norm_num
  have h12 : binary64 (3602879701896397 / 18014398509481984)
      = 3602879701896397 / 18014398509481984 := by
    rw [binary64_near (3602879701896397 / 18014398509481984)
      7205759403792794 (-55) (1 / 36028797018963968)
      (by norm_num) (by norm_num) (by norm_num) (by norm_num) (by norm_num)]
    norm_num
  have h13 : binary64 (11258999068426241 / 36028797018963968)
      = 5 / 16 := by
    rw [binary64_tie (11258999068426241 / 36028797018963968)
      5629499534213120 (-54) (1 / 18014398509481984)
      (by norm_num) (by norm_num) (by norm_num) (by norm_num)]
    norm_num
  have h14 : binary64 (5 / 16)
      = 5 / 16 := by
    rw [binary64_near (5 / 16)
      5629499534213120 (-54) (1 / 18014398509481984)
      (by norm_num) (by norm_num) (by norm_num) (by norm_num) (by norm_num)]
    norm_num
  have h15 : binary64 (6755399441055745 / 36028797018963968)
      = 6755399441055745 / 36028797018963968 := by
    rw [binary64_near (6755399441055745 / 36028797018963968)
      6755399441055745 (-55) (1 / 36028797018963968)
      (by norm_num) (by norm_num) (by norm_num) (by norm_num) (by norm_num)]
    norm_num
  have h16 : binary64 (18014398509481985 / 72057594037927936)
      = 1 / 4 := by
    rw [binary64_near (18014398509481985 / 72057594037927936)
      4503599627370496 (-54) (1 / 18014398509481984)
      (by norm_num) (by norm_num) (by norm_num) (by norm_num) (by norm_num)]
    norm_num
  have h17 : binary64 (788129934789837 / 9007199254740992)
      = 788129934789837 / 9007199254740992 := by
    rw [binary64_near (788129934789837 / 9007199254740992)
      6305039478318696 (-56) (1 / 72057594037927936)
      (by norm_num) (by norm_num) (by norm_num) (by norm_num) (by norm_num)]
    norm_num
  have h18 : binary64 (788129934789837 / 18014398509481984)
      = 788129934789837 / 18014398509481984 := by
    rw [binary64_near (788129934789837 / 18014398509481984)
      6305039478318696 (-57) (1 / 144115188075855872)
      (by norm_num) (by norm_num) (by norm_num) (by norm_num) (by norm_num)]
    norm_num
  have h19 : binary64 (1064826504191713125099195292713 / 40564819207303340847894502572032)
      = 1891511843495609 / 72057594037927936 := by
    rw [binary64_near (1064826504191713125099195292713 / 40564819207303340847894502572032)
      7566047373982436 (-58) (1 / 288230376151711744)
      (by norm_num) (by norm_num) (by norm_num) (by norm_num) (by norm_num)]
    norm_num
  have h20 : binary64 (15402310725607097 / 72057594037927936)
      = 1925288840700887 / 9007199254740992 := by
    rw [binary64_tie (15402310725607097 / 72057594037927936)
      7701155362803548 (-55) (1 / 36028797018963968)
      (by norm_num) (by norm_num) (by norm_num) (by norm_num)]
    norm_num
  have h21 : binary64 (2839537344511234737554542517289 / 81129638414606681695789005144064)
      = 5044031582654957 / 144115188075855872 := by
    rw [binary64_near (2839537344511234737554542517289 / 81129638414606681695789005144064)
      5044031582654957 (-57) (1 / 144115188075855872)
      (by norm_num) (by norm_num) (by norm_num) (by norm_num) (by norm_num)]
    norm_num
  have h22 : binary64 (41072828601618925 / 144115188075855872)
      = 2567051787601183 / 9007199254740992 := by
    rw [binary64_near (41072828601618925 / 144115188075855872)
      5134103575202366 (-54) (1 / 18014398509481984)
      (by norm_num) (by norm_num) (by norm_num) (by norm_num) (by norm_num)]
    norm_num
  have h23 : binary64 (1 / 36028797018963968)
      = 1 / 36028797018963968 := by
    rw [binary64_near (1 / 36028797018963968)
      4503599627370496 (-107) (1 / 162259276829213363391578010288128)
      (by norm_num) (by norm_num) (by norm_num) (by norm_num) (by norm_num)]
    norm_num
  have h24 : binary64 (3377699720527873 / 18014398509481984)
      = 3377699720527873 / 18014398509481984 := by
    rw [binary64_near (3377699720527873 / 18014398509481984)
      6755399441055746 (-55) (1 / 36028797018963968)
      (by norm_num) (by norm_num) (by norm_num) (by norm_num) (by norm_num)]
    norm_num
  have h25 : binary64 (1891511843495609 / 72057594037927936)
      = 1891511843495609 / 72057594037927936 := by
    rw [binary64_near (1891511843495609 / 72057594037927936)
      7566047373982436 (-58) (1 / 288230376151711744)
      (by norm_num) (by norm_num) (by norm_num) (by norm_num) (by norm_num)]
    norm_num
  have h26 : binary64 (5044031582654957 / 144115188075855872)
      = 5044031582654957 / 144115188075855872 := by
    rw [binary64_near (5044031582654957 / 144115188075855872)
      5044031582654957 (-57) (1 / 144115188075855872)
      (by norm_num) (by norm_num) (by norm_num) (by norm_num) (by norm_num)]
    norm_num
  constructor
  · simp only [headOnFirst, headOnSecond, Vec3.distanceToSquaredR]
    norm_num [h0, h1, h2, h3, h4, h5, h6, h7, h8, h9, h10, h11, h12, h13, h14, h15, h16, h17, h18,
      h19, h20, h21, h22, h23, h24, h25, h26, binary64_zero]
  rw [spheresCollisionsR_two]
  simp only [headOnFirst, headOnSecond, collidePairR, Vec3.distanceToSquaredR, Vec3.subR,
    Vec3.normalizeR, Vec3.lengthSqR, Vec3.multiplyScalarR, Vec3.dotR, Vec3.addR,
    Vec3.addScaledVectorR, Vec3.negate]
  norm_num [h0, h1, h2, h3, h4, h5, h6, h7, h8, h9, h10, h11, h12, h13, h14, h15, h16, h17, h18,
    h19, h20, h21, h22, h23, h24, h25, h26, binary64_zero, binary64_neg, ratSqrt_25_256]

/-- Two spheres that exactly touch pass the test `d2 < r2` in binary64. -/
theorem binary64_touching_passes :
    touchFirst.collider.center.distanceToSquared touchSecond.collider.center
      = (touchFirst.collider.radius + touchSecond.collider.radius)
        * (touchFirst.collider.radius + touchSecond.collider.radius) ∧
    touchFirst.collider.center.distanceToSquaredR binary64 touchSecond.collider.center
      < binary64 (binary64 (touchFirst.collider.radius + touchSecond.collider.radius)
          * binary64 (touchFirst.collider.radius + touchSecond.collider.radius)) := by
  have g0 : binary64 (236591199 / 536870912)
      = 236591199 / 536870912 := by
    rw [binary64_near (236591199 / 536870912)
      7938683298643968 (-54) (1 / 18014398509481984)
      (by norm_num) (by norm_num) (by norm_num) (by norm_num) (by norm_num)]
    norm_num
  have g1 : binary64 (78863733 / 134217728)
      = 78863733 / 134217728 := by
    rw [binary64_near (78863733 / 134217728)
      5292455532429312 (-53) (1 / 9007199254740992)
      (by norm_num) (by norm_num) (by norm_num) (by norm_num) (by norm_num)]
    norm_num
  have g2 : binary64 (55975395444257601 / 288230376151711744)
      = 874615553816525 / 4503599627370496 := by
    rw [binary64_near (55975395444257601 / 288230376151711744)
      6996924430532200 (-55) (1 / 36028797018963968)
      (by norm_num) (by norm_num) (by norm_num) (by norm_num) (by norm_num)]
    norm_num
  have g3 : binary64 (6219488382695289 / 18014398509481984)
      = 6219488382695289 / 18014398509481984 := by
    rw [binary64_near (6219488382695289 / 18014398509481984)
      6219488382695289 (-54) (1 / 18014398509481984)
      (by norm_num) (by norm_num) (by norm_num) (by norm_num) (by norm_num)]
    norm_num
  have g4 : binary64 (9717950597961389 / 18014398509481984)
      = 2429487649490347 / 4503599627370496 := by
    rw [binary64_tie (9717950597961389 / 18014398509481984)
      4858975298980694 (-53) (1 / 9007199254740992)
      (by norm_num) (by norm_num) (by norm_num) (by norm_num)]
    norm_num
  have g5 : binary64 (2429487649490347 / 4503599627370496)
      = 2429487649490347 / 4503599627370496 := by
    rw [binary64_near (2429487649490347 / 4503599627370496)
      4858975298980694 (-53) (1 / 9007199254740992)
      (by norm_num) (by norm_num) (by norm_num) (by norm_num) (by norm_num)]
    norm_num
  have g6 : binary64 (394318665 / 536870912)
      = 394318665 / 536870912 := by
    rw [binary64_near (394318665 / 536870912)
      6615569415536640 (-53) (1 / 9007199254740992)
      (by norm_num) (by norm_num) (by norm_num) (by norm_num) (by norm_num)]
    norm_num
  have g7 : binary64 (155487209567382225 / 288230376151711744)
      = 4858975298980695 / 9007199254740992 := by
    rw [binary64_near (155487209567382225 / 288230376151711744)
      4858975298980695 (-53) (1 / 9007199254740992)
      (by norm_num) (by norm_num) (by norm_num) (by norm_num) (by norm_num)]
    norm_num
  constructor
  · norm_num [touchFirst, touchSecond, Vec3.distanceToSquared]
  · simp only [touchFirst, touchSecond, Vec3.distanceToSquaredR]
    norm_num [g0, g1, g2, g3, g4, g5, g6, g7, binary64_zero]

/-- C10, amended: for two spheres of equal radius with opposite velocities
`w` and `-w`: (a) with rounding, when the computed test `d2 < r2` fails
`spheresCollisions` changes nothing, and when it passes the two velocities
afterwards are exactly opposite, the first being `fl (fl (w - a) - a)` for the
rounded projection `a` of `w` on the rounded normal; (b) in exact arithmetic,
when the centers are distinct, `Math.sqrt` returns a number whose square is the
squared distance and `w` lies along the line of centers: if the center
distance is strictly less than the sum of the radii the velocities afterwards
are `-w` and `+w`, and at exact touching nothing changes. -/
theorem spheresCollisionsR_head_on (fl sqrt : ℚ → ℚ) (hfl : IsRounding fl) (c1 c2 w : Vec3)
    (r : ℚ) :
    (¬ c1.distanceToSquaredR fl c2 < fl (fl (r + r) * fl (r + r)) →
      spheresCollisionsR fl sqrt [⟨⟨c1, r⟩, w⟩, ⟨⟨c2, r⟩, w.negate⟩]
        = [⟨⟨c1, r⟩, w⟩, ⟨⟨c2, r⟩, w.negate⟩]) ∧
    (c1.distanceToSquaredR fl c2 < fl (fl (r + r) * fl (r + r)) →
      ∃ t1 t2 a, spheresCollisionsR fl sqrt [⟨⟨c1, r⟩, w⟩, ⟨⟨c2, r⟩, w.negate⟩] = [t1, t2] ∧
        a = ((c1.subR fl c2).normalizeR fl sqrt).multiplyScalarR fl
          (((c1.subR fl c2).normalizeR fl sqrt).dotR fl w) ∧
        t1.velocity = (w.subR fl a).subR fl a ∧
        t2.velocity = t1.velocity.negate) ∧
    (sqrt (c1.sub c2).lengthSq * sqrt (c1.sub c2).lengthSq = (c1.sub c2).lengthSq →
      c1 ≠ c2 → ∀ k : ℚ,
      (c1.distanceToSquared c2 < (r + r) * (r + r) →
        (spheresCollisionsR id sqrt
            [⟨⟨c1, r⟩, (c1.sub c2).multiplyScalar k⟩,
              ⟨⟨c2, r⟩, ((c1.sub c2).multiplyScalar k).negate⟩]).map Body.velocity
          = [((c1.sub c2).multiplyScalar k).negate, (c1.sub c2).multiplyScalar k]) ∧
      (c1.distanceToSquared c2 = (r + r) * (r + r) →
        spheresCollisionsR id sqrt
            [⟨⟨c1, r⟩, (c1.sub c2).multiplyScalar k⟩,
              ⟨⟨c2, r⟩, ((c1.sub c2).multiplyScalar k).negate⟩]
          = [⟨⟨c1, r⟩, (c1.sub c2).multiplyScalar k⟩,
              ⟨⟨c2, r⟩, ((c1.sub c2).multiplyScalar k).negate⟩])) := by
  refine ⟨?_, ?_, ?_⟩
  · intro h
    rw [spheresCollisionsR_two]
    simp only [collidePairR, if_neg h]
  · intro h
    have n1 : ∀ p q : ℚ, fl (p + -q) = fl (p - q) := by
      intro p q
      rw [sub_eq_add_neg]
    have n2 : ∀ p q : ℚ, fl (-p + q) = -fl (p - q) := by
      intro p q
      rw [← hfl.neg, neg_sub, neg_add_eq_sub]
    have n3 : ∀ p q : ℚ, fl (-p - -q) = -fl (p - q) := by
      intro p q
      rw [← hfl.neg, neg_sub, neg_sub_neg]
    have n4 : ∀ p q : ℚ, fl (-p + -q) = -fl (p + q) := by
      intro p q
      rw [← hfl.neg, neg_add]
    have hdot : ∀ n : Vec3, n.dotR fl w.negate = -(n.dotR fl w) := by
      intro n
      simp only [Vec3.dotR, Vec3.negate, mul_neg, hfl.neg, n4]
    have hmul : ∀ (n : Vec3) (s : ℚ),
        n.multiplyScalarR fl (-s) = (n.multiplyScalarR fl s).negate := by
      intro n s
      simp only [Vec3.multiplyScalarR, Vec3.negate, mul_neg, hfl.neg]
    refine ⟨(collidePairR fl sqrt ⟨⟨c1, r⟩, w⟩ ⟨⟨c2, r⟩, w.negate⟩).1,
      (collidePairR fl sqrt ⟨⟨c1, r⟩, w⟩ ⟨⟨c2, r⟩, w.negate⟩).2, _,
      spheresCollisionsR_two _ _ _ _, rfl, ?_, ?_⟩
    · simp only [collidePairR, if_pos h, hdot, hmul]
      simp only [Vec3.addR, Vec3.subR, Vec3.negate, n1]
    · simp only [collidePairR, if_pos h, hdot, hmul]
      simp only [Vec3.addR, Vec3.subR, Vec3.negate, n1, n2, n3]
  · intro hs hne k
    have h := spheresCollisions_exact_head_on sqrt c1 c2 r k hs hne
    simp only [spheresCollisionsR_id]
    exact h

/-- C10, amended, (a) in binary64 for two spheres whose centers differ by
`(0.1875, 0.25, 0)`, with the velocities `(0.1875, 0.25, 0)` and its opposite:
the test passes and the velocities afterwards are opposite; (b) in exact
arithmetic for two spheres of radius `0.2` whose centers are `0.3` apart: the
velocities `(-3/2, 0, 0)` and `(3/2, 0, 0)` are exchanged. -/
theorem spheresCollisionsR_head_on_witness :
    (IsRounding binary64 ∧
      (⟨3 / 16, 1 / 4, 0⟩ : Vec3).distanceToSquaredR binary64 ⟨0, 0, 0⟩
        < binary64 (binary64 (binary64 (1 / 5) + binary64 (1 / 5))
          * binary64 (binary64 (1 / 5) + binary64 (1 / 5)))) ∧
    (∃ t1 t2, spheresCollisionsR binary64 ratSqrt [headOnFirst binary64, headOnSecond binary64]
        = [t1, t2] ∧ t2.velocity = t1.velocity.negate) ∧
    (ratSqrt ((⟨3 / 10, 0, 0⟩ : Vec3).sub ⟨0, 0, 0⟩).lengthSq
        * ratSqrt ((⟨3 / 10, 0, 0⟩ : Vec3).sub ⟨0, 0, 0⟩).lengthSq
        = ((⟨3 / 10, 0, 0⟩ : Vec3).sub ⟨0, 0, 0⟩).lengthSq ∧
      (⟨3 / 10, 0, 0⟩ : Vec3) ≠ ⟨0, 0, 0⟩ ∧
      (⟨3 / 10, 0, 0⟩ : Vec3).distanceToSquared ⟨0, 0, 0⟩ < (1 / 5 + 1 / 5) * (1 / 5 + 1 / 5)) ∧
    overlappingPair.map Body.velocity = [⟨-3 / 2, 0, 0⟩, ⟨3 / 2, 0, 0⟩] ∧
    (spheresCollisionsR id ratSqrt overlappingPair).map Body.velocity
      = [⟨3 / 2, 0, 0⟩, ⟨-3 / 2, 0, 0⟩] := by
  have hA := binary64_headOn_example.1
  have hlen : ((⟨3 / 10, 0, 0⟩ : Vec3).sub ⟨0, 0, 0⟩).lengthSq = 9 / 100 := by
    norm_num [Vec3.sub, Vec3.lengthSq]
  have hs : ratSqrt ((⟨3 / 10, 0, 0⟩ : Vec3).sub ⟨0, 0, 0⟩).lengthSq
      * ratSqrt ((⟨3 / 10, 0, 0⟩ : Vec3).sub ⟨0, 0, 0⟩).lengthSq
      = ((⟨3 / 10, 0, 0⟩ : Vec3).sub ⟨0, 0, 0⟩).lengthSq := by
    rw [hlen, ratSqrt_nine_hundredths]
    norm_num
  have hne : (⟨3 / 10, 0, 0⟩ : Vec3) ≠ ⟨0, 0, 0⟩ := by
    intro h
    have hx := congrArg Vec3.x h
    norm_num at hx
  have hlt : (⟨3 / 10, 0, 0⟩ : Vec3).distanceToSquared ⟨0, 0, 0⟩
      < (1 / 5 + 1 / 5) * (1 / 5 + 1 / 5) := by
    norm_num [Vec3.distanceToSquared]
  have hval : ((⟨3 / 10, 0, 0⟩ : Vec3).sub ⟨0, 0, 0⟩).multiplyScalar (-5) = ⟨-3 / 2, 0, 0⟩ := by
    norm_num [Vec3.sub, Vec3.multiplyScalar]
  have hneg : (⟨-3 / 2, 0, 0⟩ : Vec3).negate = ⟨3 / 2, 0, 0⟩ := by
    norm_num [Vec3.negate]
  obtain ⟨t1, t2, _, ht, _, _, hopp⟩ :=
    (spheresCollisionsR_head_on binary64 ratSqrt binary64_isRounding ⟨3 / 16, 1 / 4, 0⟩
      ⟨0, 0, 0⟩ ⟨3 / 16, 1 / 4, 0⟩ (binary64 (1 / 5))).2.1 hA
  have h := ((spheresCollisionsR_head_on id ratSqrt id_isRounding ⟨3 / 10, 0, 0⟩ ⟨0, 0, 0⟩
    ⟨0, 0, 0⟩ (1 / 5)).2.2 hs hne (-5)).1 hlt
  refine ⟨⟨binary64_isRounding, hA⟩, ⟨t1, t2, ht, hopp⟩, ⟨hs, hne, hlt⟩, ?_, ?_⟩
  · simp only [overlappingPair, List.map, hval, hneg]
  · rw [hval, hneg] at h
    simpa only [overlappingPair, hval, hneg] using h

/-! ## Collision normals with rounding -/

/-- The normal of two positions that differ by `(0.1875, 0.25, 0)`, evaluated
in binary64: `(0.6000000000000001, 0.8, 0)`, of squared length
`1.0000000000000002` when computed in binary64. -/
theorem binary64_normal_example :
    ((⟨3 / 16, 1 / 4, 0⟩ : Vec3).subR binary64 ⟨0, 0, 0⟩).normalizeR binary64 ratSqrt
      = ⟨1351079888211149 / 2251799813685248, 3602879701896397 / 4503599627370496, 0⟩ ∧
    (((⟨3 / 16, 1 / 4, 0⟩ : Vec3).subR binary64 ⟨0, 0, 0⟩).normalizeR binary64
        ratSqrt).lengthSqR binary64 = 4503599627370497 / 4503599627370496 := by
  have h0 : binary64 (3 / 16)
      = 3 / 16 := by
    rw [binary64_near (3 / 16)
      6755399441055744 (-55) (1 / 36028797018963968)
      (by norm_num) (by norm_num) (by norm_num) (by norm_num) (by norm_num)]
    norm_num
  have h1 : binary64 (1 / 4)
      = 1 / 4 := by
    rw [binary64_near (1 / 4)
      4503599627370496 (-54) (1 / 18014398509481984)
      (by norm_num) (by norm_num) (by norm_num) (by norm_num) (by norm_num)]
    norm_num
  have h2 : binary64 (9 / 256)
      = 9 / 256 := by
    rw [binary64_near (9 / 256)
      5066549580791808 (-57) (1 / 144115188075855872)
      (by norm_num) (by norm_num) (by norm_num) (by norm_num) (by norm_num)]
    norm_num
  have h3 : binary64 (1 / 16)
      = 1 / 16 := by
    rw [binary64_near (1 / 16)
      4503599627370496 (-56) (1 / 72057594037927936)
      (by norm_num) (by norm_num) (by norm_num) (by norm_num) (by norm_num)]
    norm_num
  have h4 : binary64 (25 / 256)
      = 25 / 256 := by
    rw [binary64_near (25 / 256)
      7036874417766400 (-56) (1 / 72057594037927936)
      (by norm_num) (by norm_num) (by norm_num) (by norm_num) (by norm_num)]
    norm_num
  have h5 : binary64 (16 / 5)
      = 3602879701896397 / 1125899906842624 := by
    rw [binary64_near (16 / 5)
      7205759403792794 (-51) (1 / 2251799813685248)
      (by norm_num) (by norm_num) (by norm_num) (by norm_num) (by norm_num)]
    norm_num
  have h6 : binary64 (10808639105689191 / 18014398509481984)
      = 1351079888211149 / 2251799813685248 := by
    rw [binary64_tie (10808639105689191 / 18014398509481984)
      5404319552844595 (-53) (1 / 9007199254740992)
      (by norm_num) (by norm_num) (by norm_num) (by norm_num)]
    norm_num
  have h7 : binary64 (3602879701896397 / 4503599627370496)
      = 3602879701896397 / 4503599627370496 := by
    rw [binary64_near (3602879701896397 / 4503599627370496)
      7205759403792794 (-53) (1 / 9007199254740992)
      (by norm_num) (by norm_num) (by norm_num) (by norm_num) (by norm_num)]
    norm_num
  have k0 : binary64 (1825416864328650878587207900201 / 5070602400912917605986812821504)
      = 1621295865853379 / 4503599627370496 := by
    rw [binary64_near (1825416864328650878587207900201 / 5070602400912917605986812821504)
      6485183463413516 (-54) (1 / 18014398509481984)
      (by norm_num) (by norm_num) (by norm_num) (by norm_num) (by norm_num)]
    norm_num
  have k1 : binary64 (12980742146337070512478121581609 / 20282409603651670423947251286016)
      = 1441151880758559 / 2251799813685248 := by
    rw [binary64_near (12980742146337070512478121581609 / 20282409603651670423947251286016)
      5764607523034236 (-53) (1 / 9007199254740992)
      (by norm_num) (by norm_num) (by norm_num) (by norm_num) (by norm_num)]
    norm_num
  have k2 : binary64 (4503599627370497 / 4503599627370496)
      = 4503599627370497 / 4503599627370496 := by
    rw [binary64_near (4503599627370497 / 4503599627370496)
      4503599627370497 (-52) (1 / 4503599627370496)
      (by norm_num) (by norm_num) (by norm_num) (by norm_num) (by norm_num)]
    norm_num
  have hn : ((⟨3 / 16, 1 / 4, 0⟩ : Vec3).subR binary64 ⟨0, 0, 0⟩).normalizeR binary64 ratSqrt
      = ⟨1351079888211149 / 2251799813685248, 3602879701896397 / 4503599627370496, 0⟩ := by
    simp only [Vec3.subR, Vec3.normalizeR, Vec3.lengthSqR, Vec3.multiplyScalarR]
    norm_num [h0, h1, h2, h3, h4, h5, h6, h7, binary64_zero, ratSqrt_25_256]
  refine ⟨hn, ?_⟩
  rw [hn]
  simp only [Vec3.lengthSqR]
  norm_num [k0, k1, k2, binary64_zero]

/-- The center `(0, -100, 0)` of the initial pool is a binary64 vector. -/
theorem restingSphereR_fixed :
    (restingSphereR binary64).collider.center.FixedBy binary64 ∧
    (restingSphereR binary64).velocity.FixedBy binary64 := by
  have c0 : binary64 (100)
      = 100 := by
    rw [binary64_near (100)
      7036874417766400 (-46) (1 / 70368744177664)
      (by norm_num) (by norm_num) (by norm_num) (by norm_num) (by norm_num)]
    norm_num
  constructor
  · simp only [Vec3.FixedBy, restingSphereR]
    norm_num [c0, binary64_zero, binary64_neg]
  · simp only [Vec3.FixedBy, restingSphereR, Vec3.zero]
    norm_num [binary64_zero]

/-- With the identity as rounding `normalize` of a difference is the exact
function. -/
theorem Vec3.normalizeR_id (sqrt : ℚ → ℚ) (p q : Vec3) :
    (p.subR id q).normalizeR id sqrt = (p.sub q).normalize sqrt := rfl

/-- The difference of a vector with itself normalises to the zero vector
with rounding, whatever the square root. -/
theorem Vec3.normalizeR_sub_self (fl sqrt : ℚ → ℚ) (hfl : IsRounding fl) (p : Vec3) :
    (p.subR fl p).normalizeR fl sqrt = Vec3.zero := by
  simp [Vec3.normalizeR, Vec3.multiplyScalarR, Vec3.subR, Vec3.zero, hfl.zero]

/-- C17, amended: the normal of a collision response is
`normalize(p - q)`, and its divisor `length() || 1` is never zero.  With
rounding, for coincident positions the normal is the zero vector, and then both
`spheresCollisions` (pair step) and `playerSphereCollision` (point step) leave
velocities and centers of binary64 values unchanged.  For distinct positions the
normal has squared length exactly `1` in exact arithmetic with a square root
exact at the squared distance; in binary64 it need not: for the difference
`(0.1875, 0.25, 0)` the normal is `(0.6000000000000001, 0.8, 0)`, whose squared
length is not `1`, neither exactly nor when computed in binary64. -/
theorem collisionR_normal_unit_or_zero (fl sqrt : ℚ → ℚ) (hfl : IsRounding fl) (p q : Vec3) :
    (if sqrt ((p.subR fl q).lengthSqR fl) = 0 then 1 else sqrt ((p.subR fl q).lengthSqR fl))
      ≠ 0 ∧
    (p = q →
      (p.subR fl q).normalizeR fl sqrt = Vec3.zero ∧
      (∀ s1 s2 : Body, s1.collider.center = p → s2.collider.center = q → p.FixedBy fl →
        s1.velocity.FixedBy fl → s2.velocity.FixedBy fl →
        collidePairR fl sqrt s1 s2 = (s1, s2)) ∧
      (∀ (r : ℚ) (st : PlayerSphereState), st.sphere.collider.center = q → p.FixedBy fl →
        st.playerVelocity.FixedBy fl → st.sphere.velocity.FixedBy fl →
        (playerSpherePointR fl sqrt r p st).playerVelocity = st.playerVelocity ∧
        (playerSpherePointR fl sqrt r p st).sphere = st.sphere)) ∧
    (p ≠ q → sqrt (p.distanceToSquared q) * sqrt (p.distanceToSquared q)
        = p.distanceToSquared q →
      ((p.subR id q).normalizeR id sqrt).lengthSq = 1) ∧
    ((((⟨3 / 16, 1 / 4, 0⟩ : Vec3).subR binary64 ⟨0, 0, 0⟩).normalizeR binary64
        ratSqrt).lengthSq ≠ 1 ∧
      (((⟨3 / 16, 1 / 4, 0⟩ : Vec3).subR binary64 ⟨0, 0, 0⟩).normalizeR binary64
        ratSqrt).lengthSqR binary64 ≠ 1) := by
  refine ⟨?_, ?_, ?_, ?_⟩
  · split_ifs with h
    · exact one_ne_zero
    · exact h
  · intro hpq
    subst hpq
    have hn := Vec3.normalizeR_sub_self fl sqrt hfl p
    refine ⟨hn, ?_, ?_⟩
    · intro s1 s2 h1 h2 hp hv1 hv2
      obtain ⟨⟨c1, r1⟩, v1⟩ := s1
      obtain ⟨⟨c2, r2⟩, v2⟩ := s2
      simp only at h1 h2 hv1 hv2
      subst h1 h2
      obtain ⟨hp1, hp2, hp3⟩ := hp
      obtain ⟨ha1, ha2, ha3⟩ := hv1
      obtain ⟨hb1, hb2, hb3⟩ := hv2
      simp only [collidePairR, hn]
      split_ifs
      · simp [Vec3.zero, Vec3.multiplyScalarR, Vec3.addScaledVectorR, Vec3.addR, Vec3.subR,
          Vec3.dotR, hfl.zero, hp1, hp2, hp3, ha1, ha2, ha3, hb1, hb2, hb3]
      · rfl
    · intro r st hc hp hv1 hv2
      obtain ⟨vec, pv, ⟨⟨c, rad⟩, sv⟩⟩ := st
      simp only at hc hv1 hv2
      subst hc
      obtain ⟨hp1, hp2, hp3⟩ := hp
      obtain ⟨ha1, ha2, ha3⟩ := hv1
      obtain ⟨hb1, hb2, hb3⟩ := hv2
      simp only [playerSpherePointR, hn]
      split_ifs
      · simp [Vec3.zero, Vec3.multiplyScalarR, Vec3.addScaledVectorR, Vec3.addR, Vec3.subR,
          Vec3.dotR, hfl.zero, hp1, hp2, hp3, ha1, ha2, ha3, hb1, hb2, hb3]
      · exact ⟨rfl, rfl⟩
  · intro hne hs
    rw [Vec3.normalizeR_id]
    rw [Vec3.distanceToSquared_eq] at hs
    exact (Vec3.normalize_unit sqrt _ hs (Vec3.lengthSq_sub_pos _ _ hne)).2
  · obtain ⟨h1, h2⟩ := binary64_normal_example
    rw [h2, h1]
    constructor
    · norm_num [Vec3.lengthSq]
    · norm_num

/-- C17, amended, in binary64 for the coincident centers of the initial pool
(zero normal, nothing changes) and in exact arithmetic for two centers `0.3`
apart (unit normal). -/
theorem collisionR_normal_unit_or_zero_witness :
    IsRounding binary64 ∧
    ((restingSphereR binary64).collider.center.FixedBy binary64 ∧
      (restingSphereR binary64).velocity.FixedBy binary64) ∧
    ((restingSphereR binary64).collider.center.subR binary64
      (restingSphereR binary64).collider.center).normalizeR binary64 ratSqrt = Vec3.zero ∧
    collidePairR binary64 ratSqrt (restingSphereR binary64) (restingSphereR binary64)
      = (restingSphereR binary64, restingSphereR binary64) ∧
    ((⟨3 / 10, 0, 0⟩ : Vec3) ≠ ⟨0, 0, 0⟩ ∧
      ratSqrt ((⟨3 / 10, 0, 0⟩ : Vec3).distanceToSquared ⟨0, 0, 0⟩)
        * ratSqrt ((⟨3 / 10, 0, 0⟩ : Vec3).distanceToSquared ⟨0, 0, 0⟩)
        = (⟨3 / 10, 0, 0⟩ : Vec3).distanceToSquared ⟨0, 0, 0⟩) ∧
    (((⟨3 / 10, 0, 0⟩ : Vec3).subR id ⟨0, 0, 0⟩).normalizeR id ratSqrt).lengthSq = 1 := by
  have hlen : (⟨3 / 10, 0, 0⟩ : Vec3).distanceToSquared ⟨0, 0, 0⟩ = 9 / 100 := by
    norm_num [Vec3.distanceToSquared]
  have hs : ratSqrt ((⟨3 / 10, 0, 0⟩ : Vec3).distanceToSquared ⟨0, 0, 0⟩)
      * ratSqrt ((⟨3 / 10, 0, 0⟩ : Vec3).distanceToSquared ⟨0, 0, 0⟩)
      = (⟨3 / 10, 0, 0⟩ : Vec3).distanceToSquared ⟨0, 0, 0⟩ := by
    rw [hlen, ratSqrt_nine_hundredths]
    norm_num
  have hne : (⟨3 / 10, 0, 0⟩ : Vec3) ≠ ⟨0, 0, 0⟩ := by
    intro h
    have hx := congrArg Vec3.x h
    norm_num at hx
  have hfix := restingSphereR_fixed
  have h := (collisionR_normal_unit_or_zero binary64 ratSqrt binary64_isRounding
    (restingSphereR binary64).collider.center (restingSphereR binary64).collider.center).2.1 rfl
  exact ⟨binary64_isRounding, hfix, h.1,
    h.2.1 (restingSphereR binary64) (restingSphereR binary64) rfl rfl hfix.1 hfix.2 hfix.2,
    ⟨hne, hs⟩,
    (collisionR_normal_unit_or_zero id ratSqrt id_isRounding ⟨3 / 10, 0, 0⟩ ⟨0, 0, 0⟩).2.2.1
      hne hs⟩

/-! ## Launching spheres: the body at the cursor -/

/-- A launch writes the launched body at the cursor. -/
theorem throwBall_writes (env : Env) (now : ℚ) (g : Game)
    (hlen : g.spheres.length = NUM_SPHERES) (hidx : g.sphereIdx < NUM_SPHERES) :
    ∃ sphere, g.spheres[g.sphereIdx]? = some sphere ∧
      (throwBall env now g).spheres[g.sphereIdx]? = some (launchedBody env now g sphere) := by
  have hlt : g.sphereIdx < g.spheres.length := by rw [hlen]; exact hidx
  have hget : g.spheres[g.sphereIdx]? = some (g.spheres[g.sphereIdx]) :=
    List.getElem?_eq_getElem hlt
  refine ⟨g.spheres[g.sphereIdx], hget, ?_⟩
  simp only [throwBall, hget, launchedBody]
  rw [List.getElem?_set_self hlt]

/-- A launch changes neither the player, nor the camera, nor the other
globals read by the next launch. -/
theorem throwBall_frame (env : Env) (now : ℚ) (g : Game) :
    (throwBall env now g).player = g.player ∧ (throwBall env now g).camera = g.camera ∧
    (throwBall env now g).mouseTime = g.mouseTime ∧
    (throwBall env now g).devMode = g.devMode ∧
    (throwBall env now g).keyStates = g.keyStates := by
  unfold throwBall
  cases g.spheres[g.sphereIdx]? with
  | none => exact ⟨rfl, rfl, rfl, rfl, rfl⟩
  | some sphere => exact ⟨rfl, rfl, rfl, rfl, rfl⟩

/-- The launched body depends on the game only through the player, the
camera and `mouseTime`. -/
theorem launchedBody_congr (env : Env) (now : ℚ) (g1 g2 : Game) (sphere : Body)
    (hp : g1.player = g2.player) (hc : g1.camera = g2.camera)
    (hm : g1.mouseTime = g2.mouseTime) :
    launchedBody env now g1 sphere = launchedBody env now g2 sphere := by
  simp only [launchedBody, hp, hc, hm]

/-- The pool after consecutive launches: the index `(sphereIdx + k) mod
NUM_SPHERES` holds the body written by launch number `k`, and an index that no
launch reached holds its old body. -/
theorem throwBalls_pool (env : Env) :
    ∀ (times : List ℚ) (g : Game), g.spheres.length = NUM_SPHERES →
      g.sphereIdx < NUM_SPHERES → times.length ≤ NUM_SPHERES →
      (∀ k, k < times.length → ∃ sphere now, times[k]? = some now ∧
        g.spheres[(g.sphereIdx + k) % NUM_SPHERES]? = some sphere ∧
        (throwBalls env times g).spheres[(g.sphereIdx + k) % NUM_SPHERES]?
          = some (launchedBody env now g sphere)) ∧
      (∀ j, (∀ k, k < times.length → (g.sphereIdx + k) % NUM_SPHERES ≠ j) →
        (throwBalls env times g).spheres[j]? = g.spheres[j]?) := by
  intro times
  induction times with
  | nil =>
    intro g _ _ _
    refine ⟨?_, ?_⟩
    · intro k hk
      exact absurd hk (Nat.not_lt_zero _)
    · intro j _
      rfl
  | cons now times ih =>
    intro g hlen hidx hle
    obtain ⟨h1, h2, h3, h4⟩ := throwBall_step env now g hlen hidx
    obtain ⟨hp, hc, hm, _, _⟩ := throwBall_frame env now g
    have hle2 : times.length ≤ NUM_SPHERES := by
      simp only [List.length_cons] at hle
      omega
    obtain ⟨ih1, ih2⟩ := ih (throwBall env now g) h1 h3 hle2
    simp only [List.length_cons, NUM_SPHERES] at hle
    simp only [NUM_SPHERES] at hidx
    refine ⟨?_, ?_⟩
    · intro k hk
      cases k with
      | zero =>
        obtain ⟨sphere, hs, hw⟩ := throwBall_writes env now g hlen hidx
        have e0 : (g.sphereIdx + 0) % NUM_SPHERES = g.sphereIdx := by
          simp only [NUM_SPHERES]
          omega
        refine ⟨sphere, now, List.getElem?_cons_zero, ?_, ?_⟩
        · rw [e0]
          exact hs
        · rw [e0]
          simp only [throwBalls]
          rw [ih2 g.sphereIdx, hw]
          intro k hk2
          rw [h2]
          simp only [NUM_SPHERES]
          omega
      | succ k =>
        have hk2 : k < times.length := by
          simp only [List.length_cons] at hk
          omega
        obtain ⟨sphere, t, ht, hs, hw⟩ := ih1 k hk2
        have e1 : ((throwBall env now g).sphereIdx + k) % NUM_SPHERES
            = (g.sphereIdx + (k + 1)) % NUM_SPHERES := by
          rw [h2]
          simp only [NUM_SPHERES]
          omega
        have hne : (g.sphereIdx + (k + 1)) % NUM_SPHERES ≠ g.sphereIdx := by
          simp only [NUM_SPHERES]
          omega
        rw [e1] at hs hw
        rw [h4 _ hne] at hs
        refine ⟨sphere, t, ?_, hs, ?_⟩
        · simpa only [List.getElem?_cons_succ] using ht
        · simp only [throwBalls]
          rw [hw, launchedBody_congr env t _ g sphere hp hc hm]
    · intro j hj
      have hj0 : j ≠ g.sphereIdx := by
        have := hj 0 (by simp only [List.length_cons]; omega)
        intro h
        apply this
        rw [h]
        simp only [NUM_SPHERES]
        omega
      simp only [throwBalls]
      rw [ih2 j, h4 j hj0]
      intro k hk
      have := hj (k + 1) (by simp only [List.length_cons]; omega)
      intro h
      apply this
      rw [← h, h2]
      simp only [NUM_SPHERES]
      omega

/-- C15: on a pool of `NUM_SPHERES` bodies with the cursor inside the pool,
`throwBall` keeps the pool size, leaves every body but the one at the cursor
as it is, overwrites the body at the cursor (same radius, center
`playerCollider.end + direction * (radius * 1.5)`, velocity
`direction * impulse + playerVelocity * 2`), leaves the player and the camera
as they are and advances the cursor by one modulo the pool size.
`NUM_SPHERES` consecutive launches bring the cursor back to its starting value
and use every body exactly once: each index `j` of the pool is
`(sphereIdx + k) mod NUM_SPHERES` for exactly one `k`, and after the launches
that index holds the body written by launch number `k` from the time
`times[k]` and the radius of the body that was there. -/
theorem throwBall_round_robin (env : Env) (g : Game)
    (hlen : g.spheres.length = NUM_SPHERES) (hidx : g.sphereIdx < NUM_SPHERES) :
    (∀ now : ℚ,
      (throwBall env now g).spheres.length = NUM_SPHERES ∧
      (throwBall env now g).sphereIdx = (g.sphereIdx + 1) % NUM_SPHERES ∧
      (throwBall env now g).sphereIdx < NUM_SPHERES ∧
      (∀ i, i ≠ g.sphereIdx → (throwBall env now g).spheres[i]? = g.spheres[i]?) ∧
      (∃ sphere, g.spheres[g.sphereIdx]? = some sphere ∧
        (throwBall env now g).spheres[g.sphereIdx]? = some
          { collider :=
              { center := g.player.collider.end.addScaledVector
                  (env.getWorldDirection g.camera) (g.player.collider.radius * (3 / 2))
                radius := sphere.collider.radius }
            velocity :=
              ((env.getWorldDirection g.camera).multiplyScalar
                (15 + 30 * (1 - env.exp ((g.mouseTime - now) * (1 / 1000))))).addScaledVector
                g.player.velocity 2 }) ∧
      (throwBall env now g).player = g.player ∧ (throwBall env now g).camera = g.camera) ∧
    (∀ times : List ℚ, times.length = NUM_SPHERES →
      (throwCursors env times g).Perm (List.range NUM_SPHERES) ∧
      (throwBalls env times g).sphereIdx = g.sphereIdx ∧
      (throwBalls env times g).spheres.length = NUM_SPHERES ∧
      (∀ j, j < NUM_SPHERES →
        ∃! k, k < NUM_SPHERES ∧ (g.sphereIdx + k) % NUM_SPHERES = j) ∧
      (∀ k, k < NUM_SPHERES → ∃ sphere now, times[k]? = some now ∧
        g.spheres[(g.sphereIdx + k) % NUM_SPHERES]? = some sphere ∧
        (throwBalls env times g).spheres[(g.sphereIdx + k) % NUM_SPHERES]? = some
          { collider :=
              { center := g.player.collider.end.addScaledVector
                  (env.getWorldDirection g.camera) (g.player.collider.radius * (3 / 2))
                radius := sphere.collider.radius }
            velocity :=
              ((env.getWorldDirection g.camera).multiplyScalar
                (15 + 30 * (1 - env.exp ((g.mouseTime - now) * (1 / 1000))))).addScaledVector
                g.player.velocity 2 })) := by
  constructor
  · intro now
    obtain ⟨h1, h2, h3, h4⟩ := throwBall_step env now g hlen hidx
    obtain ⟨hp, hc, _⟩ := throwBall_frame env now g
    exact ⟨h1, h2, h3, h4, throwBall_writes env now g hlen hidx, hp, hc⟩
  · intro times ht
    obtain ⟨e1, e2, e3⟩ := throwBalls_trace env times g hlen hidx
    refine ⟨?_, ?_, e3, ?_, ?_⟩
    · rw [e1, ht]
      exact cursors_perm _ hidx
    · rw [e2, ht, Nat.add_mod_right]
      exact Nat.mod_eq_of_lt hidx
    · intro j hj
      simp only [NUM_SPHERES] at hj hidx ⊢
      refine ⟨(j + 100 - g.sphereIdx) % 100, ⟨by omega, by omega⟩, ?_⟩
      rintro k ⟨hk1, hk2⟩
      omega
    · intro k hk
      exact (throwBalls_pool env times g hlen hidx (le_of_eq ht)).1 k (by rw [ht]; exact hk)

/-- C15 for the pool at start-up, with the cursor at `0`: one launch
overwrites the body at index `0`, and `NUM_SPHERES` launches bring the cursor
back to `0`. -/
theorem throwBall_round_robin_witness :
    (fallenGame.spheres.length = NUM_SPHERES ∧ fallenGame.sphereIdx < NUM_SPHERES) ∧
    (throwBall plainEnv 1000 fallenGame).sphereIdx = (fallenGame.sphereIdx + 1) % NUM_SPHERES ∧
    (∃ sphere, fallenGame.spheres[fallenGame.sphereIdx]? = some sphere ∧
      (throwBall plainEnv 1000 fallenGame).spheres[fallenGame.sphereIdx]? = some
        { collider :=
            { center := fallenGame.player.collider.end.addScaledVector
                (plainEnv.getWorldDirection fallenGame.camera)
                (fallenGame.player.collider.radius * (3 / 2))
              radius := sphere.collider.radius }
          velocity :=
            ((plainEnv.getWorldDirection fallenGame.camera).multiplyScalar
              (15 + 30 * (1 - plainEnv.exp ((fallenGame.mouseTime - 1000)
                * (1 / 1000))))).addScaledVector fallenGame.player.velocity 2 }) ∧
    (throwBalls plainEnv (List.replicate NUM_SPHERES 1000) fallenGame).sphereIdx
      = fallenGame.sphereIdx :=
  ⟨⟨by simp [fallenGame, initialSpheres], by decide⟩,
    ((throwBall_round_robin plainEnv fallenGame (by simp [fallenGame, initialSpheres])
      (by decide)).1 1000).2.1,
    ((throwBall_round_robin plainEnv fallenGame (by simp [fallenGame, initialSpheres])
      (by decide)).1 1000).2.2.2.2.1,
    ((throwBall_round_robin plainEnv fallenGame (by simp [fallenGame, initialSpheres])
      (by decide)).2 (List.replicate NUM_SPHERES 1000) (by simp)).2.1⟩

/-! ## Exact touching with rounding -/

/-- In binary64 the two spheres of `touchingPairR` have the computed squared
distance equal to the computed squared sum of the radii, and
`spheresCollisions` leaves them unchanged, whatever the square root. -/
theorem binary64_touching_unchanged (sqrt : ℚ → ℚ) :
    binary64 (1 / 5) + binary64 (1 / 5) = binary64 (2 / 5) ∧
    (⟨0, 0, 0⟩ : Vec3).distanceToSquaredR binary64 ⟨binary64 (2 / 5), 0, 0⟩
      = binary64 (binary64 (binary64 (1 / 5) + binary64 (1 / 5))
          * binary64 (binary64 (1 / 5) + binary64 (1 / 5))) ∧
    spheresCollisionsR binary64 sqrt (touchingPairR binary64) = touchingPairR binary64 := by
  have h0 : binary64 (1 / 5)
      = 3602879701896397 / 18014398509481984 := by
    rw [binary64_near (1 / 5)
      7205759403792794 (-55) (1 / 36028797018963968)
      (by norm_num) (by norm_num) (by norm_num) (by norm_num) (by norm_num)]
    norm_num
  have h1 : binary64 (2 / 5)
      = 3602879701896397 / 9007199254740992 := by
    rw [binary64_near (2 / 5)
      7205759403792794 (-54) (1 / 18014398509481984)
      (by norm_num) (by norm_num) (by norm_num) (by norm_num) (by norm_num)]
    norm_num
  have h2 : binary64 (3602879701896397 / 9007199254740992)
      = 3602879701896397 / 9007199254740992 := by
    rw [binary64_near (3602879701896397 / 9007199254740992)
      7205759403792794 (-54) (1 / 18014398509481984)
      (by norm_num) (by norm_num) (by norm_num) (by norm_num) (by norm_num)]
    norm_num
  have h3 : binary64 (12980742146337070512478121581609 / 81129638414606681695789005144064)
      = 1441151880758559 / 9007199254740992 := by
    rw [binary64_near (12980742146337070512478121581609 / 81129638414606681695789005144064)
      5764607523034236 (-55) (1 / 36028797018963968)
      (by norm_num) (by norm_num) (by norm_num) (by norm_num) (by norm_num)]
    norm_num
  have h4 : binary64 (1441151880758559 / 9007199254740992)
      = 1441151880758559 / 9007199254740992 := by
    rw [binary64_near (1441151880758559 / 9007199254740992)
      5764607523034236 (-55) (1 / 36028797018963968)
      (by norm_num) (by norm_num) (by norm_num) (by norm_num) (by norm_num)]
    norm_num
  refine ⟨?_, ?_, ?_⟩
  · norm_num [h0, h1, h2, h3, h4]
  · simp only [Vec3.distanceToSquaredR]
    norm_num [h0, h1, h2, h3, h4, binary64_zero, binary64_neg]
  · rw [touchingPairR, spheresCollisionsR_two]
    simp only [collidePairR, Vec3.distanceToSquaredR]
    norm_num [h0, h1, h2, h3, h4, binary64_zero, binary64_neg]

end LowPoly
